import Mathlib

/-!
Verification development for the Cloudless embedded storage engine
(BlockIO / PagedCache / RecordStore layers).

The C++ sources are shallowly embedded:
* the backing file is a byte-addressed function `Nat → Nat` (each cell holds
  one byte value; all bytes the code itself stores are `< 256`),
* `uint32_t` / `uint64_t` header fields are `Nat`s; where the code serializes
  them to the file the encoding truncates to the field width exactly as the
  byte-wise `memcpy` of the packed struct does,
* fallible operations return `Option` results (a `nullptr` cursor or a
  `false` return is `none` / `false`).
-/

namespace Cloudless

/-- `NOT_FOUND` sentinel: the all-ones 64-bit value (CachedFileIO.h). -/
def NOT_FOUND : Nat := 2 ^ 64 - 1

/-- Page size constant (CachedFileIO.h): 8192 bytes. -/
def PAGE_SIZE : Nat := 8192

/-- Storage header size: `sizeof(StorageHeader)` = 64 bytes (RecordFileIO.h). -/
def STORAGE_HEADER_SIZE : Nat := 64

/-- Record header size: `sizeof(RecordHeader)` = 40 bytes (RecordFileIO.h). -/
def RECORD_HEADER_SIZE : Nat := 40

/-- Checksummed prefix of a record header: 40 - 4 bytes (RecordFileIO.h). -/
def RECORD_HEADER_PAYLOAD_SIZE : Nat := 36

/-- `RECORD_DELETED_FLAG = 1ULL << 63` (RecordFileIO.h). -/
def RECORD_DELETED_FLAG : Nat := 2 ^ 63

/-! ## Byte-addressed file model -/

/-- A file is a total byte store: address to byte value.  Unwritten cells of a
fresh file read as zero, matching the zero-filled cache pages the engine reads
through. -/
def File : Type := Nat → Nat

/-- Write the byte list `bs` at offset `off` (models `memcpy` into the cached
file at a byte offset). -/
def writeBytes (f : File) : Nat → List Nat → File
  | _, [] => f
  | off, b :: bs => writeBytes (fun a => if a = off then b else f a) (off + 1) bs

/-- Read `n` bytes starting at offset `off`. -/
def readBytes (f : File) : Nat → Nat → List Nat
  | _, 0 => []
  | off, n + 1 => f off :: readBytes f (off + 1) n

theorem readBytes_length (f : File) (off n : Nat) : (readBytes f off n).length = n := by
  induction n generalizing off with
  | zero => rfl
  | succ n ih => simp [readBytes, ih]

theorem writeBytes_apply_out (f : File) (bs : List Nat) (off a : Nat)
    (h : a < off ∨ off + bs.length ≤ a) : writeBytes f off bs a = f a := by
  induction bs generalizing f off with
  | nil => rfl
  | cons b bs ih =>
    have hlen : (b :: bs).length = bs.length + 1 := rfl
    rw [hlen] at h
    have h2 : a < off + 1 ∨ (off + 1) + bs.length ≤ a := by omega
    have hne : a ≠ off := by omega
    simp only [writeBytes]
    rw [ih _ _ h2]
    simp [hne]

theorem readBytes_writeBytes_out (f : File) (bs : List Nat) (off off2 n : Nat)
    (h : off2 + n ≤ off ∨ off + bs.length ≤ off2) :
    readBytes (writeBytes f off bs) off2 n = readBytes f off2 n := by
  induction n generalizing off2 with
  | zero => rfl
  | succ n ih =>
    simp only [readBytes]
    rw [writeBytes_apply_out, ih]
    · omega
    · omega

theorem readBytes_writeBytes_self (f : File) (bs : List Nat) (off : Nat) :
    readBytes (writeBytes f off bs) off bs.length = bs := by
  induction bs generalizing f off with
  | nil => rfl
  | cons b bs ih =>
    simp only [writeBytes, List.length_cons, readBytes]
    have h1 : writeBytes (fun a => if a = off then b else f a) (off + 1) bs off = b := by
      rw [writeBytes_apply_out _ _ _ _ (Or.inl (by omega))]
      simp
    rw [h1, ih]

theorem writeBytes_append (f : File) (off : Nat) (xs ys : List Nat) :
    writeBytes f off (xs ++ ys) = writeBytes (writeBytes f off xs) (off + xs.length) ys := by
  induction xs generalizing f off with
  | nil => simp [writeBytes]
  | cons x xs ih =>
    simp only [List.cons_append, writeBytes, List.length_cons]
    rw [show off + (xs.length + 1) = (off + 1) + xs.length by omega]
    exact ih _ _

theorem readBytes_split (f : File) (off m n : Nat) :
    readBytes f off (m + n) = readBytes f off m ++ readBytes f (off + m) n := by
  induction m generalizing off with
  | zero => simp [readBytes]
  | succ m ih =>
    rw [show m + 1 + n = (m + n) + 1 by omega]
    simp only [readBytes, List.cons_append]
    rw [ih (off + 1), show off + 1 + m = off + (m + 1) by omega]

/-! ## Adler-32 checksum (RecordFileIO::checksum, RecordFileIO.cpp:1833-1845) -/

/-- One iteration of the checksum loop:
`a = (a + data[index]) % MOD_ADLER; b = (b + a) % MOD_ADLER`. -/
def adlerStep : Nat × Nat → Nat → Nat × Nat
  | (a, b), d =>
    let a2 := (a + d) % 65521
    (a2, (b + a2) % 65521)

/-- `RecordFileIO::checksum` (RecordFileIO.cpp:1833-1845): byte-wise Adler-32
with `a = 1, b = 0` initial state and result `(b << 16) | a`. -/
def checksum (data : List Nat) : Nat :=
  let ab := data.foldl adlerStep (1, 0)
  (ab.2 <<< 16) ||| ab.1

/-- The `a` component of RFC 1950 Adler-32: one plus the sum of all bytes,
modulo 65521. -/
def rfc1950A (data : List Nat) : Nat := (1 + data.sum) % 65521

/-- The `b` component of RFC 1950 Adler-32: the running sum of the `a` values
after each byte, modulo 65521. -/
def rfc1950B (data : List Nat) : Nat :=
  (((List.range data.length).map (fun k => 1 + (data.take (k + 1)).sum)).sum) % 65521

/-- RFC 1950 Adler-32 of a byte sequence: `(b << 16) | a`. -/
def rfc1950Adler32 (data : List Nat) : Nat := (rfc1950B data <<< 16) ||| rfc1950A data

theorem adler_foldl (l : List Nat) (x y : Nat) :
    l.foldl adlerStep (x % 65521, y % 65521) =
      ((x + l.sum) % 65521,
       (y + ((List.range l.length).map (fun k => x + (l.take (k + 1)).sum)).sum) % 65521) := by
  induction l generalizing x y with
  | nil => simp
  | cons d t ih =>
    have hstep : adlerStep (x % 65521, y % 65521) d = ((x + d) % 65521, (y + (x + d)) % 65521) := by
      simp only [adlerStep, Prod.mk.injEq]
      exact ⟨by omega, by omega⟩
    simp only [List.foldl_cons, hstep]
    rw [ih (x + d) (y + (x + d))]
    simp only [Prod.mk.injEq]
    constructor
    · congr 1
      rw [List.sum_cons]
      ring
    · congr 1
      rw [List.length_cons, List.range_succ_eq_map, List.map_cons, List.sum_cons, List.map_map]
      have hm : (List.range t.length).map ((fun k => x + ((d :: t).take (k + 1)).sum) ∘ Nat.succ)
              = (List.range t.length).map (fun k => x + d + (t.take (k + 1)).sum) := by
        apply List.map_congr_left
        intro k _
        simp only [Function.comp_apply, Nat.succ_eq_add_one, List.take_succ_cons, List.sum_cons]
        ring
      rw [hm]
      simp only [List.take_succ_cons, List.take_zero, List.sum_cons, List.sum_nil]
      ring

theorem checksum_eq_adler32 (data : List Nat) : checksum data = rfc1950Adler32 data := by
  unfold checksum rfc1950Adler32 rfc1950A rfc1950B
  have h1 : (1 : Nat) = 1 % 65521 := rfl
  have h0 : (0 : Nat) = 0 % 65521 := rfl
  conv_lhs => rw [h1, h0]
  rw [adler_foldl]
  simp

/-- C8: `RecordFileIO::checksum` computes RFC 1950 Adler-32 byte-wise: the
`a` accumulator ends at `1 +` the sum of the bytes mod 65521, the `b`
accumulator at the running sum of `a` mod 65521, and the result is
`(b << 16) | a`; the checksum of the empty input is 1. -/
theorem checksum_is_rfc1950_adler32 :
    (∀ data : List Nat, checksum data = rfc1950Adler32 data) ∧ checksum [] = 1 :=
  ⟨checksum_eq_adler32, rfl⟩

/-! ## BlockIO page read (BinaryDirectIO::readPage, BinaryDirectIO.cpp:64-82)

The function has two platform branches.  Both position to
`pageNo * PAGE_SIZE` and issue a one-page read; the operating-system read
returns the number of bytes available before end of file (`osReadResult`).
The Windows branch returns that count unchanged; the POSIX branch compares it
against `PAGE_SIZE` and collapses any short read to 0. -/

/-- Bytes the OS-level positional read returns for a one-page read at
`pageNo * PAGE_SIZE` in a file of `fileLen` bytes (a read at or past end of
file returns 0; a read ending inside the page returns the remainder). -/
def osReadResult (fileLen pageNo : Nat) : Nat :=
  min PAGE_SIZE (fileLen - pageNo * PAGE_SIZE)

/-- POSIX branch of `BinaryDirectIO::readPage` (BinaryDirectIO.cpp:75-79):
`if (bytesRead != PAGE_SIZE) return 0;`. -/
def readPagePosix (fileLen pageNo : Nat) : Nat :=
  let bytesRead := osReadResult fileLen pageNo
  if bytesRead ≠ PAGE_SIZE then 0 else bytesRead

/-- Windows branch of `BinaryDirectIO::readPage` (BinaryDirectIO.cpp:69-74):
a successful `ReadFile` falls through to `return bytesRead`, preserving a
short count. -/
def readPageWin (fileLen pageNo : Nat) : Nat :=
  osReadResult fileLen pageNo

/-- C5: at a 100-byte file and page 0 the OS read returns 100 bytes, the
Windows branch of `BinaryDirectIO::readPage` returns those 100 bytes, but the
POSIX branch collapses the short read to 0 — contradicting the claim that a
short read near EOF is returned as the smaller byte count rather than 0. -/
theorem readPagePosix_collapses_short_read :
    osReadResult 100 0 = 100 ∧ readPageWin 100 0 = 100 ∧ readPagePosix 100 0 = 0 := by
  refine ⟨rfl, rfl, ?_⟩
  decide

/-! ## Little-endian field serialization

The two on-disk headers are packed structs copied byte-wise to and from the
file (`memcpy` in `cachedFile.read`/`write`); fields are stored least
significant byte first at the widths given in RecordFileIO.h. -/

/-- `k`-byte little-endian encoding of `n` (truncates to `2^(8*k)` exactly as
storing into a `k`-byte field does). -/
def leBytes : Nat → Nat → List Nat
  | 0, _ => []
  | k + 1, n => n % 256 :: leBytes k (n / 256)

/-- Value of a little-endian byte list (each cell taken mod 256, as a byte). -/
def leVal : List Nat → Nat
  | [] => 0
  | b :: bs => b % 256 + 256 * leVal bs

theorem leBytes_length (k n : Nat) : (leBytes k n).length = k := by
  induction k generalizing n with
  | zero => rfl
  | succ k ih => simp [leBytes, ih]

theorem leVal_leBytes (k n : Nat) : leVal (leBytes k n) = n % 256 ^ k := by
  induction k generalizing n with
  | zero => simp [leBytes, leVal, Nat.mod_one]
  | succ k ih =>
    simp only [leBytes, leVal, ih]
    rw [pow_succ, mul_comm (256 ^ k) 256, Nat.mod_mul]
    omega

theorem leVal_leBytes_of_lt {k n : Nat} (h : n < 256 ^ k) : leVal (leBytes k n) = n := by
  rw [leVal_leBytes, Nat.mod_eq_of_lt h]

theorem leVal_lt (bs : List Nat) : leVal bs < 256 ^ bs.length := by
  induction bs with
  | nil => simp [leVal]
  | cons b bs ih =>
    simp only [leVal, List.length_cons, pow_succ]
    have hb : b % 256 < 256 := Nat.mod_lt _ (by omega)
    calc b % 256 + 256 * leVal bs < 256 + 256 * leVal bs := by omega
    _ = 256 * (leVal bs + 1) := by ring
    _ ≤ 256 * 256 ^ bs.length := by
        have := ih
        omega
    _ = 256 ^ bs.length * 256 := by ring

/-! ## On-disk header structures (RecordFileIO.h) -/

/-- `RecordHeader` (RecordFileIO.h): three `uint64_t` then four `uint32_t`
fields, 40 bytes packed. -/
structure RecordHeader where
  next : Nat
  previous : Nat
  bitFlags : Nat
  recordCapacity : Nat
  dataLength : Nat
  dataChecksum : Nat
  headChecksum : Nat
deriving DecidableEq, Repr

/-- `StorageHeader` (RecordFileIO.h): two `uint32_t` then seven `uint64_t`
fields, 64 bytes packed. -/
structure StorageHeader where
  signature : Nat
  version : Nat
  endOfData : Nat
  totalRecords : Nat
  firstRecord : Nat
  lastRecord : Nat
  totalFreeRecords : Nat
  firstFreeRecord : Nat
  lastFreeRecord : Nat
deriving DecidableEq, Repr

/-- The first 36 bytes of a packed `RecordHeader` — the checksummed prefix
(`RECORD_HEADER_PAYLOAD_SIZE` excludes the trailing `headChecksum`). -/
def serialize36 (h : RecordHeader) : List Nat :=
  leBytes 8 h.next ++ leBytes 8 h.previous ++ leBytes 8 h.bitFlags ++
  leBytes 4 h.recordCapacity ++ leBytes 4 h.dataLength ++ leBytes 4 h.dataChecksum

/-- All 40 bytes of a packed `RecordHeader`. -/
def serializeRecordHeader (h : RecordHeader) : List Nat :=
  serialize36 h ++ leBytes 4 h.headChecksum

/-- All 64 bytes of a packed `StorageHeader`. -/
def serializeStorageHeader (sh : StorageHeader) : List Nat :=
  leBytes 4 sh.signature ++ leBytes 4 sh.version ++ leBytes 8 sh.endOfData ++
  leBytes 8 sh.totalRecords ++ leBytes 8 sh.firstRecord ++ leBytes 8 sh.lastRecord ++
  leBytes 8 sh.totalFreeRecords ++ leBytes 8 sh.firstFreeRecord ++ leBytes 8 sh.lastFreeRecord

theorem serialize36_length (h : RecordHeader) : (serialize36 h).length = 36 := by
  simp [serialize36, leBytes_length]

theorem serializeRecordHeader_length (h : RecordHeader) :
    (serializeRecordHeader h).length = 40 := by
  simp [serializeRecordHeader, serialize36_length, leBytes_length]

theorem serializeStorageHeader_length (sh : StorageHeader) :
    (serializeStorageHeader sh).length = 64 := by
  simp [serializeStorageHeader, leBytes_length]

/-- `serialize36` ignores the `headChecksum` field. -/
theorem serialize36_set_headChecksum (h : RecordHeader) (c : Nat) :
    serialize36 { h with headChecksum := c } = serialize36 h := rfl

/-- Reading a packed `RecordHeader` back from the file into the struct
(the `memcpy` of `cachedFile.read(offset, &header, RECORD_HEADER_SIZE)`):
each field is decoded from its byte slice.  This is the content of the
caller's header buffer whether or not the checksum test passes. -/
def rawHeader (f : File) (off : Nat) : RecordHeader :=
  { next := leVal (readBytes f off 8)
    previous := leVal (readBytes f (off + 8) 8)
    bitFlags := leVal (readBytes f (off + 16) 8)
    recordCapacity := leVal (readBytes f (off + 24) 4)
    dataLength := leVal (readBytes f (off + 28) 4)
    dataChecksum := leVal (readBytes f (off + 32) 4)
    headChecksum := leVal (readBytes f (off + 36) 4) }

/-- Field bounds under which a `RecordHeader` serializes without truncation:
`uint64_t` fields below `2^64`, `uint32_t` fields below `2^32`. -/
def RecordHeader.Fits (h : RecordHeader) : Prop :=
  h.next < 2 ^ 64 ∧ h.previous < 2 ^ 64 ∧ h.bitFlags < 2 ^ 64 ∧
  h.recordCapacity < 2 ^ 32 ∧ h.dataLength < 2 ^ 32 ∧ h.dataChecksum < 2 ^ 32 ∧
  h.headChecksum < 2 ^ 32

theorem readBytes_writeBytes_pre (f : File) (bs : List Nat) (off n : Nat)
    (h : n ≤ bs.length) :
    readBytes (writeBytes f off bs) off n = bs.take n := by
  induction n generalizing f off bs with
  | zero => rfl
  | succ n ih =>
    match bs, h with
    | [], h => simp at h
    | b :: bs, h =>
      simp only [writeBytes, readBytes, List.take_succ_cons]
      have h1 : writeBytes (fun a => if a = off then b else f a) (off + 1) bs off = b := by
        rw [writeBytes_apply_out _ _ _ _ (Or.inl (by omega))]
        simp
      rw [h1, ih _ _ _ (by simpa using h)]

theorem readBytes_writeBytes_sub (f : File) (bs : List Nat) (off a n : Nat)
    (h : a + n ≤ bs.length) :
    readBytes (writeBytes f off bs) (off + a) n = (bs.drop a).take n := by
  induction a generalizing f off bs with
  | zero =>
    simpa using readBytes_writeBytes_pre f bs off n (by omega)
  | succ a ih =>
    match bs, h with
    | [], h => simp at h
    | b :: bs, h =>
      simp only [writeBytes, List.drop_succ_cons]
      rw [show off + (a + 1) = (off + 1) + a by omega]
      refine ih _ _ _ ?_
      simp only [List.length_cons] at h
      omega

theorem list_drop_append_len {α : Type} (l₁ l₂ : List α) (n : Nat) (h : l₁.length = n) :
    (l₁ ++ l₂).drop n = l₂ := by subst h; simp

theorem list_take_append_len {α : Type} (l₁ l₂ : List α) (n : Nat) (h : l₁.length = n) :
    (l₁ ++ l₂).take n = l₁ := by subst h; simp

/-- Reading back a just-written packed record header recovers the struct
(field bounds ensure the byte encoding does not truncate). -/
theorem rawHeader_writeBytes (f : File) (off : Nat) (hd : RecordHeader) (hf : hd.Fits) :
    rawHeader (writeBytes f off (serializeRecordHeader hd)) off = hd := by
  obtain ⟨nx, pv, bf, rc, dl, dc, hc⟩ := hd
  obtain ⟨b1, b2, b3, b4, b5, b6, b7⟩ := hf
  simp only at b1 b2 b3 b4 b5 b6 b7
  have hlen := serializeRecordHeader_length ⟨nx, pv, bf, rc, dl, dc, hc⟩
  have hassoc : serializeRecordHeader ⟨nx, pv, bf, rc, dl, dc, hc⟩ =
      leBytes 8 nx ++ (leBytes 8 pv ++ (leBytes 8 bf ++ (leBytes 4 rc ++
      (leBytes 4 dl ++ (leBytes 4 dc ++ leBytes 4 hc))))) := by
    simp [serializeRecordHeader, serialize36, List.append_assoc]
  set S := serializeRecordHeader ⟨nx, pv, bf, rc, dl, dc, hc⟩ with hS
  have d8 : S.drop 8 = leBytes 8 pv ++ (leBytes 8 bf ++ (leBytes 4 rc ++
      (leBytes 4 dl ++ (leBytes 4 dc ++ leBytes 4 hc)))) := by
    rw [hassoc, list_drop_append_len _ _ _ (leBytes_length 8 _)]
  have d16 : S.drop 16 = leBytes 8 bf ++ (leBytes 4 rc ++
      (leBytes 4 dl ++ (leBytes 4 dc ++ leBytes 4 hc))) := by
    rw [show (16 : Nat) = 8 + 8 from rfl, ← List.drop_drop, d8,
      list_drop_append_len _ _ _ (leBytes_length 8 _)]
  have d24 : S.drop 24 = leBytes 4 rc ++ (leBytes 4 dl ++ (leBytes 4 dc ++ leBytes 4 hc)) := by
    rw [show (24 : Nat) = 16 + 8 from rfl, ← List.drop_drop, d16,
      list_drop_append_len _ _ _ (leBytes_length 8 _)]
  have d28 : S.drop 28 = leBytes 4 dl ++ (leBytes 4 dc ++ leBytes 4 hc) := by
    rw [show (28 : Nat) = 24 + 4 from rfl, ← List.drop_drop, d24,
      list_drop_append_len _ _ _ (leBytes_length 4 _)]
  have d32 : S.drop 32 = leBytes 4 dc ++ leBytes 4 hc := by
    rw [show (32 : Nat) = 28 + 4 from rfl, ← List.drop_drop, d28,
      list_drop_append_len _ _ _ (leBytes_length 4 _)]
  have d36 : S.drop 36 = leBytes 4 hc := by
    rw [show (36 : Nat) = 32 + 4 from rfl, ← List.drop_drop, d32,
      list_drop_append_len _ _ _ (leBytes_length 4 _)]
  have h64 : (256 : Nat) ^ 8 = 2 ^ 64 := by norm_num
  have h32 : (256 : Nat) ^ 4 = 2 ^ 32 := by norm_num
  simp only [rawHeader, RecordHeader.mk.injEq]
  refine ⟨?_, ?_, ?_, ?_, ?_, ?_, ?_⟩
  · rw [readBytes_writeBytes_pre _ _ _ _ (by omega), hassoc,
      list_take_append_len _ _ _ (leBytes_length 8 _)]
    exact leVal_leBytes_of_lt (by omega)
  · rw [readBytes_writeBytes_sub _ _ _ 8 _ (by omega), d8,
      list_take_append_len _ _ _ (leBytes_length 8 _)]
    exact leVal_leBytes_of_lt (by omega)
  · rw [readBytes_writeBytes_sub _ _ _ 16 _ (by omega), d16,
      list_take_append_len _ _ _ (leBytes_length 8 _)]
    exact leVal_leBytes_of_lt (by omega)
  · rw [readBytes_writeBytes_sub _ _ _ 24 _ (by omega), d24,
      list_take_append_len _ _ _ (leBytes_length 4 _)]
    exact leVal_leBytes_of_lt (by omega)
  · rw [readBytes_writeBytes_sub _ _ _ 28 _ (by omega), d28,
      list_take_append_len _ _ _ (leBytes_length 4 _)]
    exact leVal_leBytes_of_lt (by omega)
  · rw [readBytes_writeBytes_sub _ _ _ 32 _ (by omega), d32,
      list_take_append_len _ _ _ (leBytes_length 4 _)]
    exact leVal_leBytes_of_lt (by omega)
  · rw [readBytes_writeBytes_sub _ _ _ 36 _ (by omega), d36,
      List.take_of_length_le (by simp [leBytes_length])]
    exact leVal_leBytes_of_lt (by omega)

/-! ## RecordStore state

The store state is the in-memory `StorageHeader`, the backing byte file seen
through the page cache (every `cachedFile.read`/`write` is a byte-range
access that succeeds in full, as it does whenever the cache is usable), the
read-only flag, and `freeLookupDepth`.  Two further fields support the
file-size claims: `highWater` is the least upper bound of all byte ranges
ever written through the cache (the last page the cache will emit on flush
covers it), and `fileSize` is the length of the underlying block file. -/

structure RecordStore where
  file : File
  hdr : StorageHeader
  readOnly : Bool
  freeLookupDepth : Nat
  highWater : Nat
  fileSize : Nat

/-- A `cachedFile.write` of byte list `bs` at `off` (always succeeds in
full); tracks the high-water mark of written bytes. -/
def RecordStore.wr (s : RecordStore) (off : Nat) (bs : List Nat) : RecordStore :=
  { s with file := writeBytes s.file off bs, highWater := max s.highWater (off + bs.length) }

/-- `RecordFileIO::writeStorageHeader` (RecordFileIO.cpp:1203-1218): writes
the 64 packed header bytes at offset 0 and re-adjusts `freeLookupDepth` to
`max(FREE_RECORD_LOOKUP_DEPTH, totalFreeRecords / FREE_RECORD_LOOKUP_RATIO)`
(constants 64 and 10). -/
def writeStorageHeader (s : RecordStore) : RecordStore :=
  let s1 := s.wr 0 (serializeStorageHeader s.hdr)
  { s1 with freeLookupDepth := max 64 (s.hdr.totalFreeRecords / 10) }

/-- `RecordFileIO::readRecordHeader` (RecordFileIO.cpp:1261-1271): reads 40
bytes into the caller's struct, then returns the offset only when the
Adler-32 of the first 36 bytes matches the stored `headChecksum`.  The
caller's buffer holds `rawHeader` in either case; `some` is the successful
return. -/
def readRecordHeader (f : File) (off : Nat) : Option RecordHeader :=
  if checksum (readBytes f off RECORD_HEADER_PAYLOAD_SIZE) = (rawHeader f off).headChecksum
  then some (rawHeader f off) else none

/-- `RecordFileIO::writeRecordHeader` (RecordFileIO.cpp:1281-1292): stores
the Adler-32 of the first 36 struct bytes into `headChecksum`, then writes
the 40 packed bytes; returns the header as mutated (the caller's struct). -/
def writeRecordHeader (s : RecordStore) (off : Nat) (h : RecordHeader) :
    RecordStore × RecordHeader :=
  let h2 := { h with headChecksum := checksum (serialize36 h) }
  (s.wr off (serializeRecordHeader h2), h2)

/-- `RecordFileIO::readRecordData` (RecordFileIO.cpp:1303-1334): fails on a
`NOT_FOUND` offset, reads and checksum-verifies the header, reads
`dataLength` payload bytes, and fails unless their Adler-32 matches
`dataChecksum`.  Returns the payload read into the caller's buffer. -/
def readRecordData (s : RecordStore) (off : Nat) : Option (List Nat) :=
  if off = NOT_FOUND then none else
  match readRecordHeader s.file off with
  | none => none
  | some h =>
    let data := readBytes s.file (off + RECORD_HEADER_SIZE) h.dataLength
    if checksum data = h.dataChecksum then some data else none

/-- `RecordFileIO::createFirstRecord` (RecordFileIO.cpp:1491-1523): builds
the header of the first record at offset `STORAGE_HEADER_SIZE`, updates the
storage header (head, tail, `endOfData`, count), writes record header and
payload, then persists the storage header. -/
def createFirstRecord (s : RecordStore) (capacity : Nat) (data : List Nat) :
    RecordStore × Nat × RecordHeader :=
  let offset := STORAGE_HEADER_SIZE
  let r0 : RecordHeader :=
    { next := NOT_FOUND, previous := NOT_FOUND, bitFlags := 0,
      recordCapacity := capacity, dataLength := data.length,
      dataChecksum := checksum data, headChecksum := 0 }
  let result := { r0 with headChecksum := checksum (serialize36 r0) }
  let s1 := { s with hdr := { s.hdr with
    firstRecord := offset, lastRecord := offset,
    endOfData := offset + RECORD_HEADER_SIZE + capacity,
    totalRecords := s.hdr.totalRecords + 1 } }
  let s2 := s1.wr offset (serializeRecordHeader result)
  let s3 := s2.wr (offset + RECORD_HEADER_SIZE) data
  (writeStorageHeader s3, offset, result)

/-- `RecordFileIO::appendNewRecord` (RecordFileIO.cpp:1534-1580): fails on a
zero capacity; otherwise places the new record at `endOfData`, links it after
the old tail (whose header is re-read raw and rewritten with `next` set, the
checksum-verification result being ignored by the source), updates the
storage header fields, writes record header and payload, and persists the
storage header. -/
def appendNewRecordOk (s : RecordStore) (capacity : Nat) (data : List Nat) :
    RecordStore × Option (Nat × RecordHeader) :=
  let lastRecordOffset := s.hdr.lastRecord
  let freeRecordOffset := s.hdr.endOfData
  let r0 : RecordHeader :=
    { next := NOT_FOUND, previous := lastRecordOffset, bitFlags := 0,
      recordCapacity := capacity, dataLength := data.length,
      dataChecksum := checksum data, headChecksum := 0 }
  let result := { r0 with headChecksum := checksum (serialize36 r0) }
  let s1 := { s with hdr := { s.hdr with
    lastRecord := freeRecordOffset,
    endOfData := freeRecordOffset + RECORD_HEADER_SIZE + capacity,
    totalRecords := s.hdr.totalRecords + 1 } }
  let lastRec := rawHeader s1.file lastRecordOffset
  let s2 := (writeRecordHeader s1 lastRecordOffset { lastRec with next := freeRecordOffset }).1
  let s3 := s2.wr freeRecordOffset (serializeRecordHeader result)
  let s4 := s3.wr (freeRecordOffset + RECORD_HEADER_SIZE) data
  (writeStorageHeader s4, some (freeRecordOffset, result))

/-- `RecordFileIO::appendNewRecord` checks the zero-capacity guard and then
runs the body above. -/
def appendNewRecord (s : RecordStore) (capacity : Nat) (data : List Nat) :
    RecordStore × Option (Nat × RecordHeader) :=
  if capacity = 0 then (s, none) else appendNewRecordOk s capacity data

/-- `RecordFileIO::removeRecordFromFreeList` (RecordFileIO.cpp:1749-1823):
unlinks a free record (whose header the caller passes by value) from the free
list, rewriting sibling headers and the free-list head/tail and count in the
storage header, then persists the storage header.  The source throws if the
deleted bit is clear; the one call site only passes headers with the bit
set. -/
def removeRecordFromFreeList (s : RecordStore) (freeRecord : RecordHeader) : RecordStore :=
  let leftOff := freeRecord.previous
  let rightOff := freeRecord.next
  if leftOff ≠ NOT_FOUND ∧ rightOff ≠ NOT_FOUND then
    let lh := rawHeader s.file leftOff
    let rh := rawHeader s.file rightOff
    let s1 := (writeRecordHeader s leftOff { lh with next := rightOff }).1
    let s2 := (writeRecordHeader s1 rightOff { rh with previous := leftOff }).1
    writeStorageHeader { s2 with hdr := { s2.hdr with
      totalFreeRecords := s2.hdr.totalFreeRecords - 1 } }
  else if leftOff ≠ NOT_FOUND then
    let lh := rawHeader s.file leftOff
    let s1 := (writeRecordHeader s leftOff { lh with next := NOT_FOUND }).1
    writeStorageHeader { s1 with hdr := { s1.hdr with
      lastFreeRecord := leftOff, totalFreeRecords := s1.hdr.totalFreeRecords - 1 } }
  else if rightOff ≠ NOT_FOUND then
    let rh := rawHeader s.file rightOff
    let s1 := (writeRecordHeader s rightOff { rh with previous := NOT_FOUND }).1
    writeStorageHeader { s1 with hdr := { s1.hdr with
      firstFreeRecord := rightOff, totalFreeRecords := s1.hdr.totalFreeRecords - 1 } }
  else
    writeStorageHeader { s with hdr := { s.hdr with
      firstFreeRecord := NOT_FOUND, lastFreeRecord := NOT_FOUND,
      totalFreeRecords := s.hdr.totalFreeRecords - 1 } }

/-- The live tail after the free record is unlinked: `getFromFreeList`
relinks the recycled record after this offset (RecordFileIO.cpp:1638). -/
def scanFoundPrev (s : RecordStore) (offset : Nat) : Nat :=
  (removeRecordFromFreeList s (rawHeader s.file offset)).hdr.lastRecord

/-- The recycled record's header before its checksum is stamped
(RecordFileIO.cpp:1645-1653): deleted bit cleared, relinked after the
current tail, fresh data length and data checksum. -/
def scanFoundR0 (s : RecordStore) (data : List Nat) (offset : Nat) : RecordHeader :=
  { next := NOT_FOUND, previous := scanFoundPrev s offset,
    bitFlags := (rawHeader s.file offset).bitFlags &&& (RECORD_DELETED_FLAG - 1),
    recordCapacity := (rawHeader s.file offset).recordCapacity, dataLength := data.length,
    dataChecksum := checksum data, headChecksum := 0 }

/-- The header `getFromFreeList` writes for the recycled record
(RecordFileIO.cpp:1645-1655): `scanFoundR0` with its Adler-32 stamped. -/
def scanFoundHeader (s : RecordStore) (data : List Nat) (offset : Nat) : RecordHeader :=
  { scanFoundR0 s data offset with
    headChecksum := checksum (serialize36 (scanFoundR0 s data offset)) }

/-- The state `getFromFreeList` has produced just before it writes the
recycled record's header, its payload and the storage header: the record is
unlinked from the free list and the old tail's `next` points at it
(RecordFileIO.cpp:1638-1643). -/
def scanFoundBase (s : RecordStore) (offset : Nat) : RecordStore :=
  let freeRecord := rawHeader s.file offset
  let s1 := removeRecordFromFreeList s freeRecord
  let prevPos := s1.hdr.lastRecord
  let prevRec := rawHeader s1.file prevPos
  (writeRecordHeader s1 prevPos { prevRec with next := offset }).1

/-- The storage header `getFromFreeList` writes last: new tail, one more
live record (RecordFileIO.cpp:1666-1668). -/
def scanFoundFinalHdr (s : RecordStore) (offset : Nat) : StorageHeader :=
  { (scanFoundBase s offset).hdr with
    lastRecord := offset,
    totalRecords := (scanFoundBase s offset).hdr.totalRecords + 1 }

/-- Success branch of the `getFromFreeList` loop: the free record at
`offset` (already known to fit and carry the deleted bit) is unlinked from
the free list, relinked after the tail, rewritten as a live record with the
payload, and made the new tail.  (`RecordStore.wr` keeps `hdr` unchanged, so
updating `hdr` to `scanFoundFinalHdr s offset` is the source's
`{ s4.hdr with lastRecord := offset, totalRecords := s4.hdr.totalRecords + 1 }`.) -/
def freeListScanFound (s : RecordStore) (capacity : Nat) (data : List Nat) (offset : Nat) :
    RecordStore × Option (Nat × RecordHeader) :=
  let result := scanFoundHeader s data offset
  let s2 := scanFoundBase s offset
  let s3 := s2.wr offset (serializeRecordHeader result)
  let s4 := s3.wr (offset + RECORD_HEADER_SIZE) data
  let s5 := { s4 with hdr := scanFoundFinalHdr s offset }
  (writeStorageHeader s5, some (offset, result))

/-- Loop of `RecordFileIO::getFromFreeList` (RecordFileIO.cpp:1614-1674):
walk the free list by raw `next` pointers for at most `fuel` iterations
(`fuel` enters as `freeLookupDepth`); a record that fits and carries the
deleted bit is recycled via `freeListScanFound`. -/
def freeListScan (s : RecordStore) (capacity : Nat) (data : List Nat) :
    Nat → Nat → RecordStore × Option (Nat × RecordHeader)
  | _, 0 => (s, none)
  | offset, fuel + 1 =>
    if offset = NOT_FOUND then (s, none) else
    let freeRecord := rawHeader s.file offset
    if capacity ≤ freeRecord.recordCapacity ∧ freeRecord.bitFlags &&& RECORD_DELETED_FLAG ≠ 0
    then freeListScanFound s capacity data offset
    else freeListScan s capacity data freeRecord.next fuel

/-- `RecordFileIO::getFromFreeList` (RecordFileIO.cpp:1596-1676): nothing to
scan when `totalFreeRecords` is 0; otherwise scan from `firstFreeRecord` to
depth `freeLookupDepth`. -/
def getFromFreeList (s : RecordStore) (capacity : Nat) (data : List Nat) :
    RecordStore × Option (Nat × RecordHeader) :=
  if s.hdr.totalFreeRecords = 0 then (s, none)
  else freeListScan s capacity data s.hdr.firstFreeRecord s.freeLookupDepth

/-- `RecordFileIO::allocateRecord` (RecordFileIO.cpp:1459-1481): with neither
free records nor a tail record, create the first record; otherwise try the
free list and fall back to appending at the end of file. -/
def allocateRecord (s : RecordStore) (capacity : Nat) (data : List Nat) :
    RecordStore × Option (Nat × RecordHeader) :=
  if s.hdr.firstFreeRecord = NOT_FOUND ∧ s.hdr.lastRecord = NOT_FOUND then
    let r := createFirstRecord s capacity data
    (r.1, some (r.2.1, r.2.2))
  else
    match getFromFreeList s capacity data with
    | (s1, some r) => (s1, some r)
    | (s1, none) => appendNewRecord s1 capacity data

/-- `RecordFileIO::createRecord` (RecordFileIO.cpp:929-945): fails on a
read-only store, else allocates a record of capacity equal to the data
length and returns a cursor at the new record (its position and header).
The embedding takes the payload list in place of the `(data, length)` pair;
a zero `length` argument corresponds to the empty list, whose bytes the
source never reads. -/
def createRecord (s : RecordStore) (data : List Nat) :
    RecordStore × Option (Nat × RecordHeader) :=
  if s.readOnly then (s, none) else allocateRecord s data.length data

/-- `RecordFileIO::getRecord` (RecordFileIO.cpp:953-971): reads and verifies
the header at the offset; fails if the read fails or the deleted bit is set;
otherwise returns a cursor (position and header snapshot). -/
def getRecord (s : RecordStore) (pos : Nat) : Option (Nat × RecordHeader) :=
  match readRecordHeader s.file pos with
  | none => none
  | some h =>
    if h.bitFlags &&& RECORD_DELETED_FLAG ≠ 0 then none else some (pos, h)

/-- A header as `RecordFileIO::writeRecordHeader` leaves the caller's
struct: `headChecksum` stamped with the Adler-32 of the first 36 bytes. -/
def stamped (h : RecordHeader) : RecordHeader :=
  { h with headChecksum := checksum (serialize36 h) }

/-- Two 40-byte record-header regions that do not overlap. -/
abbrev Apart (a b : Nat) : Prop :=
  a + RECORD_HEADER_SIZE ≤ b ∨ b + RECORD_HEADER_SIZE ≤ a

/-- The storage-header update of `addRecordToFreeList`
(RecordFileIO.cpp:1700-1711): head of the free list if it was empty, new
tail, one more free record. -/
def addFreeHdr (sh : StorageHeader) (offset : Nat) : StorageHeader :=
  { sh with
    firstFreeRecord := if sh.firstFreeRecord = NOT_FOUND then offset
                       else sh.firstFreeRecord,
    lastFreeRecord := offset,
    totalFreeRecords := sh.totalFreeRecords + 1 }

/-- `addRecordToFreeList` after its storage-header write
(RecordFileIO.cpp:1713). -/
def addToFreeBase (s : RecordStore) (offset : Nat) : RecordStore :=
  writeStorageHeader { s with hdr := addFreeHdr s.hdr offset }

/-- `addRecordToFreeList` after the old free-list tail (if any) is pointed
at the new record (RecordFileIO.cpp:1716-1725). -/
def addToFreeTailLinked (s : RecordStore) (offset : Nat) : RecordStore :=
  if s.hdr.lastFreeRecord ≠ NOT_FOUND then
    (writeRecordHeader (addToFreeBase s offset) s.hdr.lastFreeRecord
      { (rawHeader (addToFreeBase s offset).file s.hdr.lastFreeRecord) with
        next := offset }).1
  else addToFreeBase s offset

/-- The record header `addRecordToFreeList` writes at the freed offset
(RecordFileIO.cpp:1727-1735): unlinked forward, linked after the old
free-list tail, payload zeroed, deleted bit set. -/
def freeHeader (h : RecordHeader) (prevFree : Nat) : RecordHeader :=
  { h with
    next := NOT_FOUND, previous := prevFree,
    dataLength := 0, dataChecksum := 0,
    bitFlags := h.bitFlags ||| RECORD_DELETED_FLAG }

/-- `RecordFileIO::addRecordToFreeList` (RecordFileIO.cpp:1684-1742): fails
(state unchanged) when the header at `offset` does not verify or is already
deleted; otherwise pushes the record on the free-list tail: updates
`firstFreeRecord` (if the list was empty), `lastFreeRecord` and the count,
persists the storage header, points the old tail's `next` at the record, and
rewrites the record's header with `next = NOT_FOUND`, `previous` the old
tail, zero `dataLength` and `dataChecksum`, and the deleted bit set. -/
def addRecordToFreeList (s : RecordStore) (offset : Nat) : RecordStore × Bool :=
  match readRecordHeader s.file offset with
  | none => (s, false)
  | some h =>
    if h.bitFlags &&& RECORD_DELETED_FLAG ≠ 0 then (s, false) else
    ((writeRecordHeader (addToFreeTailLinked s offset) offset
        (freeHeader h s.hdr.lastFreeRecord)).1, true)

/-- The two sibling relinks of `removeRecord`'s middle branch
(RecordFileIO.cpp:1070-1076): both sibling headers are read raw from the
original file, the left one is rewritten with `next` at the right sibling,
the right one with `previous` at the left sibling.  The second component is
the mutated right-sibling header (the new cursor header). -/
def midW2 (s : RecordStore) (h : RecordHeader) : RecordStore × RecordHeader :=
  writeRecordHeader
    ((writeRecordHeader s h.previous
        { (rawHeader s.file h.previous) with next := h.next }).1)
    h.next { (rawHeader s.file h.next) with previous := h.previous }

/-- The left-sibling relink of `removeRecord`'s tail branch
(RecordFileIO.cpp:1091-1094). -/
def tailW1 (s : RecordStore) (h : RecordHeader) : RecordStore × RecordHeader :=
  writeRecordHeader s h.previous
    { (rawHeader s.file h.previous) with next := NOT_FOUND }

/-- The right-sibling relink of `removeRecord`'s head branch
(RecordFileIO.cpp:1109-1112). -/
def headW1 (s : RecordStore) (h : RecordHeader) : RecordStore × RecordHeader :=
  writeRecordHeader s h.next
    { (rawHeader s.file h.next) with previous := NOT_FOUND }

/-- The middle branch of `removeRecord` (RecordFileIO.cpp:1067-1088): both
siblings exist; they are relinked to each other, the record goes on the free
list, `totalRecords` drops, and the cursor moves to the right sibling. -/
def removeMiddle (s : RecordStore) (pos : Nat) (h : RecordHeader) :
    RecordStore × Option (Nat × RecordHeader) :=
  let w2 := midW2 s h
  let s3 := (addRecordToFreeList w2.1 pos).1
  let s4 := writeStorageHeader { s3 with hdr := { s3.hdr with
    totalRecords := s3.hdr.totalRecords - 1 } }
  (s4, some (h.next, w2.2))

/-- The tail branch of `removeRecord` (RecordFileIO.cpp:1089-1106): only a
left sibling; it becomes the live tail and the new cursor record. -/
def removeTail (s : RecordStore) (pos : Nat) (h : RecordHeader) :
    RecordStore × Option (Nat × RecordHeader) :=
  let w1 := tailW1 s h
  let s2 := (addRecordToFreeList w1.1 pos).1
  let s3 := writeStorageHeader { s2 with hdr := { s2.hdr with
    lastRecord := h.previous, totalRecords := s2.hdr.totalRecords - 1 } }
  (s3, some (h.previous, w1.2))

/-- The head branch of `removeRecord` (RecordFileIO.cpp:1107-1124): only a
right sibling; it becomes the live head and the new cursor record. -/
def removeHead (s : RecordStore) (pos : Nat) (h : RecordHeader) :
    RecordStore × Option (Nat × RecordHeader) :=
  let w1 := headW1 s h
  let s2 := (addRecordToFreeList w1.1 pos).1
  let s3 := writeStorageHeader { s2 with hdr := { s2.hdr with
    firstRecord := h.next, totalRecords := s2.hdr.totalRecords - 1 } }
  (s3, some (h.next, w1.2))

/-- The only-record branch of `removeRecord` (RecordFileIO.cpp:1125-1137,
1146-1153): no siblings; the live list empties and the cursor is
invalidated (position `NOT_FOUND`, header fields zeroed). -/
def removeOnly (s : RecordStore) (pos : Nat) (h : RecordHeader) :
    RecordStore × Option (Nat × RecordHeader) :=
  let s1 := (addRecordToFreeList s pos).1
  let s2 := writeStorageHeader { s1 with hdr := { s1.hdr with
    firstRecord := NOT_FOUND, lastRecord := NOT_FOUND,
    totalRecords := s1.hdr.totalRecords - 1 } }
  (s2, some (NOT_FOUND, { h with
    next := NOT_FOUND, previous := NOT_FOUND,
    dataLength := 0, dataChecksum := 0, headChecksum := 0 }))

/-- `RecordFileIO::removeRecord` (RecordFileIO.cpp:1036-1157): fails on a
read-only store, an unreadable header, or a deleted record.  Otherwise
relinks the neighbours (removing in the middle, at the tail, at the head, or
the only record), adds the record to the free list, decrements
`totalRecords`, persists the storage header, and moves the cursor to the
right neighbour if any, else the left neighbour, else invalidates it
(position `NOT_FOUND`).  The `some` result carries the cursor's new position
and header; `some` is the source's `return true`. -/
def removeRecord (s : RecordStore) (pos : Nat) : RecordStore × Option (Nat × RecordHeader) :=
  if s.readOnly then (s, none) else
  match readRecordHeader s.file pos with
  | none => (s, none)
  | some h =>
  if h.bitFlags &&& RECORD_DELETED_FLAG ≠ 0 then (s, none) else
  if h.previous ≠ NOT_FOUND ∧ h.next ≠ NOT_FOUND then removeMiddle s pos h
  else if h.previous ≠ NOT_FOUND then removeTail s pos h
  else if h.next ≠ NOT_FOUND then removeHead s pos h
  else removeOnly s pos h

/-- The relocation writes of `writeRecordData`'s grow path
(RecordFileIO.cpp:1398-1428): neighbours are repointed at the replacement
record, which is spliced into the live list in the old record's place. -/
def relocBase (s1 : RecordStore) (h newH : RecordHeader) (newOff : Nat) : RecordStore :=
  let leftOff := h.previous
  let rightOff := h.next
  let s2 := if leftOff ≠ NOT_FOUND then
      (writeRecordHeader s1 leftOff { (rawHeader s1.file leftOff) with next := newOff }).1
    else s1
  let s3 := if rightOff ≠ NOT_FOUND then
      (writeRecordHeader s2 rightOff { (rawHeader s2.file rightOff) with previous := newOff }).1
    else s2
  (writeRecordHeader s3 newOff { newH with previous := leftOff, next := rightOff }).1

/-- End of `writeRecordData`'s grow path (RecordFileIO.cpp:1430-1440): the
old record goes on the free list; the new offset is returned when that
succeeds. -/
def relocateTail (s1 : RecordStore) (h : RecordHeader) (newOff offset : Nat)
    (newH : RecordHeader) : RecordStore × Option Nat :=
  match addRecordToFreeList (relocBase s1 h newH newOff) offset with
  | (s5, true) => (s5, some newOff)
  | (s5, false) => (s5, none)

/-- `RecordFileIO::writeRecordData` (RecordFileIO.cpp:1347-1442): in-place
overwrite when the new length fits the record's capacity; otherwise allocate
a replacement record, repoint the neighbours at it, splice it into the live
list, and put the old offset on the free list.  The `some` result is the
returned record position. -/
def writeRecordData (s : RecordStore) (offset : Nat) (data : List Nat) :
    RecordStore × Option Nat :=
  if s.readOnly ∨ offset = NOT_FOUND ∨ data.length = 0 then (s, none) else
  match readRecordHeader s.file offset with
  | none => (s, none)
  | some h =>
  if h.bitFlags &&& RECORD_DELETED_FLAG ≠ 0 then (s, none) else
  if data.length ≤ h.recordCapacity then
    let h0 := { h with dataLength := data.length, dataChecksum := checksum data }
    let h2 := { h0 with headChecksum := checksum (serialize36 h0) }
    let s1 := s.wr offset (serializeRecordHeader h2)
    let s2 := s1.wr (offset + RECORD_HEADER_SIZE) data
    (s2, some offset)
  else
    match allocateRecord s data.length data with
    | (s1, none) => (s1, none)
    | (s1, some (newOff, newH)) => relocateTail s1 h newOff offset newH

/-- `RecordFileIO::createStorageHeader` (RecordFileIO.cpp:1178-1195) applied
by `open` to an empty writable file: the fresh in-memory header. -/
def freshHeader : StorageHeader :=
  { signature := 0x574F4E4B, version := 1, endOfData := STORAGE_HEADER_SIZE,
    totalRecords := 0, firstRecord := NOT_FOUND, lastRecord := NOT_FOUND,
    totalFreeRecords := 0, firstFreeRecord := NOT_FOUND, lastFreeRecord := NOT_FOUND }

/-- A freshly opened writable store over an empty file: `open` calls
`createStorageHeader`, which persists the fresh header. -/
def freshStore : RecordStore :=
  writeStorageHeader
    { file := fun _ => 0, hdr := freshHeader, readOnly := false,
      freeLookupDepth := 64, highWater := 0, fileSize := 0 }

/-- `RecordFileIO::flush` forwards to `CachedFileIO::flush`
(RecordFileIO.cpp:868-871), which persists every page written through the
cache with full-page block writes (`persistCachePage` writes `PAGE_SIZE`
bytes at `pageNo * PAGE_SIZE`; a dirty page evicted before the flush was
already persisted the same way at eviction).  Hence after a flush the block
file extends at least to the page-aligned high-water mark of bytes written
through the cache; the block file never shrinks. -/
def flushStore (s : RecordStore) : RecordStore :=
  { s with fileSize := max s.fileSize (((s.highWater + PAGE_SIZE - 1) / PAGE_SIZE) * PAGE_SIZE) }

/-! ## Supporting lemmas for the record-store proofs -/

theorem checksum_lt (data : List Nat) : checksum data < 2 ^ 32 := by
  rw [checksum_eq_adler32 data]
  unfold rfc1950Adler32
  apply Nat.or_lt_two_pow
  · unfold rfc1950B
    generalize ((List.range data.length).map (fun k => 1 + (data.take (k + 1)).sum)).sum = M
    have hb : M % 65521 < 65521 := Nat.mod_lt _ (by omega)
    rw [Nat.shiftLeft_eq]
    have h1 : M % 65521 * 2 ^ 16 ≤ 65520 * 2 ^ 16 := Nat.mul_le_mul_right _ (by omega)
    have h2 : (65520 : Nat) * 2 ^ 16 < 2 ^ 32 := by norm_num
    omega
  · unfold rfc1950A
    generalize (1 + data.sum) = M
    have : M % 65521 < 65521 := Nat.mod_lt _ (by omega)
    omega

theorem and_two_pow_eq_zero {x n : Nat} (h : x < 2 ^ n) : x &&& 2 ^ n = 0 := by
  apply Nat.eq_of_testBit_eq
  intro i
  rw [Nat.testBit_and]
  by_cases hi : i = n
  · subst hi
    simp [Nat.testBit_lt_two_pow h]
  · have : (2 ^ n).testBit i = false := by
      rw [Nat.testBit_two_pow]
      simp [Ne.symm hi]
    simp [this]

theorem wr_file (s : RecordStore) (off : Nat) (bs : List Nat) :
    (s.wr off bs).file = writeBytes s.file off bs := rfl

theorem wr_hdr (s : RecordStore) (off : Nat) (bs : List Nat) :
    (s.wr off bs).hdr = s.hdr := rfl

theorem wr_readOnly (s : RecordStore) (off : Nat) (bs : List Nat) :
    (s.wr off bs).readOnly = s.readOnly := rfl

theorem writeStorageHeader_hdr (s : RecordStore) : (writeStorageHeader s).hdr = s.hdr := rfl

theorem writeStorageHeader_file (s : RecordStore) :
    (writeStorageHeader s).file = writeBytes s.file 0 (serializeStorageHeader s.hdr) := rfl

theorem writeRecordHeader_fst_hdr (s : RecordStore) (off : Nat) (h : RecordHeader) :
    ((writeRecordHeader s off h).1).hdr = s.hdr := rfl

theorem writeRecordHeader_fst_file (s : RecordStore) (off : Nat) (h : RecordHeader) :
    ((writeRecordHeader s off h).1).file =
      writeBytes s.file off (serializeRecordHeader { h with
        headChecksum := checksum (serialize36 h) }) := rfl

/-- `removeRecordFromFreeList` touches only the free-list fields of the
storage header. -/
theorem removeRecordFromFreeList_live_fields (s : RecordStore) (h : RecordHeader) :
    (removeRecordFromFreeList s h).hdr.lastRecord = s.hdr.lastRecord ∧
    (removeRecordFromFreeList s h).hdr.firstRecord = s.hdr.firstRecord ∧
    (removeRecordFromFreeList s h).hdr.totalRecords = s.hdr.totalRecords ∧
    (removeRecordFromFreeList s h).hdr.endOfData = s.hdr.endOfData := by
  unfold removeRecordFromFreeList
  by_cases hp : h.previous = NOT_FOUND <;> by_cases hn : h.next = NOT_FOUND <;>
    simp [hp, hn, writeStorageHeader_hdr, writeRecordHeader_fst_hdr, wr_hdr]

theorem readBytes_congr (f1 f2 : File) (off n : Nat)
    (hpt : ∀ a, off ≤ a → a < off + n → f1 a = f2 a) :
    readBytes f1 off n = readBytes f2 off n := by
  induction n generalizing off with
  | zero => rfl
  | succ n ih =>
    simp only [readBytes]
    rw [hpt off (le_refl off) (by omega), ih (off + 1) (fun a h1 h2 => hpt a (by omega) (by omega))]

theorem rawHeader_congr (f1 f2 : File) (p : Nat)
    (hpt : ∀ a, p ≤ a → a < p + 40 → f1 a = f2 a) :
    rawHeader f1 p = rawHeader f2 p := by
  unfold rawHeader
  rw [readBytes_congr f1 f2 p 8 (fun a h1 h2 => hpt a h1 (by omega)),
      readBytes_congr f1 f2 (p + 8) 8 (fun a h1 h2 => hpt a (by omega) (by omega)),
      readBytes_congr f1 f2 (p + 16) 8 (fun a h1 h2 => hpt a (by omega) (by omega)),
      readBytes_congr f1 f2 (p + 24) 4 (fun a h1 h2 => hpt a (by omega) (by omega)),
      readBytes_congr f1 f2 (p + 28) 4 (fun a h1 h2 => hpt a (by omega) (by omega)),
      readBytes_congr f1 f2 (p + 32) 4 (fun a h1 h2 => hpt a (by omega) (by omega)),
      readBytes_congr f1 f2 (p + 36) 4 (fun a h1 h2 => hpt a (by omega) (by omega))]

theorem readRecordHeader_congr (f1 f2 : File) (p : Nat)
    (hpt : ∀ a, p ≤ a → a < p + 40 → f1 a = f2 a) :
    readRecordHeader f1 p = readRecordHeader f2 p := by
  unfold readRecordHeader
  rw [readBytes_congr f1 f2 p RECORD_HEADER_PAYLOAD_SIZE
        (fun a h1 h2 => hpt a h1 (by unfold RECORD_HEADER_PAYLOAD_SIZE at h2; omega)),
      rawHeader_congr f1 f2 p hpt]

/-- The file of a state that wrote a record header at `p`, its payload at
`p + 40`, and then the 64 storage-header bytes at 0.  Every allocation path
ends with these three writes in this order. -/
def recordWrittenFile (f0 : File) (p : Nat) (h : RecordHeader) (data : List Nat)
    (sh : StorageHeader) : File :=
  writeBytes (writeBytes (writeBytes f0 p (serializeRecordHeader h))
    (p + RECORD_HEADER_SIZE) data) 0 (serializeStorageHeader sh)

theorem recordWrittenFile_header (f0 : File) (p : Nat) (h : RecordHeader) (data : List Nat)
    (sh : StorageHeader) (hp : STORAGE_HEADER_SIZE ≤ p) (hfits : h.Fits)
    (hchk : h.headChecksum = checksum (serialize36 h)) :
    readRecordHeader (recordWrittenFile f0 p h data sh) p = some h := by
  unfold STORAGE_HEADER_SIZE at hp
  have hpt : ∀ a, p ≤ a → a < p + 40 →
      recordWrittenFile f0 p h data sh a = writeBytes f0 p (serializeRecordHeader h) a := by
    intro a h1 h2
    unfold recordWrittenFile
    rw [writeBytes_apply_out _ _ _ _ (Or.inr (by
      rw [serializeStorageHeader_length]; omega))]
    rw [writeBytes_apply_out _ _ _ _ (Or.inl (by unfold RECORD_HEADER_SIZE; omega))]
  rw [readRecordHeader_congr _ _ _ hpt]
  unfold readRecordHeader
  have hraw : rawHeader (writeBytes f0 p (serializeRecordHeader h)) p = h :=
    rawHeader_writeBytes f0 p h hfits
  have hbytes : readBytes (writeBytes f0 p (serializeRecordHeader h)) p
      RECORD_HEADER_PAYLOAD_SIZE = serialize36 h := by
    unfold RECORD_HEADER_PAYLOAD_SIZE
    rw [readBytes_writeBytes_pre _ _ _ _ (by rw [serializeRecordHeader_length]; omega)]
    unfold serializeRecordHeader
    exact list_take_append_len _ _ _ (serialize36_length h)
  rw [hraw, hbytes, ← hchk]
  simp

theorem recordWrittenFile_data (f0 : File) (p : Nat) (h : RecordHeader) (data : List Nat)
    (sh : StorageHeader) (hp : STORAGE_HEADER_SIZE ≤ p) :
    readBytes (recordWrittenFile f0 p h data sh) (p + RECORD_HEADER_SIZE) data.length
      = data := by
  unfold recordWrittenFile STORAGE_HEADER_SIZE at *
  rw [readBytes_writeBytes_out _ _ _ _ _ (Or.inr (by
    rw [serializeStorageHeader_length]; unfold RECORD_HEADER_SIZE; omega))]
  exact readBytes_writeBytes_self _ _ _

/-- A record written by the three final writes of an allocation path is
visible: `getRecord` returns a cursor at it and `readRecordData` returns the
payload.  `hbit` is deleted-bit clearance, `hdl`/`hdc` tie the header to the
payload. -/
theorem recordWrittenFile_visible (s : RecordStore) (f0 : File) (p : Nat) (h : RecordHeader)
    (data : List Nat) (sh : StorageHeader)
    (hfile : s.file = recordWrittenFile f0 p h data sh)
    (hp : STORAGE_HEADER_SIZE ≤ p) (hpnf : p ≠ NOT_FOUND) (hfits : h.Fits)
    (hchk : h.headChecksum = checksum (serialize36 h))
    (hbit : h.bitFlags &&& RECORD_DELETED_FLAG = 0)
    (hdl : h.dataLength = data.length) (hdc : h.dataChecksum = checksum data) :
    getRecord s p = some (p, h) ∧ readRecordData s p = some data := by
  have hh := recordWrittenFile_header f0 p h data sh hp hfits hchk
  have hd := recordWrittenFile_data f0 p h data sh hp
  constructor
  · unfold getRecord
    rw [hfile, hh]
    simp [hbit]
  · unfold readRecordData
    rw [hfile, hh]
    simp only [hpnf, if_false]
    rw [hdl, hd, ← hdc]
    simp

theorem NOT_FOUND_lt : NOT_FOUND < 2 ^ 64 := by
  unfold NOT_FOUND
  have : (0 : Nat) < 2 ^ 64 := Nat.pos_pow_of_pos _ (by norm_num)
  omega

theorem rawHeader_Fits (f : File) (off : Nat) : (rawHeader f off).Fits := by
  have h8 : ∀ o : Nat, leVal (readBytes f o 8) < 2 ^ 64 := by
    intro o
    have := leVal_lt (readBytes f o 8)
    rwa [readBytes_length, show (256 : Nat) ^ 8 = 2 ^ 64 by norm_num] at this
  have h4 : ∀ o : Nat, leVal (readBytes f o 4) < 2 ^ 32 := by
    intro o
    have := leVal_lt (readBytes f o 4)
    rwa [readBytes_length, show (256 : Nat) ^ 4 = 2 ^ 32 by norm_num] at this
  exact ⟨h8 _, h8 _, h8 _, h4 _, h4 _, h4 _, h4 _⟩

/-- All free-list offsets reachable from `off` within `fuel` raw-pointer hops
lie at or beyond the storage header (they are record offsets).  This is the
free-chain well-formedness §3 guarantees between operations. -/
def freeChain64 (f : File) : Nat → Nat → Bool
  | _, 0 => true
  | off, fuel + 1 =>
    if off = NOT_FOUND then true
    else if STORAGE_HEADER_SIZE ≤ off then freeChain64 f (rawHeader f off).next fuel
    else false

theorem freeListScan_none (cap : Nat) (data : List Nat) :
    ∀ (fuel : Nat) (s : RecordStore) (off : Nat) (s' : RecordStore),
      freeListScan s cap data off fuel = (s', none) → s' = s := by
  intro fuel
  induction fuel with
  | zero =>
    intro s off s' he
    simp only [freeListScan] at he
    exact (congrArg Prod.fst he).symm
  | succ fuel ih =>
    intro s off s' he
    simp only [freeListScan] at he
    by_cases hoff : off = NOT_FOUND
    · rw [if_pos hoff] at he
      exact (congrArg Prod.fst he).symm
    · rw [if_neg hoff] at he
      by_cases hcond : cap ≤ (rawHeader s.file off).recordCapacity ∧
          (rawHeader s.file off).bitFlags &&& RECORD_DELETED_FLAG ≠ 0
      · rw [if_pos hcond] at he
        have h2 := congrArg Prod.snd he
        simp only [freeListScanFound] at h2
        simp at h2
      · rw [if_neg hcond] at he
        exact ih s _ s' he

theorem freeListScanFound_snd (s : RecordStore) (cap : Nat) (data : List Nat) (offset : Nat) :
    (freeListScanFound s cap data offset).2 = some (offset, scanFoundHeader s data offset) := rfl

theorem freeListScanFound_file (s : RecordStore) (cap : Nat) (data : List Nat) (offset : Nat) :
    (freeListScanFound s cap data offset).1.file
      = recordWrittenFile (scanFoundBase s offset).file offset
          (scanFoundHeader s data offset) data (scanFoundFinalHdr s offset) := rfl

theorem scanFoundHeader_previous (s : RecordStore) (data : List Nat) (offset : Nat) :
    (scanFoundHeader s data offset).previous = scanFoundPrev s offset := by
  simp only [scanFoundHeader, scanFoundR0]

theorem scanFoundPrev_eq (s : RecordStore) (offset : Nat) :
    scanFoundPrev s offset
      = (removeRecordFromFreeList s (rawHeader s.file offset)).hdr.lastRecord := by
  simp only [scanFoundPrev]

theorem scanFoundHeader_chk (s : RecordStore) (data : List Nat) (offset : Nat) :
    (scanFoundHeader s data offset).headChecksum
      = checksum (serialize36 (scanFoundHeader s data offset)) := by
  simp only [scanFoundHeader, serialize36_set_headChecksum]

theorem scanFoundHeader_bitFlags (s : RecordStore) (data : List Nat) (offset : Nat) :
    (scanFoundHeader s data offset).bitFlags
      = (rawHeader s.file offset).bitFlags &&& (RECORD_DELETED_FLAG - 1) := by
  simp only [scanFoundHeader, scanFoundR0]

theorem scanFoundHeader_fields (s : RecordStore) (data : List Nat) (offset : Nat) :
    (scanFoundHeader s data offset).next = NOT_FOUND ∧
    (scanFoundHeader s data offset).recordCapacity = (rawHeader s.file offset).recordCapacity ∧
    (scanFoundHeader s data offset).dataLength = data.length ∧
    (scanFoundHeader s data offset).dataChecksum = checksum data := by
  refine ⟨?_, ?_, ?_, ?_⟩ <;> simp only [scanFoundHeader, scanFoundR0]

theorem freeListScanFound_spec (s : RecordStore) (cap : Nat) (data : List Nat) (offset : Nat)
    (hlen2 : data.length < 2 ^ 32) (hlast : s.hdr.lastRecord < 2 ^ 64)
    (hoff64 : STORAGE_HEADER_SIZE ≤ offset) (hoffnf : offset ≠ NOT_FOUND) :
    ∀ s' p h, freeListScanFound s cap data offset = (s', some (p, h)) →
      getRecord s' p = some (p, h) ∧ readRecordData s' p = some data := by
  intro s' p h he
  have h2 : some (offset, scanFoundHeader s data offset) = some (p, h) := by
    rw [← freeListScanFound_snd s cap data offset, he]
  simp only [Option.some.injEq, Prod.mk.injEq] at h2
  obtain ⟨hp, hh⟩ := h2
  subst hp
  subst hh
  have h1 : (freeListScanFound s cap data offset).1 = s' := by rw [he]
  rw [← h1]
  obtain ⟨hf1, hf2, hf3, hf4⟩ := scanFoundHeader_fields s data offset
  refine recordWrittenFile_visible _ _ offset _ data _
    (freeListScanFound_file s cap data offset) hoff64 hoffnf
    ⟨?_, ?_, ?_, ?_, ?_, checksum_lt data, checksum_lt _⟩
    (scanFoundHeader_chk s data offset) ?_ hf3 hf4
  · rw [hf1]; exact NOT_FOUND_lt
  · rw [scanFoundHeader_previous, scanFoundPrev_eq,
      (removeRecordFromFreeList_live_fields s _).1]
    exact hlast
  · rw [scanFoundHeader_bitFlags]
    exact lt_of_le_of_lt Nat.and_le_right (by norm_num [RECORD_DELETED_FLAG])
  · rw [hf2]; exact (rawHeader_Fits s.file offset).2.2.2.1
  · rw [hf3]; exact hlen2
  · rw [scanFoundHeader_bitFlags]
    have hx : (rawHeader s.file offset).bitFlags &&& (RECORD_DELETED_FLAG - 1) < 2 ^ 63 :=
      lt_of_le_of_lt Nat.and_le_right (by norm_num [RECORD_DELETED_FLAG])
    exact and_two_pow_eq_zero hx

theorem freeListScan_visible (cap : Nat) (data : List Nat) (hlen2 : data.length < 2 ^ 32) :
    ∀ (fuel : Nat) (s : RecordStore) (off : Nat) (s' : RecordStore) (p : Nat) (h : RecordHeader),
      s.hdr.lastRecord < 2 ^ 64 →
      freeChain64 s.file off fuel = true →
      freeListScan s cap data off fuel = (s', some (p, h)) →
      getRecord s' p = some (p, h) ∧ readRecordData s' p = some data := by
  intro fuel
  induction fuel with
  | zero =>
    intro s off s' p h _ _ he
    simp only [freeListScan] at he
    have := congrArg Prod.snd he
    simp at this
  | succ fuel ih =>
    intro s off s' p h hlast hchain he
    simp only [freeListScan] at he
    by_cases hoff : off = NOT_FOUND
    · rw [if_pos hoff] at he
      have := congrArg Prod.snd he
      simp at this
    · rw [if_neg hoff] at he
      have hch : STORAGE_HEADER_SIZE ≤ off ∧
          freeChain64 s.file (rawHeader s.file off).next fuel = true := by
        unfold freeChain64 at hchain
        rw [if_neg hoff] at hchain
        by_cases hx : STORAGE_HEADER_SIZE ≤ off
        · rw [if_pos hx] at hchain
          exact ⟨hx, hchain⟩
        · rw [if_neg hx] at hchain
          exact absurd hchain (by simp)
      by_cases hcond : cap ≤ (rawHeader s.file off).recordCapacity ∧
          (rawHeader s.file off).bitFlags &&& RECORD_DELETED_FLAG ≠ 0
      · rw [if_pos hcond] at he
        exact freeListScanFound_spec s cap data off hlen2 hlast hch.1 hoff s' p h he
      · rw [if_neg hcond] at he
        exact ih s _ s' p h hlast hch.2 he

theorem createFirstRecord_visible (s : RecordStore) (cap : Nat) (data : List Nat)
    (hcap : cap < 2 ^ 32) (hlen2 : data.length < 2 ^ 32) :
    getRecord (createFirstRecord s cap data).1 (createFirstRecord s cap data).2.1
      = some ((createFirstRecord s cap data).2.1, (createFirstRecord s cap data).2.2) ∧
    readRecordData (createFirstRecord s cap data).1 (createFirstRecord s cap data).2.1
      = some data := by
  refine recordWrittenFile_visible _ _ _ _ data _ rfl (Nat.le_refl _) ?_
    ⟨NOT_FOUND_lt, NOT_FOUND_lt, ?_, hcap, hlen2, checksum_lt data, checksum_lt _⟩
    rfl ?_ rfl rfl
  · show STORAGE_HEADER_SIZE ≠ NOT_FOUND
    norm_num [STORAGE_HEADER_SIZE, NOT_FOUND]
  · show (0 : Nat) < 2 ^ 64
    norm_num
  · show (0 : Nat) &&& RECORD_DELETED_FLAG = 0
    exact Nat.zero_and _

theorem appendNewRecordOk_visible (s : RecordStore) (cap : Nat) (data : List Nat)
    (hcap : cap < 2 ^ 32) (hlen2 : data.length < 2 ^ 32)
    (hend : STORAGE_HEADER_SIZE ≤ s.hdr.endOfData) (hendnf : s.hdr.endOfData ≠ NOT_FOUND)
    (hlast : s.hdr.lastRecord < 2 ^ 64) :
    ∃ h, (appendNewRecordOk s cap data).2 = some (s.hdr.endOfData, h) ∧
      getRecord (appendNewRecordOk s cap data).1 s.hdr.endOfData = some (s.hdr.endOfData, h) ∧
      readRecordData (appendNewRecordOk s cap data).1 s.hdr.endOfData = some data := by
  refine ⟨_, rfl, ?_⟩
  refine recordWrittenFile_visible _ _ _ _ data _ rfl hend hendnf
    ⟨NOT_FOUND_lt, hlast, ?_, hcap, hlen2, checksum_lt data, checksum_lt _⟩ rfl ?_ rfl rfl
  · show (0 : Nat) < 2 ^ 64
    norm_num
  · show (0 : Nat) &&& RECORD_DELETED_FLAG = 0
    exact Nat.zero_and _

/-- C1 (as stated) fails at the empty byte string: on the writable store
that holds one record and no free records, `createRecord` of a 0-length
payload returns a null cursor (allocation falls through to
`appendNewRecord`, which rejects capacity 0). -/
theorem createRecord_roundtrip_counterexample :
    ((createRecord ((createRecord freshStore [104, 105]).1) []).2 = none) ∧
    ((createRecord freshStore [104, 105]).1).readOnly = false := by
  constructor
  · rfl
  · rfl

/-- C1 (amended to non-empty payloads): on a writable store whose header is
well formed (`endOfData` at or past the storage header and not the sentinel,
tail offset a 64-bit value, free chain offsets at or past the storage
header), `createRecord` of any payload with `1 ≤ |s| ≤ 2^32 - 1` returns a
cursor, and `getRecord` at the cursor's position followed by
`readRecordData` yields exactly the payload. -/
theorem createRecord_roundtrip (s : RecordStore) (data : List Nat)
    (hro : s.readOnly = false) (hpos : 0 < data.length) (hlen2 : data.length < 2 ^ 32)
    (hend : STORAGE_HEADER_SIZE ≤ s.hdr.endOfData) (hendnf : s.hdr.endOfData ≠ NOT_FOUND)
    (hlast : s.hdr.lastRecord < 2 ^ 64)
    (hchain : freeChain64 s.file s.hdr.firstFreeRecord s.freeLookupDepth = true) :
    ∃ p h, (createRecord s data).2 = some (p, h) ∧
      getRecord (createRecord s data).1 p = some (p, h) ∧
      readRecordData (createRecord s data).1 p = some data := by
  have hcr : createRecord s data = allocateRecord s data.length data := by
    unfold createRecord
    rw [hro]
    simp
  rw [hcr]
  by_cases hc : s.hdr.firstFreeRecord = NOT_FOUND ∧ s.hdr.lastRecord = NOT_FOUND
  · have ha : allocateRecord s data.length data
        = ((createFirstRecord s data.length data).1,
           some ((createFirstRecord s data.length data).2.1,
                 (createFirstRecord s data.length data).2.2)) := by
      unfold allocateRecord
      rw [if_pos hc]
    rw [ha]
    obtain ⟨hg, hr⟩ := createFirstRecord_visible s data.length data hlen2 hlen2
    exact ⟨_, _, rfl, hg, hr⟩
  · rcases hE : getFromFreeList s data.length data with ⟨s1, r⟩
    rcases r with _ | ⟨p, h⟩
    · have hs1 : s1 = s := by
        unfold getFromFreeList at hE
        by_cases hz : s.hdr.totalFreeRecords = 0
        · rw [if_pos hz] at hE
          exact (congrArg Prod.fst hE).symm
        · rw [if_neg hz] at hE
          exact freeListScan_none _ _ _ _ _ _ hE
      rw [hs1] at hE
      have ha : allocateRecord s data.length data = appendNewRecord s data.length data := by
        unfold allocateRecord
        rw [if_neg hc, hE]
      have hb : appendNewRecord s data.length data = appendNewRecordOk s data.length data := by
        unfold appendNewRecord
        rw [if_neg (by omega : ¬ data.length = 0)]
      rw [ha, hb]
      obtain ⟨h, h1, h2, h3⟩ :=
        appendNewRecordOk_visible s data.length data hlen2 hlen2 hend hendnf hlast
      exact ⟨s.hdr.endOfData, h, h1, h2, h3⟩
    · have hz : ¬ s.hdr.totalFreeRecords = 0 := by
        intro hz
        unfold getFromFreeList at hE
        rw [if_pos hz] at hE
        have := congrArg Prod.snd hE
        simp at this
      have hE2 : freeListScan s data.length data s.hdr.firstFreeRecord s.freeLookupDepth
          = (s1, some (p, h)) := by
        unfold getFromFreeList at hE
        rwa [if_neg hz] at hE
      have ha : allocateRecord s data.length data = (s1, some (p, h)) := by
        unfold allocateRecord
        rw [if_neg hc, hE]
      rw [ha]
      obtain ⟨hg, hr⟩ := freeListScan_visible data.length data hlen2 s.freeLookupDepth s
        s.hdr.firstFreeRecord s1 p h hlast hchain hE2
      exact ⟨p, h, rfl, hg, hr⟩

/-- Witness: the amended round trip holds on a fresh store with the two-byte
payload `hi`. -/
theorem createRecord_roundtrip_witness :
    ∃ p h, (createRecord freshStore [104, 105]).2 = some (p, h) ∧
      getRecord (createRecord freshStore [104, 105]).1 p = some (p, h) ∧
      readRecordData (createRecord freshStore [104, 105]).1 p = some [104, 105] :=
  createRecord_roundtrip freshStore [104, 105] rfl (by decide) (by decide)
    (by decide) (by decide) (by decide) (by decide)

/-- C6 (as stated) fails on the empty store: `createRecord(data, 0)` there
takes the `createFirstRecord` path, allocates a record of capacity 0 at
offset 64 and increments `totalRecords`. -/
theorem createRecord_zero_counterexample :
    ((createRecord freshStore []).2).isSome = true ∧
    (createRecord freshStore []).1.hdr.totalRecords = 1 := by
  constructor
  · rfl
  · rfl

/-- C6 (amended): on a store whose live list is non-empty and whose free
list is empty, a 0-capacity `createRecord` returns a null cursor without
allocating and without touching the store state (in particular the storage
header). -/
theorem createRecord_zero_fails_nonempty (s : RecordStore) (data : List Nat)
    (hlast : s.hdr.lastRecord ≠ NOT_FOUND) (hfree : s.hdr.totalFreeRecords = 0)
    (hdata : data.length = 0) :
    createRecord s data = (s, none) := by
  have hdata2 : data = [] := List.eq_nil_of_length_eq_zero hdata
  subst hdata2
  unfold createRecord
  by_cases hro : s.readOnly = true
  · rw [if_pos hro]
  · rw [if_neg hro]
    unfold allocateRecord
    rw [if_neg (by simp [hlast])]
    unfold getFromFreeList
    rw [if_pos hfree]
    rfl

/-- Witness: the amended C6 holds on the one-record store. -/
theorem createRecord_zero_fails_witness :
    createRecord ((createRecord freshStore [104]).1) []
      = ((createRecord freshStore [104]).1, none) :=
  createRecord_zero_fails_nonempty _ [] (by decide) (by decide) rfl

/-! ## Support lemmas for `removeRecord` (C2) -/

theorem stamped_fields (h : RecordHeader) :
    (stamped h).next = h.next ∧ (stamped h).previous = h.previous ∧
    (stamped h).bitFlags = h.bitFlags ∧ (stamped h).recordCapacity = h.recordCapacity ∧
    (stamped h).dataLength = h.dataLength ∧ (stamped h).dataChecksum = h.dataChecksum := by
  refine ⟨?_, ?_, ?_, ?_, ?_, ?_⟩ <;> simp only [stamped]

theorem stamped_headChecksum_eq (h : RecordHeader) :
    (stamped h).headChecksum = checksum (serialize36 (stamped h)) := by
  simp only [stamped, serialize36_set_headChecksum]

theorem stamped_Fits (h : RecordHeader)
    (hf : h.next < 2 ^ 64 ∧ h.previous < 2 ^ 64 ∧ h.bitFlags < 2 ^ 64 ∧
      h.recordCapacity < 2 ^ 32 ∧ h.dataLength < 2 ^ 32 ∧ h.dataChecksum < 2 ^ 32) :
    (stamped h).Fits := by
  obtain ⟨a1, a2, a3, a4, a5, a6⟩ := hf
  obtain ⟨f1, f2, f3, f4, f5, f6⟩ := stamped_fields h
  have f7 : (stamped h).headChecksum = checksum (serialize36 h) := by simp only [stamped]
  unfold RecordHeader.Fits
  rw [f1, f2, f3, f4, f5, f6, f7]
  exact ⟨a1, a2, a3, a4, a5, a6, checksum_lt _⟩

theorem freeHeader_fields (h : RecordHeader) (pf : Nat) :
    (freeHeader h pf).next = NOT_FOUND ∧ (freeHeader h pf).previous = pf ∧
    (freeHeader h pf).bitFlags = h.bitFlags ||| RECORD_DELETED_FLAG ∧
    (freeHeader h pf).recordCapacity = h.recordCapacity ∧
    (freeHeader h pf).dataLength = 0 ∧ (freeHeader h pf).dataChecksum = 0 := by
  refine ⟨?_, ?_, ?_, ?_, ?_, ?_⟩ <;> simp only [freeHeader]

theorem or_two_pow_and (x n : Nat) : (x ||| 2 ^ n) &&& 2 ^ n = 2 ^ n := by
  apply Nat.eq_of_testBit_eq
  intro i
  rw [Nat.testBit_and, Nat.testBit_or]
  by_cases hi : i = n
  · subst hi
    simp [Nat.testBit_two_pow]
  · have h2 : (2 ^ n).testBit i = false := by
      rw [Nat.testBit_two_pow]
      simp [Ne.symm hi]
    simp [h2]

theorem readRecordHeader_some_raw (f : File) (p : Nat) (h : RecordHeader)
    (he : readRecordHeader f p = some h) : rawHeader f p = h := by
  unfold readRecordHeader at he
  by_cases hc : checksum (readBytes f p RECORD_HEADER_PAYLOAD_SIZE)
      = (rawHeader f p).headChecksum
  · rw [if_pos hc] at he
    exact Option.some.inj he
  · rw [if_neg hc] at he
    cases he

theorem readRecordHeader_some_Fits (f : File) (p : Nat) (h : RecordHeader)
    (he : readRecordHeader f p = some h) : h.Fits := by
  have hr := rawHeader_Fits f p
  rwa [readRecordHeader_some_raw f p h he] at hr

theorem readRecordHeader_writeBytes (f : File) (off : Nat) (hd : RecordHeader)
    (hf : hd.Fits) (hchk : hd.headChecksum = checksum (serialize36 hd)) :
    readRecordHeader (writeBytes f off (serializeRecordHeader hd)) off = some hd := by
  unfold readRecordHeader
  have h36 : readBytes (writeBytes f off (serializeRecordHeader hd)) off
      RECORD_HEADER_PAYLOAD_SIZE = serialize36 hd := by
    have hp := readBytes_writeBytes_pre f (serializeRecordHeader hd) off 36
      (by rw [serializeRecordHeader_length]; omega)
    rw [show RECORD_HEADER_PAYLOAD_SIZE = 36 from rfl, hp]
    simp only [serializeRecordHeader]
    exact list_take_append_len _ _ 36 (serialize36_length hd)
  rw [h36, rawHeader_writeBytes f off hd hf, if_pos hchk.symm]

theorem writeRecordHeader_snd_stamped (s : RecordStore) (off : Nat) (h : RecordHeader) :
    (writeRecordHeader s off h).2 = stamped h := rfl

theorem writeRecordHeader_file_stamped (s : RecordStore) (off : Nat) (h : RecordHeader) :
    ((writeRecordHeader s off h).1).file
      = writeBytes s.file off (serializeRecordHeader (stamped h)) := rfl

theorem writeRecordHeader_fst_readOnly (s : RecordStore) (off : Nat) (h : RecordHeader) :
    ((writeRecordHeader s off h).1).readOnly = s.readOnly := rfl

theorem writeStorageHeader_readOnly (s : RecordStore) :
    (writeStorageHeader s).readOnly = s.readOnly := rfl

theorem addFreeHdr_fields (sh : StorageHeader) (off : Nat) :
    (addFreeHdr sh off).totalRecords = sh.totalRecords ∧
    (addFreeHdr sh off).lastRecord = sh.lastRecord ∧
    (addFreeHdr sh off).firstRecord = sh.firstRecord ∧
    (addFreeHdr sh off).endOfData = sh.endOfData ∧
    (addFreeHdr sh off).totalFreeRecords = sh.totalFreeRecords + 1 ∧
    (addFreeHdr sh off).lastFreeRecord = off := by
  refine ⟨?_, ?_, ?_, ?_, ?_, ?_⟩ <;> simp only [addFreeHdr]

theorem addToFreeBase_hdr (s : RecordStore) (off : Nat) :
    (addToFreeBase s off).hdr = addFreeHdr s.hdr off := rfl

theorem addToFreeBase_file (s : RecordStore) (off : Nat) :
    (addToFreeBase s off).file
      = writeBytes s.file 0 (serializeStorageHeader (addFreeHdr s.hdr off)) := rfl

theorem addToFreeBase_readOnly (s : RecordStore) (off : Nat) :
    (addToFreeBase s off).readOnly = s.readOnly := rfl

theorem addToFreeTailLinked_hdr (s : RecordStore) (off : Nat) :
    (addToFreeTailLinked s off).hdr = addFreeHdr s.hdr off := by
  unfold addToFreeTailLinked
  by_cases hpf : s.hdr.lastFreeRecord ≠ NOT_FOUND
  · rw [if_pos hpf, writeRecordHeader_fst_hdr, addToFreeBase_hdr]
  · rw [if_neg hpf, addToFreeBase_hdr]

theorem addToFreeTailLinked_readOnly (s : RecordStore) (off : Nat) :
    (addToFreeTailLinked s off).readOnly = s.readOnly := by
  unfold addToFreeTailLinked
  by_cases hpf : s.hdr.lastFreeRecord ≠ NOT_FOUND
  · rw [if_pos hpf, writeRecordHeader_fst_readOnly, addToFreeBase_readOnly]
  · rw [if_neg hpf, addToFreeBase_readOnly]

/-- `addToFreeTailLinked` changes the file only below the storage header and
in the old free-list tail's header region. -/
theorem addToFreeTailLinked_frame (s : RecordStore) (off a : Nat)
    (ha64 : STORAGE_HEADER_SIZE ≤ a)
    (hapf : ¬ (s.hdr.lastFreeRecord ≠ NOT_FOUND ∧ s.hdr.lastFreeRecord ≤ a ∧
        a < s.hdr.lastFreeRecord + RECORD_HEADER_SIZE)) :
    (addToFreeTailLinked s off).file a = s.file a := by
  have h64 : STORAGE_HEADER_SIZE = 64 := rfl
  have hbase : (addToFreeBase s off).file a = s.file a := by
    rw [addToFreeBase_file]
    exact writeBytes_apply_out _ _ _ _
      (Or.inr (by rw [serializeStorageHeader_length]; omega))
  unfold addToFreeTailLinked
  by_cases hpf : s.hdr.lastFreeRecord ≠ NOT_FOUND
  · rw [if_pos hpf, writeRecordHeader_file_stamped]
    rw [writeBytes_apply_out _ _ _ _ ?_]
    · exact hbase
    · rw [serializeRecordHeader_length]
      have h40 : RECORD_HEADER_SIZE = 40 := rfl
      rw [h40] at hapf
      omega
  · rw [if_neg hpf]
    exact hbase

theorem addRecordToFreeList_spec (s : RecordStore) (off : Nat) (h : RecordHeader)
    (hrd : readRecordHeader s.file off = some h)
    (hbit : h.bitFlags &&& RECORD_DELETED_FLAG = 0)
    (hoff64 : STORAGE_HEADER_SIZE ≤ off) (hoffb : off < 2 ^ 64)
    (hpf : s.hdr.lastFreeRecord = NOT_FOUND ∨
      (STORAGE_HEADER_SIZE ≤ s.hdr.lastFreeRecord ∧ s.hdr.lastFreeRecord < 2 ^ 64 ∧
        Apart s.hdr.lastFreeRecord off)) :
    (addRecordToFreeList s off).2 = true ∧
    (addRecordToFreeList s off).1.hdr = addFreeHdr s.hdr off ∧
    (addRecordToFreeList s off).1.readOnly = s.readOnly ∧
    readRecordHeader (addRecordToFreeList s off).1.file off
      = some (stamped (freeHeader h s.hdr.lastFreeRecord)) ∧
    (s.hdr.lastFreeRecord ≠ NOT_FOUND →
      (rawHeader (addRecordToFreeList s off).1.file s.hdr.lastFreeRecord).next = off) ∧
    (∀ a, STORAGE_HEADER_SIZE ≤ a →
      ¬ (off ≤ a ∧ a < off + RECORD_HEADER_SIZE) →
      ¬ (s.hdr.lastFreeRecord ≠ NOT_FOUND ∧ s.hdr.lastFreeRecord ≤ a ∧
          a < s.hdr.lastFreeRecord + RECORD_HEADER_SIZE) →
      (addRecordToFreeList s off).1.file a = s.file a) := by
  have h40 : RECORD_HEADER_SIZE = 40 := rfl
  have h64 : STORAGE_HEADER_SIZE = 64 := rfl
  have hFits : h.Fits := readRecordHeader_some_Fits s.file off h hrd
  obtain ⟨b1, b2, b3, b4, b5, b6, b7⟩ := hFits
  have hpfb : s.hdr.lastFreeRecord < 2 ^ 64 := by
    rcases hpf with hpf | ⟨_, hlt, _⟩
    · rw [hpf]; exact NOT_FOUND_lt
    · exact hlt
  have hred : addRecordToFreeList s off
      = ((writeRecordHeader (addToFreeTailLinked s off) off
          (freeHeader h s.hdr.lastFreeRecord)).1, true) := by
    unfold addRecordToFreeList
    rw [hrd]
    simp [hbit]
  have hfhFits : (stamped (freeHeader h s.hdr.lastFreeRecord)).Fits := by
    obtain ⟨g1, g2, g3, g4, g5, g6⟩ := freeHeader_fields h s.hdr.lastFreeRecord
    refine stamped_Fits _ ?_
    rw [g1, g2, g3, g4, g5, g6]
    refine ⟨NOT_FOUND_lt, hpfb, ?_, b4, by norm_num, by norm_num⟩
    exact Nat.or_lt_two_pow b3 (by norm_num [RECORD_DELETED_FLAG])
  refine ⟨by rw [hred], ?_, ?_, ?_, ?_, ?_⟩
  · rw [hred, writeRecordHeader_fst_hdr, addToFreeTailLinked_hdr]
  · rw [hred, writeRecordHeader_fst_readOnly, addToFreeTailLinked_readOnly]
  · rw [hred]
    simp only [writeRecordHeader_file_stamped]
    exact readRecordHeader_writeBytes _ _ _ hfhFits (stamped_headChecksum_eq _)
  · intro hpfne
    obtain ⟨hpf64, hpflt, hpfap⟩ := hpf.resolve_left (by simpa using hpfne)
    rw [hred]
    simp only [writeRecordHeader_file_stamped]
    have hstep : rawHeader (writeBytes (addToFreeTailLinked s off).file off
        (serializeRecordHeader (stamped (freeHeader h s.hdr.lastFreeRecord))))
        s.hdr.lastFreeRecord = rawHeader (addToFreeTailLinked s off).file
          s.hdr.lastFreeRecord := by
      apply rawHeader_congr
      intro a ha1 ha2
      apply writeBytes_apply_out
      rw [serializeRecordHeader_length]
      rcases hpfap with hap | hap <;> rw [h40] at hap <;> omega
    rw [hstep]
    have htl : addToFreeTailLinked s off
        = (writeRecordHeader (addToFreeBase s off) s.hdr.lastFreeRecord
            { (rawHeader (addToFreeBase s off).file s.hdr.lastFreeRecord) with
              next := off }).1 := by
      unfold addToFreeTailLinked
      rw [if_pos hpfne]
    rw [htl, writeRecordHeader_file_stamped]
    have hrawFits := rawHeader_Fits (addToFreeBase s off).file s.hdr.lastFreeRecord
    obtain ⟨c1, c2, c3, c4, c5, c6, c7⟩ := hrawFits
    have hupFits : (stamped { (rawHeader (addToFreeBase s off).file
        s.hdr.lastFreeRecord) with next := off }).Fits := by
      refine stamped_Fits _ ⟨hoffb, c2, c3, c4, c5, c6⟩
    rw [rawHeader_writeBytes _ _ _ hupFits]
    rw [(stamped_fields _).1]
  · intro a ha64 ha2 ha3
    rw [hred]
    simp only [writeRecordHeader_file_stamped]
    rw [writeBytes_apply_out _ _ _ _ ?_]
    · exact addToFreeTailLinked_frame s off a ha64 ha3
    · rw [serializeRecordHeader_length, h40] at *
      rw [h40] at ha2
      omega

theorem midW2_fst_hdr (s : RecordStore) (h : RecordHeader) :
    (midW2 s h).1.hdr = s.hdr := rfl

theorem midW2_fst_readOnly (s : RecordStore) (h : RecordHeader) :
    (midW2 s h).1.readOnly = s.readOnly := rfl

theorem midW2_fst_file (s : RecordStore) (h : RecordHeader) :
    (midW2 s h).1.file
      = writeBytes
          (writeBytes s.file h.previous (serializeRecordHeader
            (stamped { (rawHeader s.file h.previous) with next := h.next })))
          h.next (serializeRecordHeader
            (stamped { (rawHeader s.file h.next) with previous := h.previous })) := rfl

theorem midW2_snd (s : RecordStore) (h : RecordHeader) :
    (midW2 s h).2 = stamped { (rawHeader s.file h.next) with previous := h.previous } := rfl

theorem tailW1_fst_hdr (s : RecordStore) (h : RecordHeader) :
    (tailW1 s h).1.hdr = s.hdr := rfl

theorem tailW1_fst_readOnly (s : RecordStore) (h : RecordHeader) :
    (tailW1 s h).1.readOnly = s.readOnly := rfl

theorem tailW1_fst_file (s : RecordStore) (h : RecordHeader) :
    (tailW1 s h).1.file
      = writeBytes s.file h.previous (serializeRecordHeader
          (stamped { (rawHeader s.file h.previous) with next := NOT_FOUND })) := rfl

theorem headW1_fst_hdr (s : RecordStore) (h : RecordHeader) :
    (headW1 s h).1.hdr = s.hdr := rfl

theorem headW1_fst_readOnly (s : RecordStore) (h : RecordHeader) :
    (headW1 s h).1.readOnly = s.readOnly := rfl

theorem headW1_fst_file (s : RecordStore) (h : RecordHeader) :
    (headW1 s h).1.file
      = writeBytes s.file h.next (serializeRecordHeader
          (stamped { (rawHeader s.file h.next) with previous := NOT_FOUND })) := rfl

/-- Common tail of every `removeRecord` branch: after the record at `pos`
goes on the free list, the storage header (with some live-list fields
updated) is persisted.  The record is then unreadable as a live record, its
on-file header is the deleted free-list header, and all bytes outside the
record's own header, the old free-list tail's header and the storage header
are untouched. -/
theorem removePersist (sA : RecordStore) (pos : Nat) (h : RecordHeader) (hdr2 : StorageHeader)
    (hrdA : readRecordHeader sA.file pos = some h)
    (hbit : h.bitFlags &&& RECORD_DELETED_FLAG = 0)
    (hpos64 : STORAGE_HEADER_SIZE ≤ pos) (hposb : pos < 2 ^ 64)
    (hpfA : sA.hdr.lastFreeRecord = NOT_FOUND ∨
      (STORAGE_HEADER_SIZE ≤ sA.hdr.lastFreeRecord ∧ sA.hdr.lastFreeRecord < 2 ^ 64 ∧
        Apart sA.hdr.lastFreeRecord pos)) :
    (addRecordToFreeList sA pos).1.hdr = addFreeHdr sA.hdr pos ∧
    getRecord (writeStorageHeader { (addRecordToFreeList sA pos).1 with hdr := hdr2 }) pos
      = none ∧
    rawHeader (writeStorageHeader
        { (addRecordToFreeList sA pos).1 with hdr := hdr2 }).file pos
      = stamped (freeHeader h sA.hdr.lastFreeRecord) ∧
    (rawHeader (writeStorageHeader
        { (addRecordToFreeList sA pos).1 with hdr := hdr2 }).file pos).previous
      = sA.hdr.lastFreeRecord ∧
    (rawHeader (writeStorageHeader
        { (addRecordToFreeList sA pos).1 with hdr := hdr2 }).file pos).next = NOT_FOUND ∧
    (rawHeader (writeStorageHeader
        { (addRecordToFreeList sA pos).1 with hdr := hdr2 }).file pos).bitFlags
      &&& RECORD_DELETED_FLAG ≠ 0 ∧
    (∀ a, STORAGE_HEADER_SIZE ≤ a →
      ¬ (pos ≤ a ∧ a < pos + RECORD_HEADER_SIZE) →
      ¬ (sA.hdr.lastFreeRecord ≠ NOT_FOUND ∧ sA.hdr.lastFreeRecord ≤ a ∧
          a < sA.hdr.lastFreeRecord + RECORD_HEADER_SIZE) →
      (writeStorageHeader { (addRecordToFreeList sA pos).1 with hdr := hdr2 }).file a
        = sA.file a) := by
  have h64 : STORAGE_HEADER_SIZE = 64 := rfl
  obtain ⟨_, hAhdr, _, hR, _, hFr⟩ :=
    addRecordToFreeList_spec sA pos h hrdA hbit hpos64 hposb hpfA
  have hfile : (writeStorageHeader
      { (addRecordToFreeList sA pos).1 with hdr := hdr2 }).file
      = writeBytes (addRecordToFreeList sA pos).1.file 0 (serializeStorageHeader hdr2) := by
    rw [writeStorageHeader_file]
  have hrrh : readRecordHeader (writeStorageHeader
      { (addRecordToFreeList sA pos).1 with hdr := hdr2 }).file pos
      = some (stamped (freeHeader h sA.hdr.lastFreeRecord)) := by
    rw [hfile]
    rw [readRecordHeader_congr _ (addRecordToFreeList sA pos).1.file pos
      (fun a ha1 ha2 => writeBytes_apply_out _ _ _ _
        (Or.inr (by rw [serializeStorageHeader_length]; omega)))]
    exact hR
  have hdel : (stamped (freeHeader h sA.hdr.lastFreeRecord)).bitFlags
      &&& RECORD_DELETED_FLAG ≠ 0 := by
    rw [(stamped_fields _).2.2.1, (freeHeader_fields _ _).2.2.1]
    have hflag : RECORD_DELETED_FLAG = 2 ^ 63 := rfl
    rw [hflag, or_two_pow_and]
    positivity
  have hrawp := readRecordHeader_some_raw _ _ _ hrrh
  refine ⟨hAhdr, ?_, hrawp, ?_, ?_, ?_, ?_⟩
  · unfold getRecord
    rw [hrrh]
    simp [hdel]
  · rw [hrawp, (stamped_fields _).2.1, (freeHeader_fields _ _).2.1]
  · rw [hrawp, (stamped_fields _).1, (freeHeader_fields _ _).1]
  · rw [hrawp]
    exact hdel
  · intro a ha64 ha2 ha3
    rw [hfile]
    rw [writeBytes_apply_out _ _ _ _
      (Or.inr (by rw [serializeStorageHeader_length]; omega))]
    exact hFr a ha64 ha2 ha3

theorem removeMiddle_eq (s : RecordStore) (pos : Nat) (h : RecordHeader) :
    removeMiddle s pos h
      = (writeStorageHeader { (addRecordToFreeList (midW2 s h).1 pos).1 with hdr :=
          { (addRecordToFreeList (midW2 s h).1 pos).1.hdr with
            totalRecords := (addRecordToFreeList (midW2 s h).1 pos).1.hdr.totalRecords - 1 } },
         some (h.next, (midW2 s h).2)) := rfl

theorem removeMiddle_spec (s : RecordStore) (pos : Nat) (h : RecordHeader)
    (hrd : readRecordHeader s.file pos = some h)
    (hbit : h.bitFlags &&& RECORD_DELETED_FLAG = 0)
    (hpos64 : STORAGE_HEADER_SIZE ≤ pos) (hposb : pos < 2 ^ 64)
    (hl64 : STORAGE_HEADER_SIZE ≤ h.previous) (hlA : Apart h.previous pos)
    (hr64 : STORAGE_HEADER_SIZE ≤ h.next) (hrA : Apart h.next pos)
    (hlr : Apart h.next h.previous)
    (hpf : s.hdr.lastFreeRecord = NOT_FOUND ∨
      (STORAGE_HEADER_SIZE ≤ s.hdr.lastFreeRecord ∧ s.hdr.lastFreeRecord < 2 ^ 64 ∧
        Apart s.hdr.lastFreeRecord pos ∧ Apart s.hdr.lastFreeRecord h.previous ∧
        Apart s.hdr.lastFreeRecord h.next)) :
    (removeMiddle s pos h).2 = some (h.next, (midW2 s h).2) ∧
    (removeMiddle s pos h).1.hdr.totalRecords = s.hdr.totalRecords - 1 ∧
    (removeMiddle s pos h).1.hdr.totalFreeRecords = s.hdr.totalFreeRecords + 1 ∧
    (removeMiddle s pos h).1.hdr.lastFreeRecord = pos ∧
    (removeMiddle s pos h).1.hdr.lastRecord = s.hdr.lastRecord ∧
    (removeMiddle s pos h).1.hdr.firstRecord = s.hdr.firstRecord ∧
    getRecord (removeMiddle s pos h).1 pos = none ∧
    (rawHeader (removeMiddle s pos h).1.file pos).bitFlags &&& RECORD_DELETED_FLAG ≠ 0 ∧
    (rawHeader (removeMiddle s pos h).1.file pos).previous = s.hdr.lastFreeRecord ∧
    (rawHeader (removeMiddle s pos h).1.file pos).next = NOT_FOUND ∧
    (rawHeader (removeMiddle s pos h).1.file h.previous).next = h.next ∧
    (rawHeader (removeMiddle s pos h).1.file h.next).previous = h.previous := by
  have h64 : STORAGE_HEADER_SIZE = 64 := rfl
  have h40 : RECORD_HEADER_SIZE = 40 := rfl
  obtain ⟨b1, b2, b3, b4, b5, b6, b7⟩ := readRecordHeader_some_Fits _ _ _ hrd
  have hrdA : readRecordHeader (midW2 s h).1.file pos = some h := by
    rw [midW2_fst_file]
    rw [readRecordHeader_congr _ s.file pos ?_]
    · exact hrd
    · intro a ha1 ha2
      rw [writeBytes_apply_out _ _ _ _ ?_, writeBytes_apply_out _ _ _ _ ?_]
      · rw [serializeRecordHeader_length]
        rcases hlA with hap | hap <;> rw [h40] at hap <;> omega
      · rw [serializeRecordHeader_length]
        rcases hrA with hap | hap <;> rw [h40] at hap <;> omega
  have hpfA : (midW2 s h).1.hdr.lastFreeRecord = NOT_FOUND ∨
      (STORAGE_HEADER_SIZE ≤ (midW2 s h).1.hdr.lastFreeRecord ∧
        (midW2 s h).1.hdr.lastFreeRecord < 2 ^ 64 ∧
        Apart (midW2 s h).1.hdr.lastFreeRecord pos) := by
    rw [midW2_fst_hdr]
    rcases hpf with hpf | ⟨q1, q2, q3, _, _⟩
    · exact Or.inl hpf
    · exact Or.inr ⟨q1, q2, q3⟩
  obtain ⟨hAhdr, hget, hraw, hprevf, hnextf, hbitf, hfr⟩ :=
    removePersist (midW2 s h).1 pos h
      { (addRecordToFreeList (midW2 s h).1 pos).1.hdr with
        totalRecords := (addRecordToFreeList (midW2 s h).1 pos).1.hdr.totalRecords - 1 }
      hrdA hbit hpos64 hposb hpfA
  rw [midW2_fst_hdr] at hAhdr hprevf hfr
  have hfst : (removeMiddle s pos h).1
      = writeStorageHeader { (addRecordToFreeList (midW2 s h).1 pos).1 with hdr :=
          { (addRecordToFreeList (midW2 s h).1 pos).1.hdr with
            totalRecords := (addRecordToFreeList (midW2 s h).1 pos).1.hdr.totalRecords - 1 } } := by
    rw [removeMiddle_eq]
  have hhdr : (removeMiddle s pos h).1.hdr
      = { (addRecordToFreeList (midW2 s h).1 pos).1.hdr with
          totalRecords := (addRecordToFreeList (midW2 s h).1 pos).1.hdr.totalRecords - 1 } := by
    rw [hfst, writeStorageHeader_hdr]
  have hLsurv : rawHeader (removeMiddle s pos h).1.file h.previous
      = rawHeader (midW2 s h).1.file h.previous := by
    rw [hfst]
    apply rawHeader_congr
    intro a ha1 ha2
    refine hfr a (by omega) ?_ ?_
    · rcases hlA with hap | hap <;> rw [h40] at hap <;> rw [h40] <;> omega
    · rcases hpf with hpf | ⟨_, _, _, q4, _⟩
      · rw [hpf]
        simp
      · rcases q4 with hap | hap <;> rw [h40] at hap <;> rw [h40] <;> omega
  have hRsurv : rawHeader (removeMiddle s pos h).1.file h.next
      = rawHeader (midW2 s h).1.file h.next := by
    rw [hfst]
    apply rawHeader_congr
    intro a ha1 ha2
    refine hfr a (by omega) ?_ ?_
    · rcases hrA with hap | hap <;> rw [h40] at hap <;> rw [h40] <;> omega
    · rcases hpf with hpf | ⟨_, _, _, _, q5⟩
      · rw [hpf]
        simp
      · rcases q5 with hap | hap <;> rw [h40] at hap <;> rw [h40] <;> omega
  have hLval : rawHeader (midW2 s h).1.file h.previous
      = stamped { (rawHeader s.file h.previous) with next := h.next } := by
    rw [midW2_fst_file]
    rw [rawHeader_congr _
      (writeBytes s.file h.previous (serializeRecordHeader
        (stamped { (rawHeader s.file h.previous) with next := h.next }))) h.previous ?_]
    · obtain ⟨c1, c2, c3, c4, c5, c6, c7⟩ := rawHeader_Fits s.file h.previous
      exact rawHeader_writeBytes _ _ _ (stamped_Fits _ ⟨b1, c2, c3, c4, c5, c6⟩)
    · intro a ha1 ha2
      apply writeBytes_apply_out
      rw [serializeRecordHeader_length]
      rcases hlr with hap | hap <;> rw [h40] at hap <;> omega
  have hRval : rawHeader (midW2 s h).1.file h.next
      = stamped { (rawHeader s.file h.next) with previous := h.previous } := by
    rw [midW2_fst_file]
    obtain ⟨c1, c2, c3, c4, c5, c6, c7⟩ := rawHeader_Fits s.file h.next
    exact rawHeader_writeBytes _ _ _ (stamped_Fits _ ⟨c1, b2, c3, c4, c5, c6⟩)
  refine ⟨by rw [removeMiddle_eq], ?_, ?_, ?_, ?_, ?_, ?_, ?_, ?_, ?_, ?_, ?_⟩
  · rw [hhdr]
    try simp only [hAhdr]
    try simp [addFreeHdr]
  · rw [hhdr]
    try simp only [hAhdr]
    try simp [addFreeHdr]
  · rw [hhdr]
    try simp only [hAhdr]
    try simp [addFreeHdr]
  · rw [hhdr]
    try simp only [hAhdr]
    try simp [addFreeHdr]
  · rw [hhdr]
    try simp only [hAhdr]
    try simp [addFreeHdr]
  · rw [hfst]
    exact hget
  · rw [hfst]
    exact hbitf
  · rw [hfst]
    exact hprevf
  · rw [hfst]
    exact hnextf
  · rw [hLsurv, hLval, (stamped_fields _).1]
  · rw [hRsurv, hRval, (stamped_fields _).2.1]

theorem removeTail_eq (s : RecordStore) (pos : Nat) (h : RecordHeader) :
    removeTail s pos h
      = (writeStorageHeader { (addRecordToFreeList (tailW1 s h).1 pos).1 with hdr :=
          { (addRecordToFreeList (tailW1 s h).1 pos).1.hdr with
            lastRecord := h.previous,
            totalRecords := (addRecordToFreeList (tailW1 s h).1 pos).1.hdr.totalRecords - 1 } },
         some (h.previous, (tailW1 s h).2)) := rfl

theorem removeTail_spec (s : RecordStore) (pos : Nat) (h : RecordHeader)
    (hrd : readRecordHeader s.file pos = some h)
    (hbit : h.bitFlags &&& RECORD_DELETED_FLAG = 0)
    (hpos64 : STORAGE_HEADER_SIZE ≤ pos) (hposb : pos < 2 ^ 64)
    (hl64 : STORAGE_HEADER_SIZE ≤ h.previous) (hlA : Apart h.previous pos)
    (hpf : s.hdr.lastFreeRecord = NOT_FOUND ∨
      (STORAGE_HEADER_SIZE ≤ s.hdr.lastFreeRecord ∧ s.hdr.lastFreeRecord < 2 ^ 64 ∧
        Apart s.hdr.lastFreeRecord pos ∧ Apart s.hdr.lastFreeRecord h.previous)) :
    (removeTail s pos h).2 = some (h.previous, (tailW1 s h).2) ∧
    (removeTail s pos h).1.hdr.totalRecords = s.hdr.totalRecords - 1 ∧
    (removeTail s pos h).1.hdr.totalFreeRecords = s.hdr.totalFreeRecords + 1 ∧
    (removeTail s pos h).1.hdr.lastFreeRecord = pos ∧
    (removeTail s pos h).1.hdr.lastRecord = h.previous ∧
    (removeTail s pos h).1.hdr.firstRecord = s.hdr.firstRecord ∧
    getRecord (removeTail s pos h).1 pos = none ∧
    (rawHeader (removeTail s pos h).1.file pos).bitFlags &&& RECORD_DELETED_FLAG ≠ 0 ∧
    (rawHeader (removeTail s pos h).1.file pos).previous = s.hdr.lastFreeRecord ∧
    (rawHeader (removeTail s pos h).1.file pos).next = NOT_FOUND ∧
    (rawHeader (removeTail s pos h).1.file h.previous).next = NOT_FOUND := by
  have h64 : STORAGE_HEADER_SIZE = 64 := rfl
  have h40 : RECORD_HEADER_SIZE = 40 := rfl
  obtain ⟨b1, b2, b3, b4, b5, b6, b7⟩ := readRecordHeader_some_Fits _ _ _ hrd
  have hrdA : readRecordHeader (tailW1 s h).1.file pos = some h := by
    rw [tailW1_fst_file]
    rw [readRecordHeader_congr _ s.file pos ?_]
    · exact hrd
    · intro a ha1 ha2
      apply writeBytes_apply_out
      rw [serializeRecordHeader_length]
      rcases hlA with hap | hap <;> rw [h40] at hap <;> omega
  have hpfA : (tailW1 s h).1.hdr.lastFreeRecord = NOT_FOUND ∨
      (STORAGE_HEADER_SIZE ≤ (tailW1 s h).1.hdr.lastFreeRecord ∧
        (tailW1 s h).1.hdr.lastFreeRecord < 2 ^ 64 ∧
        Apart (tailW1 s h).1.hdr.lastFreeRecord pos) := by
    rw [tailW1_fst_hdr]
    rcases hpf with hpf | ⟨q1, q2, q3, _⟩
    · exact Or.inl hpf
    · exact Or.inr ⟨q1, q2, q3⟩
  obtain ⟨hAhdr, hget, hraw, hprevf, hnextf, hbitf, hfr⟩ :=
    removePersist (tailW1 s h).1 pos h
      { (addRecordToFreeList (tailW1 s h).1 pos).1.hdr with
        lastRecord := h.previous,
        totalRecords := (addRecordToFreeList (tailW1 s h).1 pos).1.hdr.totalRecords - 1 }
      hrdA hbit hpos64 hposb hpfA
  rw [tailW1_fst_hdr] at hAhdr hprevf hfr
  have hfst : (removeTail s pos h).1
      = writeStorageHeader { (addRecordToFreeList (tailW1 s h).1 pos).1 with hdr :=
          { (addRecordToFreeList (tailW1 s h).1 pos).1.hdr with
            lastRecord := h.previous,
            totalRecords := (addRecordToFreeList (tailW1 s h).1 pos).1.hdr.totalRecords - 1 } } := by
    rw [removeTail_eq]
  have hhdr : (removeTail s pos h).1.hdr
      = { (addRecordToFreeList (tailW1 s h).1 pos).1.hdr with
          lastRecord := h.previous,
          totalRecords := (addRecordToFreeList (tailW1 s h).1 pos).1.hdr.totalRecords - 1 } := by
    rw [hfst, writeStorageHeader_hdr]
  have hLsurv : rawHeader (removeTail s pos h).1.file h.previous
      = rawHeader (tailW1 s h).1.file h.previous := by
    rw [hfst]
    apply rawHeader_congr
    intro a ha1 ha2
    refine hfr a (by omega) ?_ ?_
    · rcases hlA with hap | hap <;> rw [h40] at hap <;> rw [h40] <;> omega
    · rcases hpf with hpf | ⟨_, _, _, q4⟩
      · rw [hpf]
        simp
      · rcases q4 with hap | hap <;> rw [h40] at hap <;> rw [h40] <;> omega
  have hLval : rawHeader (tailW1 s h).1.file h.previous
      = stamped { (rawHeader s.file h.previous) with next := NOT_FOUND } := by
    rw [tailW1_fst_file]
    obtain ⟨c1, c2, c3, c4, c5, c6, c7⟩ := rawHeader_Fits s.file h.previous
    exact rawHeader_writeBytes _ _ _ (stamped_Fits _ ⟨NOT_FOUND_lt, c2, c3, c4, c5, c6⟩)
  refine ⟨by rw [removeTail_eq], ?_, ?_, ?_, ?_, ?_, ?_, ?_, ?_, ?_, ?_⟩
  · rw [hhdr]
    try simp only [hAhdr]
    try simp [addFreeHdr]
  · rw [hhdr]
    try simp only [hAhdr]
    try simp [addFreeHdr]
  · rw [hhdr]
    try simp only [hAhdr]
    try simp [addFreeHdr]
  · rw [hhdr]
    try simp only [hAhdr]
    try simp [addFreeHdr]
  · rw [hhdr]
    try simp only [hAhdr]
    try simp [addFreeHdr]
  · rw [hfst]
    exact hget
  · rw [hfst]
    exact hbitf
  · rw [hfst]
    exact hprevf
  · rw [hfst]
    exact hnextf
  · rw [hLsurv, hLval, (stamped_fields _).1]

theorem removeHead_eq (s : RecordStore) (pos : Nat) (h : RecordHeader) :
    removeHead s pos h
      = (writeStorageHeader { (addRecordToFreeList (headW1 s h).1 pos).1 with hdr :=
          { (addRecordToFreeList (headW1 s h).1 pos).1.hdr with
            firstRecord := h.next,
            totalRecords := (addRecordToFreeList (headW1 s h).1 pos).1.hdr.totalRecords - 1 } },
         some (h.next, (headW1 s h).2)) := rfl

theorem removeHead_spec (s : RecordStore) (pos : Nat) (h : RecordHeader)
    (hrd : readRecordHeader s.file pos = some h)
    (hbit : h.bitFlags &&& RECORD_DELETED_FLAG = 0)
    (hpos64 : STORAGE_HEADER_SIZE ≤ pos) (hposb : pos < 2 ^ 64)
    (hr64 : STORAGE_HEADER_SIZE ≤ h.next) (hrA : Apart h.next pos)
    (hpf : s.hdr.lastFreeRecord = NOT_FOUND ∨
      (STORAGE_HEADER_SIZE ≤ s.hdr.lastFreeRecord ∧ s.hdr.lastFreeRecord < 2 ^ 64 ∧
        Apart s.hdr.lastFreeRecord pos ∧ Apart s.hdr.lastFreeRecord h.next)) :
    (removeHead s pos h).2 = some (h.next, (headW1 s h).2) ∧
    (removeHead s pos h).1.hdr.totalRecords = s.hdr.totalRecords - 1 ∧
    (removeHead s pos h).1.hdr.totalFreeRecords = s.hdr.totalFreeRecords + 1 ∧
    (removeHead s pos h).1.hdr.lastFreeRecord = pos ∧
    (removeHead s pos h).1.hdr.lastRecord = s.hdr.lastRecord ∧
    (removeHead s pos h).1.hdr.firstRecord = h.next ∧
    getRecord (removeHead s pos h).1 pos = none ∧
    (rawHeader (removeHead s pos h).1.file pos).bitFlags &&& RECORD_DELETED_FLAG ≠ 0 ∧
    (rawHeader (removeHead s pos h).1.file pos).previous = s.hdr.lastFreeRecord ∧
    (rawHeader (removeHead s pos h).1.file pos).next = NOT_FOUND ∧
    (rawHeader (removeHead s pos h).1.file h.next).previous = NOT_FOUND := by
  have h64 : STORAGE_HEADER_SIZE = 64 := rfl
  have h40 : RECORD_HEADER_SIZE = 40 := rfl
  obtain ⟨b1, b2, b3, b4, b5, b6, b7⟩ := readRecordHeader_some_Fits _ _ _ hrd
  have hrdA : readRecordHeader (headW1 s h).1.file pos = some h := by
    rw [headW1_fst_file]
    rw [readRecordHeader_congr _ s.file pos ?_]
    · exact hrd
    · intro a ha1 ha2
      apply writeBytes_apply_out
      rw [serializeRecordHeader_length]
      rcases hrA with hap | hap <;> rw [h40] at hap <;> omega
  have hpfA : (headW1 s h).1.hdr.lastFreeRecord = NOT_FOUND ∨
      (STORAGE_HEADER_SIZE ≤ (headW1 s h).1.hdr.lastFreeRecord ∧
        (headW1 s h).1.hdr.lastFreeRecord < 2 ^ 64 ∧
        Apart (headW1 s h).1.hdr.lastFreeRecord pos) := by
    rw [headW1_fst_hdr]
    rcases hpf with hpf | ⟨q1, q2, q3, _⟩
    · exact Or.inl hpf
    · exact Or.inr ⟨q1, q2, q3⟩
  obtain ⟨hAhdr, hget, hraw, hprevf, hnextf, hbitf, hfr⟩ :=
    removePersist (headW1 s h).1 pos h
      { (addRecordToFreeList (headW1 s h).1 pos).1.hdr with
        firstRecord := h.next,
        totalRecords := (addRecordToFreeList (headW1 s h).1 pos).1.hdr.totalRecords - 1 }
      hrdA hbit hpos64 hposb hpfA
  rw [headW1_fst_hdr] at hAhdr hprevf hfr
  have hfst : (removeHead s pos h).1
      = writeStorageHeader { (addRecordToFreeList (headW1 s h).1 pos).1 with hdr :=
          { (addRecordToFreeList (headW1 s h).1 pos).1.hdr with
            firstRecord := h.next,
            totalRecords := (addRecordToFreeList (headW1 s h).1 pos).1.hdr.totalRecords - 1 } } := by
    rw [removeHead_eq]
  have hhdr : (removeHead s pos h).1.hdr
      = { (addRecordToFreeList (headW1 s h).1 pos).1.hdr with
          firstRecord := h.next,
          totalRecords := (addRecordToFreeList (headW1 s h).1 pos).1.hdr.totalRecords - 1 } := by
    rw [hfst, writeStorageHeader_hdr]
  have hRsurv : rawHeader (removeHead s pos h).1.file h.next
      = rawHeader (headW1 s h).1.file h.next := by
    rw [hfst]
    apply rawHeader_congr
    intro a ha1 ha2
    refine hfr a (by omega) ?_ ?_
    · rcases hrA with hap | hap <;> rw [h40] at hap <;> rw [h40] <;> omega
    · rcases hpf with hpf | ⟨_, _, _, q4⟩
      · rw [hpf]
        simp
      · rcases q4 with hap | hap <;> rw [h40] at hap <;> rw [h40] <;> omega
  have hRval : rawHeader (headW1 s h).1.file h.next
      = stamped { (rawHeader s.file h.next) with previous := NOT_FOUND } := by
    rw [headW1_fst_file]
    obtain ⟨c1, c2, c3, c4, c5, c6, c7⟩ := rawHeader_Fits s.file h.next
    exact rawHeader_writeBytes _ _ _ (stamped_Fits _ ⟨c1, NOT_FOUND_lt, c3, c4, c5, c6⟩)
  refine ⟨by rw [removeHead_eq], ?_, ?_, ?_, ?_, ?_, ?_, ?_, ?_, ?_, ?_⟩
  · rw [hhdr]
    try simp only [hAhdr]
    try simp [addFreeHdr]
  · rw [hhdr]
    try simp only [hAhdr]
    try simp [addFreeHdr]
  · rw [hhdr]
    try simp only [hAhdr]
    try simp [addFreeHdr]
  · rw [hhdr]
    try simp only [hAhdr]
    try simp [addFreeHdr]
  · rw [hhdr]
    try simp only [hAhdr]
    try simp [addFreeHdr]
  · rw [hfst]
    exact hget
  · rw [hfst]
    exact hbitf
  · rw [hfst]
    exact hprevf
  · rw [hfst]
    exact hnextf
  · rw [hRsurv, hRval, (stamped_fields _).2.1]

theorem removeOnly_eq (s : RecordStore) (pos : Nat) (h : RecordHeader) :
    removeOnly s pos h
      = (writeStorageHeader { (addRecordToFreeList s pos).1 with hdr :=
          { (addRecordToFreeList s pos).1.hdr with
            firstRecord := NOT_FOUND, lastRecord := NOT_FOUND,
            totalRecords := (addRecordToFreeList s pos).1.hdr.totalRecords - 1 } },
         some (NOT_FOUND, { h with
           next := NOT_FOUND, previous := NOT_FOUND,
           dataLength := 0, dataChecksum := 0, headChecksum := 0 })) := rfl

theorem removeOnly_spec (s : RecordStore) (pos : Nat) (h : RecordHeader)
    (hrd : readRecordHeader s.file pos = some h)
    (hbit : h.bitFlags &&& RECORD_DELETED_FLAG = 0)
    (hpos64 : STORAGE_HEADER_SIZE ≤ pos) (hposb : pos < 2 ^ 64)
    (hpf : s.hdr.lastFreeRecord = NOT_FOUND ∨
      (STORAGE_HEADER_SIZE ≤ s.hdr.lastFreeRecord ∧ s.hdr.lastFreeRecord < 2 ^ 64 ∧
        Apart s.hdr.lastFreeRecord pos)) :
    (removeOnly s pos h).2 = some (NOT_FOUND, { h with
      next := NOT_FOUND, previous := NOT_FOUND,
      dataLength := 0, dataChecksum := 0, headChecksum := 0 }) ∧
    (removeOnly s pos h).1.hdr.totalRecords = s.hdr.totalRecords - 1 ∧
    (removeOnly s pos h).1.hdr.totalFreeRecords = s.hdr.totalFreeRecords + 1 ∧
    (removeOnly s pos h).1.hdr.lastFreeRecord = pos ∧
    (removeOnly s pos h).1.hdr.lastRecord = NOT_FOUND ∧
    (removeOnly s pos h).1.hdr.firstRecord = NOT_FOUND ∧
    getRecord (removeOnly s pos h).1 pos = none ∧
    (rawHeader (removeOnly s pos h).1.file pos).bitFlags &&& RECORD_DELETED_FLAG ≠ 0 ∧
    (rawHeader (removeOnly s pos h).1.file pos).previous = s.hdr.lastFreeRecord ∧
    (rawHeader (removeOnly s pos h).1.file pos).next = NOT_FOUND := by
  obtain ⟨hAhdr, hget, hraw, hprevf, hnextf, hbitf, hfr⟩ :=
    removePersist s pos h
      { (addRecordToFreeList s pos).1.hdr with
        firstRecord := NOT_FOUND, lastRecord := NOT_FOUND,
        totalRecords := (addRecordToFreeList s pos).1.hdr.totalRecords - 1 }
      hrd hbit hpos64 hposb hpf
  have hfst : (removeOnly s pos h).1
      = writeStorageHeader { (addRecordToFreeList s pos).1 with hdr :=
          { (addRecordToFreeList s pos).1.hdr with
            firstRecord := NOT_FOUND, lastRecord := NOT_FOUND,
            totalRecords := (addRecordToFreeList s pos).1.hdr.totalRecords - 1 } } := by
    rw [removeOnly_eq]
  have hhdr : (removeOnly s pos h).1.hdr
      = { (addRecordToFreeList s pos).1.hdr with
          firstRecord := NOT_FOUND, lastRecord := NOT_FOUND,
          totalRecords := (addRecordToFreeList s pos).1.hdr.totalRecords - 1 } := by
    rw [hfst, writeStorageHeader_hdr]
  refine ⟨by rw [removeOnly_eq], ?_, ?_, ?_, ?_, ?_, ?_, ?_, ?_, ?_⟩
  · rw [hhdr]
    try simp only [hAhdr]
    try simp [addFreeHdr]
  · rw [hhdr]
    try simp only [hAhdr]
    try simp [addFreeHdr]
  · rw [hhdr]
    try simp only [hAhdr]
    try simp [addFreeHdr]
  · rw [hhdr]
    try simp only [hAhdr]
    try simp [addFreeHdr]
  · rw [hhdr]
    try simp only [hAhdr]
    try simp [addFreeHdr]
  · rw [hfst]
    exact hget
  · rw [hfst]
    exact hbitf
  · rw [hfst]
    exact hprevf
  · rw [hfst]
    exact hnextf

/-- C2: on a writable store, for a live record at `pos` (its header reads
back and verifies, deleted bit clear) whose neighbour and free-list-tail
header regions are disjoint from each other, from the record and from the
storage header — the layout §3 guarantees — `removeRecord` unlinks the
record from the live list (the left neighbour's `next` and the right
neighbour's `previous` skip it, `firstRecord`/`lastRecord` are updated as
needed), links it onto the free-list tail with the deleted bit set,
decrements `totalRecords` by one, increments the free count, and returns
true with the cursor moved to the former right neighbour if any, else the
former left neighbour, else `NOT_FOUND`. -/
theorem removeRecord_spec (s : RecordStore) (pos : Nat) (h : RecordHeader)
    (hro : s.readOnly = false)
    (hrd : readRecordHeader s.file pos = some h)
    (hbit : h.bitFlags &&& RECORD_DELETED_FLAG = 0)
    (hpos64 : STORAGE_HEADER_SIZE ≤ pos) (hposb : pos < 2 ^ 64)
    (hprev : h.previous ≠ NOT_FOUND → STORAGE_HEADER_SIZE ≤ h.previous ∧ Apart h.previous pos)
    (hnext : h.next ≠ NOT_FOUND → STORAGE_HEADER_SIZE ≤ h.next ∧ Apart h.next pos ∧
      (h.previous ≠ NOT_FOUND → Apart h.next h.previous))
    (hpf : s.hdr.lastFreeRecord = NOT_FOUND ∨
      (STORAGE_HEADER_SIZE ≤ s.hdr.lastFreeRecord ∧ s.hdr.lastFreeRecord < 2 ^ 64 ∧
        Apart s.hdr.lastFreeRecord pos ∧
        (h.previous ≠ NOT_FOUND → Apart s.hdr.lastFreeRecord h.previous) ∧
        (h.next ≠ NOT_FOUND → Apart s.hdr.lastFreeRecord h.next))) :
    ∃ h2, (removeRecord s pos).2
        = some ((if h.next ≠ NOT_FOUND then h.next
                 else if h.previous ≠ NOT_FOUND then h.previous else NOT_FOUND), h2) ∧
    (removeRecord s pos).1.hdr.totalRecords = s.hdr.totalRecords - 1 ∧
    (removeRecord s pos).1.hdr.totalFreeRecords = s.hdr.totalFreeRecords + 1 ∧
    (removeRecord s pos).1.hdr.lastFreeRecord = pos ∧
    getRecord (removeRecord s pos).1 pos = none ∧
    (rawHeader (removeRecord s pos).1.file pos).bitFlags &&& RECORD_DELETED_FLAG ≠ 0 ∧
    (rawHeader (removeRecord s pos).1.file pos).previous = s.hdr.lastFreeRecord ∧
    (rawHeader (removeRecord s pos).1.file pos).next = NOT_FOUND ∧
    (h.previous ≠ NOT_FOUND → (rawHeader (removeRecord s pos).1.file h.previous).next = h.next) ∧
    (h.next ≠ NOT_FOUND → (rawHeader (removeRecord s pos).1.file h.next).previous = h.previous) ∧
    (removeRecord s pos).1.hdr.lastRecord
      = (if h.next = NOT_FOUND ∧ h.previous ≠ NOT_FOUND then h.previous
         else if h.next = NOT_FOUND ∧ h.previous = NOT_FOUND then NOT_FOUND
         else s.hdr.lastRecord) ∧
    (removeRecord s pos).1.hdr.firstRecord
      = (if h.previous = NOT_FOUND ∧ h.next ≠ NOT_FOUND then h.next
         else if h.previous = NOT_FOUND ∧ h.next = NOT_FOUND then NOT_FOUND
         else s.hdr.firstRecord) := by
  have hred : removeRecord s pos
      = (if h.previous ≠ NOT_FOUND ∧ h.next ≠ NOT_FOUND then removeMiddle s pos h
         else if h.previous ≠ NOT_FOUND then removeTail s pos h
         else if h.next ≠ NOT_FOUND then removeHead s pos h
         else removeOnly s pos h) := by
    unfold removeRecord
    rw [hro, hrd]
    simp [hbit]
  by_cases hl : h.previous = NOT_FOUND <;> by_cases hr : h.next = NOT_FOUND
  · -- only record
    have hb : removeRecord s pos = removeOnly s pos h := by
      rw [hred]
      simp [hl, hr]
    have hpf0 : s.hdr.lastFreeRecord = NOT_FOUND ∨
        (STORAGE_HEADER_SIZE ≤ s.hdr.lastFreeRecord ∧ s.hdr.lastFreeRecord < 2 ^ 64 ∧
          Apart s.hdr.lastFreeRecord pos) := by
      rcases hpf with hpf | ⟨q1, q2, q3, _, _⟩
      · exact Or.inl hpf
      · exact Or.inr ⟨q1, q2, q3⟩
    obtain ⟨c1, c2, c3, c4, c5, c6, c7, c8, c9, c10⟩ :=
      removeOnly_spec s pos h hrd hbit hpos64 hposb hpf0
    rw [hb]
    refine ⟨{ h with
        next := NOT_FOUND, previous := NOT_FOUND,
        dataLength := 0, dataChecksum := 0, headChecksum := 0 },
      ?_, c2, c3, c4, c7, c8, c9, c10, ?_, ?_, ?_, ?_⟩
    · rw [c1]
      simp [hl, hr]
    · intro hc
      exact absurd hl hc
    · intro hc
      exact absurd hr hc
    · rw [c5]
      simp [hl, hr]
    · rw [c6]
      simp [hl, hr]
  · -- first record: right sibling only
    have hb : removeRecord s pos = removeHead s pos h := by
      rw [hred]
      simp [hl, hr]
    obtain ⟨e1, e2, e3⟩ := hnext hr
    have hpf0 : s.hdr.lastFreeRecord = NOT_FOUND ∨
        (STORAGE_HEADER_SIZE ≤ s.hdr.lastFreeRecord ∧ s.hdr.lastFreeRecord < 2 ^ 64 ∧
          Apart s.hdr.lastFreeRecord pos ∧ Apart s.hdr.lastFreeRecord h.next) := by
      rcases hpf with hpf | ⟨q1, q2, q3, _, q5⟩
      · exact Or.inl hpf
      · exact Or.inr ⟨q1, q2, q3, q5 hr⟩
    obtain ⟨c1, c2, c3, c4, c5, c6, c7, c8, c9, c10, c11⟩ :=
      removeHead_spec s pos h hrd hbit hpos64 hposb e1 e2 hpf0
    rw [hb]
    refine ⟨(headW1 s h).2, ?_, c2, c3, c4, c7, c8, c9, c10, ?_, ?_, ?_, ?_⟩
    · rw [c1]
      simp [hr]
    · intro hc
      exact absurd hl hc
    · intro _
      rw [c11, hl]
    · rw [c5]
      simp [hl, hr]
    · rw [c6]
      simp [hl, hr]
  · -- last record: left sibling only
    have hb : removeRecord s pos = removeTail s pos h := by
      rw [hred]
      simp [hl, hr]
    obtain ⟨e1, e2⟩ := hprev hl
    have hpf0 : s.hdr.lastFreeRecord = NOT_FOUND ∨
        (STORAGE_HEADER_SIZE ≤ s.hdr.lastFreeRecord ∧ s.hdr.lastFreeRecord < 2 ^ 64 ∧
          Apart s.hdr.lastFreeRecord pos ∧ Apart s.hdr.lastFreeRecord h.previous) := by
      rcases hpf with hpf | ⟨q1, q2, q3, q4, _⟩
      · exact Or.inl hpf
      · exact Or.inr ⟨q1, q2, q3, q4 hl⟩
    obtain ⟨c1, c2, c3, c4, c5, c6, c7, c8, c9, c10, c11⟩ :=
      removeTail_spec s pos h hrd hbit hpos64 hposb e1 e2 hpf0
    rw [hb]
    refine ⟨(tailW1 s h).2, ?_, c2, c3, c4, c7, c8, c9, c10, ?_, ?_, ?_, ?_⟩
    · rw [c1]
      simp [hl, hr]
    · intro _
      rw [c11, hr]
    · intro hc
      exact absurd hr hc
    · rw [c5]
      simp [hl, hr]
    · rw [c6]
      simp [hl, hr]
  · -- middle record
    have hb : removeRecord s pos = removeMiddle s pos h := by
      rw [hred]
      simp [hl, hr]
    obtain ⟨e1, e2⟩ := hprev hl
    obtain ⟨f1, f2, f3⟩ := hnext hr
    have hpf0 : s.hdr.lastFreeRecord = NOT_FOUND ∨
        (STORAGE_HEADER_SIZE ≤ s.hdr.lastFreeRecord ∧ s.hdr.lastFreeRecord < 2 ^ 64 ∧
          Apart s.hdr.lastFreeRecord pos ∧ Apart s.hdr.lastFreeRecord h.previous ∧
          Apart s.hdr.lastFreeRecord h.next) := by
      rcases hpf with hpf | ⟨q1, q2, q3, q4, q5⟩
      · exact Or.inl hpf
      · exact Or.inr ⟨q1, q2, q3, q4 hl, q5 hr⟩
    obtain ⟨c1, c2, c3, c4, c5, c6, c7, c8, c9, c10, c11, c12⟩ :=
      removeMiddle_spec s pos h hrd hbit hpos64 hposb e1 e2 f1 f2 (f3 hl) hpf0
    rw [hb]
    refine ⟨(midW2 s h).2, ?_, c2, c3, c4, c7, c8, c9, c10, ?_, ?_, ?_, ?_⟩
    · rw [c1]
      simp [hr]
    · intro _
      exact c11
    · intro _
      exact c12
    · rw [c5]
      simp [hl, hr]
    · rw [c6]
      simp [hl, hr]

set_option maxRecDepth 100000 in
/-- Witness: removing the only record (offset 64) of the one-record store
created by `createRecord` on a fresh store; the cursor is invalidated and
the live list empties. -/
theorem removeRecord_spec_witness :
    ∃ h2, (removeRecord ((createRecord freshStore [104]).1) 64).2 = some (NOT_FOUND, h2) ∧
    (removeRecord ((createRecord freshStore [104]).1) 64).1.hdr.totalRecords
      = ((createRecord freshStore [104]).1).hdr.totalRecords - 1 ∧
    (removeRecord ((createRecord freshStore [104]).1) 64).1.hdr.totalFreeRecords
      = ((createRecord freshStore [104]).1).hdr.totalFreeRecords + 1 ∧
    (removeRecord ((createRecord freshStore [104]).1) 64).1.hdr.lastFreeRecord = 64 ∧
    getRecord (removeRecord ((createRecord freshStore [104]).1) 64).1 64 = none ∧
    (rawHeader (removeRecord ((createRecord freshStore [104]).1) 64).1.file 64).bitFlags
      &&& RECORD_DELETED_FLAG ≠ 0 ∧
    (rawHeader (removeRecord ((createRecord freshStore [104]).1) 64).1.file 64).previous
      = ((createRecord freshStore [104]).1).hdr.lastFreeRecord ∧
    (rawHeader (removeRecord ((createRecord freshStore [104]).1) 64).1.file 64).next
      = NOT_FOUND ∧
    (NOT_FOUND ≠ NOT_FOUND →
      (rawHeader (removeRecord ((createRecord freshStore [104]).1) 64).1.file
        NOT_FOUND).next = NOT_FOUND) ∧
    (NOT_FOUND ≠ NOT_FOUND →
      (rawHeader (removeRecord ((createRecord freshStore [104]).1) 64).1.file
        NOT_FOUND).previous = NOT_FOUND) ∧
    (removeRecord ((createRecord freshStore [104]).1) 64).1.hdr.lastRecord = NOT_FOUND ∧
    (removeRecord ((createRecord freshStore [104]).1) 64).1.hdr.firstRecord = NOT_FOUND :=
  removeRecord_spec ((createRecord freshStore [104]).1) 64
    ⟨NOT_FOUND, NOT_FOUND, 0, 1, 1, 6881385, 3371503813⟩
    (by decide) (by decide) (by decide) (by decide) (by decide)
    (by decide) (by decide) (by decide)

/-! ## CachedFileIO::flush (C3)

`flush` (CachedFileIO.cpp:406-433) walks the sorted cache list and runs
`if (node->state = PageState::DIRTY) allDirtyPagesPersisted =
allDirtyPagesPersisted && persistCachePage(node);`.  `PageState` is the
scoped enum `enum class PageState : uint32_t { CLEAN = 0, DIRTY = 1 }`
(CachedFileIO.h:62-66), and the `if` condition uses `=`, not `==`: as
written the statement assigns `DIRTY` to the page and tests the assigned
value (1 ≠ 0), so it holds for every resident page.  (With the scoped enum
the line is not even well-formed C++ — no conversion to `bool` — the `==`
the author intended appears in `getFreeCachePage`, CachedFileIO.cpp:644.)
`persistCachePage` (765-792) writes the page's `PAGE_SIZE` bytes at
`filePageNo * PAGE_SIZE`, marks the page CLEAN on success and reports
success; `flush` contains no block-layer flush call.

The models return (final page list, list of file page numbers written
back in order, returned bool).  `wok pageNo` tells whether the block-layer
write of that page succeeds (`bytesWritten == bytesToWrite`).
`flushPagesSrc` is the loop as written (assignment); `flushPagesClaimed`
is the loop the claim describes (`==` comparison: only DIRTY pages are
persisted). -/

structure CachePage where
  filePageNo : Nat
  state : Nat
  deriving DecidableEq, Repr

def flushPagesSrc (wok : Nat → Bool) : Bool → List CachePage →
    List CachePage × List Nat × Bool
  | acc, [] => ([], [], acc)
  | acc, p :: rest =>
    let pa := { p with state := 1 }
    if acc then
      if wok pa.filePageNo then
        let r := flushPagesSrc wok true rest
        ({ pa with state := 0 } :: r.1, pa.filePageNo :: r.2.1, r.2.2)
      else
        let r := flushPagesSrc wok false rest
        (pa :: r.1, pa.filePageNo :: r.2.1, r.2.2)
    else
      let r := flushPagesSrc wok false rest
      (pa :: r.1, r.2.1, r.2.2)

def flushPagesClaimed (wok : Nat → Bool) : Bool → List CachePage →
    List CachePage × List Nat × Bool
  | acc, [] => ([], [], acc)
  | acc, p :: rest =>
    if p.state = 1 then
      if acc then
        if wok p.filePageNo then
          let r := flushPagesClaimed wok true rest
          ({ p with state := 0 } :: r.1, p.filePageNo :: r.2.1, r.2.2)
        else
          let r := flushPagesClaimed wok false rest
          (p :: r.1, p.filePageNo :: r.2.1, r.2.2)
      else
        let r := flushPagesClaimed wok false rest
        (p :: r.1, r.2.1, r.2.2)
    else
      let r := flushPagesClaimed wok acc rest
      (p :: r.1, r.2.1, r.2.2)

/-- C3 (code bug): on a cache holding one resident CLEAN page (file page 5)
with every block write succeeding, the flush loop as written persists the
CLEAN page (its number appears in the write-back trace) because
`node->state = PageState::DIRTY` assigns instead of comparing, while the
claimed behaviour — persist exactly the DIRTY pages — writes nothing; both
return true. -/
theorem flush_persists_clean_page :
    (flushPagesSrc (fun _ => true) true [⟨5, 0⟩]).2.1 = [5] ∧
    (flushPagesClaimed (fun _ => true) true [⟨5, 0⟩]).2.1 = [] ∧
    (flushPagesSrc (fun _ => true) true [⟨5, 0⟩]).2.2 = true ∧
    (flushPagesClaimed (fun _ => true) true [⟨5, 0⟩]).2.2 = true := by
  refine ⟨rfl, rfl, rfl, rfl⟩

/-! ## Support lemmas for `endOfData` monotonicity (C7) -/

theorem createFirstRecord_endOfData (s : RecordStore) (cap : Nat) (data : List Nat) :
    ((createFirstRecord s cap data).1).hdr.endOfData
      = STORAGE_HEADER_SIZE + RECORD_HEADER_SIZE + cap := by
  simp only [createFirstRecord, writeStorageHeader_hdr, wr_hdr]

theorem appendNewRecordOk_endOfData (s : RecordStore) (cap : Nat) (data : List Nat) :
    ((appendNewRecordOk s cap data).1).hdr.endOfData
      = s.hdr.endOfData + RECORD_HEADER_SIZE + cap := by
  simp only [appendNewRecordOk, writeStorageHeader_hdr, wr_hdr, writeRecordHeader_fst_hdr]

theorem freeListScanFound_fst_hdr (s : RecordStore) (cap : Nat) (data : List Nat)
    (offset : Nat) :
    (freeListScanFound s cap data offset).1.hdr = scanFoundFinalHdr s offset := rfl

theorem scanFoundBase_hdr (s : RecordStore) (offset : Nat) :
    (scanFoundBase s offset).hdr
      = (removeRecordFromFreeList s (rawHeader s.file offset)).hdr := by
  simp only [scanFoundBase, writeRecordHeader_fst_hdr]

theorem scanFoundFinalHdr_endOfData (s : RecordStore) (offset : Nat) :
    (scanFoundFinalHdr s offset).endOfData = s.hdr.endOfData := by
  have h1 : (scanFoundFinalHdr s offset).endOfData = (scanFoundBase s offset).hdr.endOfData := by
    simp only [scanFoundFinalHdr]
  rw [h1, scanFoundBase_hdr]
  exact (removeRecordFromFreeList_live_fields s _).2.2.2

theorem freeListScan_endOfData (cap : Nat) (data : List Nat) :
    ∀ (fuel : Nat) (s : RecordStore) (off : Nat) (s' : RecordStore)
      (r : Option (Nat × RecordHeader)),
      freeListScan s cap data off fuel = (s', r) → s'.hdr.endOfData = s.hdr.endOfData := by
  intro fuel
  induction fuel with
  | zero =>
    intro s off s' r he
    simp only [freeListScan, Prod.mk.injEq] at he
    rw [← he.1]
  | succ fuel ih =>
    intro s off s' r he
    simp only [freeListScan] at he
    by_cases hoff : off = NOT_FOUND
    · rw [if_pos hoff] at he
      simp only [Prod.mk.injEq] at he
      rw [← he.1]
    · rw [if_neg hoff] at he
      by_cases hcond : cap ≤ (rawHeader s.file off).recordCapacity ∧
          (rawHeader s.file off).bitFlags &&& RECORD_DELETED_FLAG ≠ 0
      · rw [if_pos hcond] at he
        have h1 := congrArg Prod.fst he
        simp only at h1
        rw [← h1, freeListScanFound_fst_hdr, scanFoundFinalHdr_endOfData]
      · rw [if_neg hcond] at he
        exact ih s _ s' r he

theorem getFromFreeList_endOfData (s : RecordStore) (cap : Nat) (data : List Nat)
    (s' : RecordStore) (r : Option (Nat × RecordHeader))
    (he : getFromFreeList s cap data = (s', r)) : s'.hdr.endOfData = s.hdr.endOfData := by
  unfold getFromFreeList at he
  by_cases hz : s.hdr.totalFreeRecords = 0
  · rw [if_pos hz] at he
    simp only [Prod.mk.injEq] at he
    rw [← he.1]
  · rw [if_neg hz] at he
    exact freeListScan_endOfData cap data s.freeLookupDepth s _ s' r he

theorem addRecordToFreeList_endOfData (s : RecordStore) (off : Nat) :
    ((addRecordToFreeList s off).1).hdr.endOfData = s.hdr.endOfData := by
  unfold addRecordToFreeList
  rcases hE : readRecordHeader s.file off with _ | h
  · rfl
  · by_cases hb : h.bitFlags &&& RECORD_DELETED_FLAG ≠ 0
    · simp [hb]
    · simp only [hb, if_false, writeRecordHeader_fst_hdr, addToFreeTailLinked_hdr]
      exact (addFreeHdr_fields s.hdr off).2.2.2.1

theorem removeRecord_endOfData (s : RecordStore) (pos : Nat) :
    ((removeRecord s pos).1).hdr.endOfData = s.hdr.endOfData := by
  unfold removeRecord
  by_cases hro : s.readOnly = true
  · simp [hro]
  · simp only [Bool.not_eq_true] at hro
    rw [hro]
    simp only [Bool.false_eq_true, if_false]
    rcases hE : readRecordHeader s.file pos with _ | h
    · rfl
    · by_cases hb : h.bitFlags &&& RECORD_DELETED_FLAG ≠ 0
      · simp [hb]
      · simp only [hb, if_false]
        by_cases h1 : h.previous ≠ NOT_FOUND ∧ h.next ≠ NOT_FOUND
        · rw [if_pos h1]
          have := removeMiddle_eq s pos h
          have hfst : (removeMiddle s pos h).1.hdr
              = { (addRecordToFreeList (midW2 s h).1 pos).1.hdr with
                  totalRecords := (addRecordToFreeList (midW2 s h).1 pos).1.hdr.totalRecords - 1 } := by
            rw [removeMiddle_eq, writeStorageHeader_hdr]
          rw [hfst]
          have h2 : ({ (addRecordToFreeList (midW2 s h).1 pos).1.hdr with
              totalRecords := (addRecordToFreeList (midW2 s h).1 pos).1.hdr.totalRecords - 1
              } : StorageHeader).endOfData
              = (addRecordToFreeList (midW2 s h).1 pos).1.hdr.endOfData := rfl
          rw [h2, addRecordToFreeList_endOfData, midW2_fst_hdr]
        · rw [if_neg h1]
          by_cases h2 : h.previous ≠ NOT_FOUND
          · rw [if_pos h2]
            have hfst : (removeTail s pos h).1.hdr
                = { (addRecordToFreeList (tailW1 s h).1 pos).1.hdr with
                    lastRecord := h.previous,
                    totalRecords := (addRecordToFreeList (tailW1 s h).1 pos).1.hdr.totalRecords - 1 } := by
              rw [removeTail_eq, writeStorageHeader_hdr]
            rw [hfst]
            have h3 : ({ (addRecordToFreeList (tailW1 s h).1 pos).1.hdr with
                lastRecord := h.previous,
                totalRecords := (addRecordToFreeList (tailW1 s h).1 pos).1.hdr.totalRecords - 1
                } : StorageHeader).endOfData
                = (addRecordToFreeList (tailW1 s h).1 pos).1.hdr.endOfData := rfl
            rw [h3, addRecordToFreeList_endOfData, tailW1_fst_hdr]
          · rw [if_neg h2]
            by_cases h3 : h.next ≠ NOT_FOUND
            · rw [if_pos h3]
              have hfst : (removeHead s pos h).1.hdr
                  = { (addRecordToFreeList (headW1 s h).1 pos).1.hdr with
                      firstRecord := h.next,
                      totalRecords := (addRecordToFreeList (headW1 s h).1 pos).1.hdr.totalRecords - 1 } := by
                rw [removeHead_eq, writeStorageHeader_hdr]
              rw [hfst]
              have h4 : ({ (addRecordToFreeList (headW1 s h).1 pos).1.hdr with
                  firstRecord := h.next,
                  totalRecords := (addRecordToFreeList (headW1 s h).1 pos).1.hdr.totalRecords - 1
                  } : StorageHeader).endOfData
                  = (addRecordToFreeList (headW1 s h).1 pos).1.hdr.endOfData := rfl
              rw [h4, addRecordToFreeList_endOfData, headW1_fst_hdr]
            · rw [if_neg h3]
              have hfst : (removeOnly s pos h).1.hdr
                  = { (addRecordToFreeList s pos).1.hdr with
                      firstRecord := NOT_FOUND, lastRecord := NOT_FOUND,
                      totalRecords := (addRecordToFreeList s pos).1.hdr.totalRecords - 1 } := by
                rw [removeOnly_eq, writeStorageHeader_hdr]
              rw [hfst]
              have h4 : ({ (addRecordToFreeList s pos).1.hdr with
                  firstRecord := NOT_FOUND, lastRecord := NOT_FOUND,
                  totalRecords := (addRecordToFreeList s pos).1.hdr.totalRecords - 1
                  } : StorageHeader).endOfData
                  = (addRecordToFreeList s pos).1.hdr.endOfData := rfl
              rw [h4, addRecordToFreeList_endOfData]

theorem allocateRecord_endOfData_mono (s : RecordStore) (cap : Nat) (data : List Nat)
    (hboth : s.hdr.firstFreeRecord = NOT_FOUND ∧ s.hdr.lastRecord = NOT_FOUND →
      s.hdr.endOfData = STORAGE_HEADER_SIZE) :
    s.hdr.endOfData ≤ ((allocateRecord s cap data).1).hdr.endOfData := by
  unfold allocateRecord
  by_cases hc : s.hdr.firstFreeRecord = NOT_FOUND ∧ s.hdr.lastRecord = NOT_FOUND
  · rw [if_pos hc]
    have h1 : ((createFirstRecord s cap data).1, some ((createFirstRecord s cap data).2.1,
        (createFirstRecord s cap data).2.2)).1 = (createFirstRecord s cap data).1 := rfl
    rw [h1, createFirstRecord_endOfData, hboth hc]
    omega
  · rw [if_neg hc]
    rcases hE : getFromFreeList s cap data with ⟨s1, r⟩
    have he1 : s1.hdr.endOfData = s.hdr.endOfData := getFromFreeList_endOfData s cap data s1 r hE
    rcases r with _ | r
    · show s.hdr.endOfData ≤ ((appendNewRecord s1 cap data).1).hdr.endOfData
      unfold appendNewRecord
      by_cases hz : cap = 0
      · rw [if_pos hz]
        show s.hdr.endOfData ≤ s1.hdr.endOfData
        omega
      · rw [if_neg hz, appendNewRecordOk_endOfData]
        omega
    · show s.hdr.endOfData ≤ s1.hdr.endOfData
      omega

theorem relocBase_hdr (s1 : RecordStore) (h newH : RecordHeader) (newOff : Nat) :
    (relocBase s1 h newH newOff).hdr = s1.hdr := by
  unfold relocBase
  by_cases hl : h.previous ≠ NOT_FOUND <;> by_cases hr : h.next ≠ NOT_FOUND <;>
    simp [hl, hr, writeRecordHeader_fst_hdr]

theorem relocateTail_endOfData (s1 : RecordStore) (h : RecordHeader) (newOff offset : Nat)
    (newH : RecordHeader) :
    ((relocateTail s1 h newOff offset newH).1).hdr.endOfData = s1.hdr.endOfData := by
  unfold relocateTail
  rcases hB : addRecordToFreeList (relocBase s1 h newH newOff) offset with ⟨s5, b⟩
  have h5 : s5.hdr.endOfData = s1.hdr.endOfData := by
    have ha := addRecordToFreeList_endOfData (relocBase s1 h newH newOff) offset
    rw [hB, relocBase_hdr] at ha
    exact ha
  rcases b
  · exact h5
  · exact h5

theorem writeRecordData_endOfData_mono (s : RecordStore) (off : Nat) (data : List Nat)
    (hboth : s.hdr.firstFreeRecord = NOT_FOUND ∧ s.hdr.lastRecord = NOT_FOUND →
      s.hdr.endOfData = STORAGE_HEADER_SIZE) :
    s.hdr.endOfData ≤ ((writeRecordData s off data).1).hdr.endOfData := by
  unfold writeRecordData
  by_cases hg : s.readOnly = true ∨ off = NOT_FOUND ∨ data.length = 0
  · rw [if_pos hg]
  · rw [if_neg hg]
    rcases hE : readRecordHeader s.file off with _ | h
    · show s.hdr.endOfData ≤ s.hdr.endOfData
      omega
    · by_cases hb : h.bitFlags &&& RECORD_DELETED_FLAG ≠ 0
      · simp [hb]
      · simp only [hb, if_false]
        by_cases hcap : data.length ≤ h.recordCapacity
        · simp only [hcap, if_true]
          show s.hdr.endOfData ≤ s.hdr.endOfData
          omega
        · simp only [hcap, if_false]
          rcases hA : allocateRecord s data.length data with ⟨s1, rr⟩
          have hm : s.hdr.endOfData ≤ s1.hdr.endOfData := by
            have := allocateRecord_endOfData_mono s data.length data hboth
            rw [hA] at this
            exact this
          rcases rr with _ | ⟨newOff, newH⟩
          · show s.hdr.endOfData ≤ s1.hdr.endOfData
            exact hm
          · show s.hdr.endOfData ≤ ((relocateTail s1 h newOff off newH).1).hdr.endOfData
            rw [relocateTail_endOfData]
            exact hm

/-- The public operations of one open store (`RecordFileIO` methods reached
through `RecordCursor`): create, remove, read a cursor (`getRecord`), read
the payload (`getRecordData`), overwrite the payload (`setRecordData` /
`writeRecordData`), and flush.  The two reads leave the store state
unchanged. -/
inductive StoreOp where
  | createOp (data : List Nat)
  | removeOp (pos : Nat)
  | getOp (pos : Nat)
  | readOp (pos : Nat)
  | writeOp (pos : Nat) (data : List Nat)
  | flushOp

def stepOp (s : RecordStore) : StoreOp → RecordStore
  | .createOp data => (createRecord s data).1
  | .removeOp pos => (removeRecord s pos).1
  | .getOp _ => s
  | .readOp _ => s
  | .writeOp pos data => (writeRecordData s pos data).1
  | .flushOp => flushStore s

theorem flushStore_hdr (s : RecordStore) : (flushStore s).hdr = s.hdr := rfl

theorem flushStore_fileSize (s : RecordStore) :
    (flushStore s).fileSize
      = max s.fileSize (((s.highWater + PAGE_SIZE - 1) / PAGE_SIZE) * PAGE_SIZE) := rfl

/-! ## CachedFileIO::read dispatch (C9)

`read` (CachedFileIO.cpp:178-186) tests the single-aligned-page fast path
`(position % PAGE_SIZE == 0) && (length == PAGE_SIZE)` and forwards to
`readPage(position / PAGE_SIZE, dataBuffer)` BEFORE the guard
`if (!isOpen() || dataBuffer == nullptr || length == 0) return 0;`.  The
model captures the dispatch of one call: which path the argument
combination reaches. -/

inductive ReadOutcome where
  | fastPage (pageNo : Nat)
  | rejected
  | multiPage (firstPageNo lastPageNo : Nat)
  deriving DecidableEq, Repr

def readDispatch (opened bufferNull : Bool) (position length : Nat) : ReadOutcome :=
  if position % PAGE_SIZE = 0 ∧ length = PAGE_SIZE then
    ReadOutcome.fastPage (position / PAGE_SIZE)
  else if opened = false ∨ bufferNull = true ∨ length = 0 then
    ReadOutcome.rejected
  else
    ReadOutcome.multiPage (position / PAGE_SIZE) ((position + length) / PAGE_SIZE)

/-- C9: a page-aligned read of exactly `PAGE_SIZE` bytes reaches the
`readPage` fast path before the closed-file/null-buffer/zero-length guard,
for every state of those guard inputs — it is never rejected with 0 — while
every read that misses the fast-path shape is rejected on a closed file with
a null buffer. -/
theorem read_fast_path_before_guard (opened bufferNull : Bool) (position length : Nat)
    (halign : position % PAGE_SIZE = 0) (hlen : length = PAGE_SIZE) :
    readDispatch opened bufferNull position length
      = ReadOutcome.fastPage (position / PAGE_SIZE) ∧
    (∀ p l : Nat, ¬ (p % PAGE_SIZE = 0 ∧ l = PAGE_SIZE) →
      readDispatch false true p l = ReadOutcome.rejected) := by
  constructor
  · unfold readDispatch
    rw [if_pos ⟨halign, hlen⟩]
  · intro p l hmiss
    unfold readDispatch
    rw [if_neg hmiss, if_pos (Or.inl rfl)]

/-- Witness: with the file closed and a null buffer, the aligned one-page
read of page 1 still dispatches to `readPage`, while a 10-byte read is
rejected. -/
theorem read_fast_path_before_guard_witness :
    readDispatch false true 8192 8192 = ReadOutcome.fastPage 1 ∧
    (∀ p l : Nat, ¬ (p % PAGE_SIZE = 0 ∧ l = PAGE_SIZE) →
      readDispatch false true p l = ReadOutcome.rejected) :=
  read_fast_path_before_guard false true 8192 8192 (by decide) (by decide)

/-! ## CachedFileIO::write page loop (C10)

`write` (CachedFileIO.cpp:263-331) guards on closed/read-only/null/zero,
then loops `filePage` from `position / PAGE_SIZE` to
`(position + length) / PAGE_SIZE` INCLUSIVE.  Every iteration fetches the
page into the cache (`searchPageInCache`, fetch-before-write), copies
`bytesToCopy` bytes (first page: `min(length, PAGE_SIZE - position %
PAGE_SIZE)`, last page: `length - bytesWritten`, middle: `PAGE_SIZE`) and
marks the page DIRTY.  The model records, in loop order, the pairs
`(filePage, bytesToCopy)` of pages fetched and dirtied. -/

def writeSeg (position length firstPageNo lastPageNo : Nat) :
    Nat → Nat → Nat → List (Nat × Nat)
  | 0, _, _ => []
  | fuel + 1, filePage, bytesWritten =>
    let bytesToCopy :=
      if filePage = firstPageNo then min length (PAGE_SIZE - position % PAGE_SIZE)
      else if filePage = lastPageNo then length - bytesWritten
      else PAGE_SIZE
    (filePage, bytesToCopy) ::
      writeSeg position length firstPageNo lastPageNo fuel (filePage + 1)
        (bytesWritten + bytesToCopy)

def writeTouched (position length : Nat) : List (Nat × Nat) :=
  let firstPageNo := position / PAGE_SIZE
  let lastPageNo := (position + length) / PAGE_SIZE
  writeSeg position length firstPageNo lastPageNo
    (lastPageNo + 1 - firstPageNo) firstPageNo 0

def writeC (opened readOnly bufferNull : Bool) (position length : Nat) :
    Option (List (Nat × Nat)) :=
  if opened = false ∨ readOnly = true ∨ bufferNull = true ∨ length = 0 then none
  else some (writeTouched position length)

theorem writeSeg_spec (position length firstPageNo lastPageNo : Nat)
    (hend : lastPageNo * PAGE_SIZE = position + length) :
    ∀ (fuel filePage bw : Nat),
      firstPageNo < filePage → filePage ≤ lastPageNo →
      fuel = lastPageNo + 1 - filePage →
      position ≤ filePage * PAGE_SIZE →
      bw = filePage * PAGE_SIZE - position →
      ((lastPageNo, 0) ∈
        writeSeg position length firstPageNo lastPageNo fuel filePage bw) ∧
      (∀ pb ∈ writeSeg position length firstPageNo lastPageNo fuel filePage bw,
        filePage ≤ pb.1 ∧ pb.1 ≤ lastPageNo) := by
  intro fuel
  induction fuel with
  | zero =>
    intro filePage bw h1 h2 h3 _ _
    omega
  | succ fuel ih =>
    intro filePage bw h1 h2 h3 h4 h5
    have hne1 : filePage ≠ firstPageNo := by omega
    by_cases hlastp : filePage = lastPageNo
    · have hmulEq : filePage * PAGE_SIZE = lastPageNo * PAGE_SIZE := by rw [hlastp]
      have hbtc : (if filePage = firstPageNo then
            min length (PAGE_SIZE - position % PAGE_SIZE)
          else if filePage = lastPageNo then length - bw
          else PAGE_SIZE) = 0 := by
        rw [if_neg hne1, if_pos hlastp]
        omega
      simp only [writeSeg, hbtc]
      constructor
      · rw [← hlastp]
        exact List.mem_cons_self _ _
      · intro pb hpb
        rcases List.mem_cons.mp hpb with hpb | hpb
        · rw [hpb]
          omega
        · have hf0 : fuel = 0 := by omega
          rw [hf0] at hpb
          simp [writeSeg] at hpb
    · have hlt : filePage < lastPageNo := by omega
      have hbtc : (if filePage = firstPageNo then
            min length (PAGE_SIZE - position % PAGE_SIZE)
          else if filePage = lastPageNo then length - bw
          else PAGE_SIZE) = PAGE_SIZE := by
        rw [if_neg hne1, if_neg hlastp]
      simp only [writeSeg, hbtc]
      have hmul : filePage * PAGE_SIZE + PAGE_SIZE = (filePage + 1) * PAGE_SIZE := by ring
      have hle : (filePage + 1) * PAGE_SIZE ≤ lastPageNo * PAGE_SIZE :=
        Nat.mul_le_mul_right _ (by omega)
      obtain ⟨hmem, hbnd⟩ := ih (filePage + 1) (bw + PAGE_SIZE)
        (by omega) (by omega) (by omega) (by omega) (by omega)
      constructor
      · exact List.mem_cons_of_mem _ hmem
      · intro pb hpb
        rcases List.mem_cons.mp hpb with hpb | hpb
        · rw [hpb]
          omega
        · have := hbnd pb hpb
          omega

/-- C10: a write of `length > 0` bytes ending exactly on a page boundary
(`(position + length) % PAGE_SIZE = 0`) also fetches the page that begins at
`position + length` into the cache and marks it DIRTY while copying zero
bytes into it — the inclusive loop bound `lastPageNo = (position + length) /
PAGE_SIZE` names one page past the data — and no page outside
`position / PAGE_SIZE .. (position + length) / PAGE_SIZE` is touched. -/
theorem write_dirties_extra_page (position length : Nat)
    (hlen : 0 < length) (halign : (position + length) % PAGE_SIZE = 0) :
    ∃ tr, writeC true false false position length = some tr ∧
      ((position + length) / PAGE_SIZE, 0) ∈ tr ∧
      (∀ pb ∈ tr, position / PAGE_SIZE ≤ pb.1 ∧
        pb.1 ≤ (position + length) / PAGE_SIZE) := by
  have hP : PAGE_SIZE = 8192 := rfl
  have halign8 : (position + length) % 8192 = 0 := by
    rw [← hP]
    exact halign
  have hend : ((position + length) / PAGE_SIZE) * PAGE_SIZE = position + length := by
    rw [hP]
    omega
  have hfl : position / PAGE_SIZE < (position + length) / PAGE_SIZE := by
    rw [hP]
    omega
  have hbtc1 : min length (PAGE_SIZE - position % PAGE_SIZE)
      = PAGE_SIZE - position % PAGE_SIZE := by
    rw [hP]
    omega
  have hone : ∀ K : Nat,
      K + 1 = ((position + length) / PAGE_SIZE) + 1 - position / PAGE_SIZE →
      writeTouched position length
        = (position / PAGE_SIZE, PAGE_SIZE - position % PAGE_SIZE) ::
          writeSeg position length (position / PAGE_SIZE)
            ((position + length) / PAGE_SIZE) K
            (position / PAGE_SIZE + 1) (0 + (PAGE_SIZE - position % PAGE_SIZE)) := by
    intro K hK
    simp only [writeTouched]
    rw [← hK]
    simp only [writeSeg, eq_self_iff_true, if_true, hbtc1]
  have hK : (((position + length) / PAGE_SIZE) - position / PAGE_SIZE) + 1
      = ((position + length) / PAGE_SIZE) + 1 - position / PAGE_SIZE := by
    rw [hP]
    omega
  have hone := hone (((position + length) / PAGE_SIZE) - position / PAGE_SIZE) hK
  obtain ⟨hmem, hbnd⟩ := writeSeg_spec position length (position / PAGE_SIZE)
    ((position + length) / PAGE_SIZE) hend
    (((position + length) / PAGE_SIZE) - position / PAGE_SIZE)
    (position / PAGE_SIZE + 1) (0 + (PAGE_SIZE - position % PAGE_SIZE))
    (by omega) (by omega) (by rw [hP]; omega)
    (by rw [hP]; omega) (by rw [hP]; omega)
  refine ⟨writeTouched position length, ?_, ?_, ?_⟩
  · unfold writeC
    rw [if_neg (by simp; omega)]
  · rw [hone]
    exact List.mem_cons_of_mem _ hmem
  · intro pb hpb
    rw [hone] at hpb
    rcases List.mem_cons.mp hpb with hpb | hpb
    · rw [hpb]
      omega
    · have := hbnd pb hpb
      omega

/-- Witness: writing 8192 bytes at offset 0 dirties page 1 with zero bytes
copied, and touches no page outside 0..1. -/
theorem write_dirties_extra_page_witness :
    ∃ tr, writeC true false false 0 8192 = some tr ∧
      ((0 + 8192) / PAGE_SIZE, 0) ∈ tr ∧
      (∀ pb ∈ tr, 0 / PAGE_SIZE ≤ pb.1 ∧ pb.1 ≤ (0 + 8192) / PAGE_SIZE) :=
  write_dirties_extra_page 0 8192 (by decide) (by decide)

/-! ## Invariant machinery for the sequence form of C7

`highWater` only grows (every write goes through `RecordStore.wr`, a `max`),
`lastRecord` is set to a non-`NOT_FOUND` value by every allocation path, and
the storage-header effect of `addRecordToFreeList` is either the
`addFreeHdr` update (success) or nothing (failure).  These lemmas let the
per-operation invariant proof go through without any layout hypotheses. -/

theorem wr_highWater_le (s : RecordStore) (off : Nat) (bs : List Nat) :
    s.highWater ≤ (s.wr off bs).highWater := le_max_left _ _

theorem writeStorageHeader_highWater_le (s : RecordStore) :
    s.highWater ≤ (writeStorageHeader s).highWater := by
  simp only [writeStorageHeader, RecordStore.wr]
  exact le_max_left _ _

theorem writeRecordHeader_fst_highWater_le (s : RecordStore) (off : Nat) (h : RecordHeader) :
    s.highWater ≤ ((writeRecordHeader s off h).1).highWater := by
  simp only [writeRecordHeader, RecordStore.wr]
  exact le_max_left _ _

theorem hw_wsh_update (s1 : RecordStore) (hdr2 : StorageHeader) :
    s1.highWater ≤ (writeStorageHeader { s1 with hdr := hdr2 }).highWater := by
  refine le_trans ?_ (writeStorageHeader_highWater_le _)
  exact le_refl _

theorem removeRecordFromFreeList_highWater_le (s : RecordStore) (h : RecordHeader) :
    s.highWater ≤ (removeRecordFromFreeList s h).highWater := by
  simp only [removeRecordFromFreeList]
  by_cases hp : h.previous ≠ NOT_FOUND ∧ h.next ≠ NOT_FOUND
  · rw [if_pos hp]
    refine le_trans ?_ (hw_wsh_update _ _)
    refine le_trans ?_ (writeRecordHeader_fst_highWater_le _ _ _)
    exact writeRecordHeader_fst_highWater_le _ _ _
  · rw [if_neg hp]
    by_cases hl : h.previous ≠ NOT_FOUND
    · rw [if_pos hl]
      refine le_trans ?_ (hw_wsh_update _ _)
      exact writeRecordHeader_fst_highWater_le _ _ _
    · rw [if_neg hl]
      by_cases hr : h.next ≠ NOT_FOUND
      · rw [if_pos hr]
        refine le_trans ?_ (hw_wsh_update _ _)
        exact writeRecordHeader_fst_highWater_le _ _ _
      · rw [if_neg hr]
        exact hw_wsh_update _ _

theorem scanFoundBase_highWater_le (s : RecordStore) (offset : Nat) :
    s.highWater ≤ (scanFoundBase s offset).highWater := by
  simp only [scanFoundBase]
  refine le_trans ?_ (writeRecordHeader_fst_highWater_le _ _ _)
  exact removeRecordFromFreeList_highWater_le _ _

theorem freeListScanFound_highWater_le (s : RecordStore) (cap : Nat) (data : List Nat)
    (offset : Nat) :
    s.highWater ≤ (freeListScanFound s cap data offset).1.highWater := by
  have h1 : (freeListScanFound s cap data offset).1
      = writeStorageHeader { ((scanFoundBase s offset).wr offset
          (serializeRecordHeader (scanFoundHeader s data offset))).wr
            (offset + RECORD_HEADER_SIZE) data with
          hdr := scanFoundFinalHdr s offset } := rfl
  rw [h1]
  refine le_trans ?_ (hw_wsh_update _ _)
  refine le_trans ?_ (wr_highWater_le _ _ _)
  refine le_trans ?_ (wr_highWater_le _ _ _)
  exact scanFoundBase_highWater_le s offset

theorem freeListScan_highWater_le (cap : Nat) (data : List Nat) :
    ∀ (fuel : Nat) (s : RecordStore) (off : Nat) (s' : RecordStore)
      (r : Option (Nat × RecordHeader)),
      freeListScan s cap data off fuel = (s', r) → s.highWater ≤ s'.highWater := by
  intro fuel
  induction fuel with
  | zero =>
    intro s off s' r he
    simp only [freeListScan, Prod.mk.injEq] at he
    rw [← he.1]
  | succ fuel ih =>
    intro s off s' r he
    simp only [freeListScan] at he
    by_cases hoff : off = NOT_FOUND
    · rw [if_pos hoff] at he
      simp only [Prod.mk.injEq] at he
      rw [← he.1]
    · rw [if_neg hoff] at he
      by_cases hcond : cap ≤ (rawHeader s.file off).recordCapacity ∧
          (rawHeader s.file off).bitFlags &&& RECORD_DELETED_FLAG ≠ 0
      · rw [if_pos hcond] at he
        have h1 := congrArg Prod.fst he
        simp only at h1
        rw [← h1]
        exact freeListScanFound_highWater_le s cap data off
      · rw [if_neg hcond] at he
        exact ih s _ s' r he

theorem getFromFreeList_highWater_le (s : RecordStore) (cap : Nat) (data : List Nat)
    (s' : RecordStore) (r : Option (Nat × RecordHeader))
    (he : getFromFreeList s cap data = (s', r)) : s.highWater ≤ s'.highWater := by
  unfold getFromFreeList at he
  by_cases hz : s.hdr.totalFreeRecords = 0
  · rw [if_pos hz] at he
    simp only [Prod.mk.injEq] at he
    rw [← he.1]
  · rw [if_neg hz] at he
    exact freeListScan_highWater_le cap data s.freeLookupDepth s _ s' r he

theorem addToFreeBase_highWater_le (s : RecordStore) (off : Nat) :
    s.highWater ≤ (addToFreeBase s off).highWater := by
  simp only [addToFreeBase]
  exact hw_wsh_update _ _

theorem addToFreeTailLinked_highWater_le (s : RecordStore) (off : Nat) :
    s.highWater ≤ (addToFreeTailLinked s off).highWater := by
  unfold addToFreeTailLinked
  by_cases hpf : s.hdr.lastFreeRecord ≠ NOT_FOUND
  · rw [if_pos hpf]
    refine le_trans ?_ (writeRecordHeader_fst_highWater_le _ _ _)
    exact addToFreeBase_highWater_le s off
  · rw [if_neg hpf]
    exact addToFreeBase_highWater_le s off

theorem addRecordToFreeList_highWater_le (s : RecordStore) (off : Nat) :
    s.highWater ≤ ((addRecordToFreeList s off).1).highWater := by
  unfold addRecordToFreeList
  rcases hE : readRecordHeader s.file off with _ | h
  · exact le_refl _
  · by_cases hb : h.bitFlags &&& RECORD_DELETED_FLAG ≠ 0
    · simp [hb]
    · simp only [hb, if_false]
      exact le_trans (addToFreeTailLinked_highWater_le s off)
        (writeRecordHeader_fst_highWater_le _ _ _)

theorem addRecordToFreeList_hdr_cases (s : RecordStore) (off : Nat) :
    ((addRecordToFreeList s off).1).hdr = addFreeHdr s.hdr off ∨
    ((addRecordToFreeList s off).1).hdr = s.hdr := by
  unfold addRecordToFreeList
  rcases hE : readRecordHeader s.file off with _ | h
  · exact Or.inr rfl
  · by_cases hb : h.bitFlags &&& RECORD_DELETED_FLAG ≠ 0
    · right
      simp [hb]
    · left
      simp only [hb, if_false, writeRecordHeader_fst_hdr, addToFreeTailLinked_hdr]

theorem addRecordToFreeList_hdr_of_read (s : RecordStore) (off : Nat) (h : RecordHeader)
    (hrd : readRecordHeader s.file off = some h)
    (hbit : h.bitFlags &&& RECORD_DELETED_FLAG = 0) :
    ((addRecordToFreeList s off).1).hdr = addFreeHdr s.hdr off := by
  unfold addRecordToFreeList
  rw [hrd]
  simp [hbit, writeRecordHeader_fst_hdr, addToFreeTailLinked_hdr]

theorem createFirstRecord_lastRecord (s : RecordStore) (cap : Nat) (data : List Nat) :
    ((createFirstRecord s cap data).1).hdr.lastRecord = STORAGE_HEADER_SIZE := by
  simp only [createFirstRecord, writeStorageHeader_hdr, wr_hdr]

theorem appendNewRecordOk_lastRecord (s : RecordStore) (cap : Nat) (data : List Nat) :
    ((appendNewRecordOk s cap data).1).hdr.lastRecord = s.hdr.endOfData := by
  simp only [appendNewRecordOk, writeStorageHeader_hdr, wr_hdr, writeRecordHeader_fst_hdr]

theorem scanFoundFinalHdr_lastRecord (s : RecordStore) (offset : Nat) :
    (scanFoundFinalHdr s offset).lastRecord = offset := by
  simp only [scanFoundFinalHdr]

theorem freeListScan_some_lastRecord (cap : Nat) (data : List Nat) :
    ∀ (fuel : Nat) (s : RecordStore) (off : Nat) (s' : RecordStore)
      (p : Nat) (h : RecordHeader),
      freeListScan s cap data off fuel = (s', some (p, h)) →
      s'.hdr.lastRecord ≠ NOT_FOUND := by
  intro fuel
  induction fuel with
  | zero =>
    intro s off s' p h he
    simp only [freeListScan, Prod.mk.injEq] at he
    exact absurd he.2 (by simp)
  | succ fuel ih =>
    intro s off s' p h he
    simp only [freeListScan] at he
    by_cases hoff : off = NOT_FOUND
    · rw [if_pos hoff] at he
      simp only [Prod.mk.injEq] at he
      exact absurd he.2 (by simp)
    · rw [if_neg hoff] at he
      by_cases hcond : cap ≤ (rawHeader s.file off).recordCapacity ∧
          (rawHeader s.file off).bitFlags &&& RECORD_DELETED_FLAG ≠ 0
      · rw [if_pos hcond] at he
        have h1 := congrArg Prod.fst he
        simp only at h1
        rw [← h1, freeListScanFound_fst_hdr, scanFoundFinalHdr_lastRecord]
        exact hoff
      · rw [if_neg hcond] at he
        exact ih s _ s' p h he

theorem createFirstRecord_highWater_ge (s : RecordStore) (cap : Nat) (data : List Nat) :
    max s.highWater (STORAGE_HEADER_SIZE + RECORD_HEADER_SIZE + data.length)
      ≤ ((createFirstRecord s cap data).1).highWater := by
  have h40 : RECORD_HEADER_SIZE = 40 := rfl
  have h64 : STORAGE_HEADER_SIZE = 64 := rfl
  simp only [createFirstRecord, writeStorageHeader, RecordStore.wr,
    serializeRecordHeader_length, serializeStorageHeader_length]
  rw [h40, h64]
  omega

theorem appendNewRecordOk_highWater_ge (s : RecordStore) (cap : Nat) (data : List Nat) :
    max s.highWater (s.hdr.endOfData + RECORD_HEADER_SIZE + data.length)
      ≤ ((appendNewRecordOk s cap data).1).highWater := by
  have h40 : RECORD_HEADER_SIZE = 40 := rfl
  simp only [appendNewRecordOk, writeStorageHeader, writeRecordHeader, RecordStore.wr,
    serializeRecordHeader_length, serializeStorageHeader_length]
  rw [h40]
  omega

theorem midW2_fst_highWater_le (s : RecordStore) (h : RecordHeader) :
    s.highWater ≤ (midW2 s h).1.highWater := by
  unfold midW2
  refine le_trans ?_ (writeRecordHeader_fst_highWater_le _ _ _)
  exact writeRecordHeader_fst_highWater_le _ _ _

theorem tailW1_fst_highWater_le (s : RecordStore) (h : RecordHeader) :
    s.highWater ≤ (tailW1 s h).1.highWater := by
  unfold tailW1
  exact writeRecordHeader_fst_highWater_le _ _ _

theorem headW1_fst_highWater_le (s : RecordStore) (h : RecordHeader) :
    s.highWater ≤ (headW1 s h).1.highWater := by
  unfold headW1
  exact writeRecordHeader_fst_highWater_le _ _ _

theorem removeRecord_highWater_le (s : RecordStore) (pos : Nat) :
    s.highWater ≤ ((removeRecord s pos).1).highWater := by
  unfold removeRecord
  by_cases hro : s.readOnly = true
  · simp [hro]
  · simp only [Bool.not_eq_true] at hro
    rw [hro]
    simp only [Bool.false_eq_true, if_false]
    rcases hE : readRecordHeader s.file pos with _ | h
    · exact le_refl _
    · by_cases hb : h.bitFlags &&& RECORD_DELETED_FLAG ≠ 0
      · simp [hb]
      · simp only [hb, if_false]
        by_cases h1 : h.previous ≠ NOT_FOUND ∧ h.next ≠ NOT_FOUND
        · rw [if_pos h1]
          have hfst : (removeMiddle s pos h).1
              = writeStorageHeader { (addRecordToFreeList (midW2 s h).1 pos).1 with hdr :=
                  { (addRecordToFreeList (midW2 s h).1 pos).1.hdr with
                    totalRecords :=
                      (addRecordToFreeList (midW2 s h).1 pos).1.hdr.totalRecords - 1 } } := by
            rw [removeMiddle_eq]
          rw [hfst]
          refine le_trans ?_ (hw_wsh_update _ _)
          refine le_trans ?_ (addRecordToFreeList_highWater_le _ _)
          exact midW2_fst_highWater_le s h
        · rw [if_neg h1]
          by_cases h2 : h.previous ≠ NOT_FOUND
          · rw [if_pos h2]
            have hfst : (removeTail s pos h).1
                = writeStorageHeader { (addRecordToFreeList (tailW1 s h).1 pos).1 with hdr :=
                    { (addRecordToFreeList (tailW1 s h).1 pos).1.hdr with
                      lastRecord := h.previous,
                      totalRecords :=
                        (addRecordToFreeList (tailW1 s h).1 pos).1.hdr.totalRecords - 1 } } := by
              rw [removeTail_eq]
            rw [hfst]
            refine le_trans ?_ (hw_wsh_update _ _)
            refine le_trans ?_ (addRecordToFreeList_highWater_le _ _)
            exact tailW1_fst_highWater_le s h
          · rw [if_neg h2]
            by_cases h3 : h.next ≠ NOT_FOUND
            · rw [if_pos h3]
              have hfst : (removeHead s pos h).1
                  = writeStorageHeader { (addRecordToFreeList (headW1 s h).1 pos).1 with hdr :=
                      { (addRecordToFreeList (headW1 s h).1 pos).1.hdr with
                        firstRecord := h.next,
                        totalRecords :=
                          (addRecordToFreeList (headW1 s h).1 pos).1.hdr.totalRecords - 1 } } := by
                rw [removeHead_eq]
              rw [hfst]
              refine le_trans ?_ (hw_wsh_update _ _)
              refine le_trans ?_ (addRecordToFreeList_highWater_le _ _)
              exact headW1_fst_highWater_le s h
            · rw [if_neg h3]
              have hfst : (removeOnly s pos h).1
                  = writeStorageHeader { (addRecordToFreeList s pos).1 with hdr :=
                      { (addRecordToFreeList s pos).1.hdr with
                        firstRecord := NOT_FOUND, lastRecord := NOT_FOUND,
                        totalRecords := (addRecordToFreeList s pos).1.hdr.totalRecords - 1 } } := by
                rw [removeOnly_eq]
              rw [hfst]
              refine le_trans ?_ (hw_wsh_update _ _)
              exact addRecordToFreeList_highWater_le _ _

theorem relocBase_highWater_le (s1 : RecordStore) (h newH : RecordHeader) (newOff : Nat) :
    s1.highWater ≤ (relocBase s1 h newH newOff).highWater := by
  simp only [relocBase]
  by_cases hl : h.previous ≠ NOT_FOUND
  · by_cases hr : h.next ≠ NOT_FOUND
    · simp only [if_pos hl, if_pos hr]
      refine le_trans ?_ (writeRecordHeader_fst_highWater_le _ _ _)
      refine le_trans ?_ (writeRecordHeader_fst_highWater_le _ _ _)
      exact writeRecordHeader_fst_highWater_le _ _ _
    · simp only [if_pos hl, if_neg hr]
      refine le_trans ?_ (writeRecordHeader_fst_highWater_le _ _ _)
      exact writeRecordHeader_fst_highWater_le _ _ _
  · by_cases hr : h.next ≠ NOT_FOUND
    · simp only [if_neg hl, if_pos hr]
      refine le_trans ?_ (writeRecordHeader_fst_highWater_le _ _ _)
      exact writeRecordHeader_fst_highWater_le _ _ _
    · simp only [if_neg hl, if_neg hr]
      exact writeRecordHeader_fst_highWater_le _ _ _

theorem relocateTail_highWater_le (s1 : RecordStore) (h : RecordHeader)
    (newOff offset : Nat) (newH : RecordHeader) :
    s1.highWater ≤ ((relocateTail s1 h newOff offset newH).1).highWater := by
  unfold relocateTail
  rcases hB : addRecordToFreeList (relocBase s1 h newH newOff) offset with ⟨s5, b⟩
  have h5 : s1.highWater ≤ s5.highWater := by
    have ha := addRecordToFreeList_highWater_le (relocBase s1 h newH newOff) offset
    rw [hB] at ha
    exact le_trans (relocBase_highWater_le s1 h newH newOff) ha
  rcases b
  · exact h5
  · exact h5

theorem relocateTail_hdr_cases (s1 : RecordStore) (h : RecordHeader)
    (newOff offset : Nat) (newH : RecordHeader) :
    ((relocateTail s1 h newOff offset newH).1).hdr = addFreeHdr s1.hdr offset ∨
    ((relocateTail s1 h newOff offset newH).1).hdr = s1.hdr := by
  unfold relocateTail
  rcases hB : addRecordToFreeList (relocBase s1 h newH newOff) offset with ⟨s5, b⟩
  have h5 := addRecordToFreeList_hdr_cases (relocBase s1 h newH newOff) offset
  rw [hB, relocBase_hdr] at h5
  rcases b
  · exact h5
  · exact h5

/-- The state conditions the C7 proof carries along a run: an empty store
(the `createFirstRecord` dispatch condition) still has the fresh
`endOfData`, and everything up to `endOfData` has been written through the
cache. Both hold on the freshly created store and are preserved by every
public operation. -/
def StoreInv (s : RecordStore) : Prop :=
  (s.hdr.firstFreeRecord = NOT_FOUND ∧ s.hdr.lastRecord = NOT_FOUND →
    s.hdr.endOfData = STORAGE_HEADER_SIZE) ∧
  s.hdr.endOfData ≤ s.highWater

/-- Upper bound on how much one operation can advance `endOfData`: a header
plus the payload for the two allocating calls, nothing for the rest. -/
def opGrowth : StoreOp → Nat
  | .createOp data => RECORD_HEADER_SIZE + data.length
  | .writeOp _ data => RECORD_HEADER_SIZE + data.length
  | _ => 0

/-- A `removeRecord` call carries a cursor position, which is a real record
offset, never the `NOT_FOUND` sentinel. -/
def opOk : StoreOp → Bool
  | .removeOp pos => pos != NOT_FOUND
  | _ => true

def runOps (s : RecordStore) : List StoreOp → RecordStore
  | [] => s
  | op :: ops => runOps (stepOp s op) ops

def opsGrowth (ops : List StoreOp) : Nat := (ops.map opGrowth).sum

theorem flushStore_highWater (s : RecordStore) : (flushStore s).highWater = s.highWater := rfl

theorem getFromFreeList_none_eq (s : RecordStore) (cap : Nat) (data : List Nat)
    (s1 : RecordStore) (he : getFromFreeList s cap data = (s1, none)) : s1 = s := by
  unfold getFromFreeList at he
  by_cases hz : s.hdr.totalFreeRecords = 0
  · rw [if_pos hz] at he
    simp only [Prod.mk.injEq] at he
    exact he.1.symm
  · rw [if_neg hz] at he
    exact freeListScan_none cap data s.freeLookupDepth s _ s1 he

theorem getFromFreeList_some_lastRecord (s : RecordStore) (cap : Nat) (data : List Nat)
    (s1 : RecordStore) (r : Nat × RecordHeader)
    (he : getFromFreeList s cap data = (s1, some r)) :
    s1.hdr.lastRecord ≠ NOT_FOUND := by
  unfold getFromFreeList at he
  by_cases hz : s.hdr.totalFreeRecords = 0
  · rw [if_pos hz] at he
    simp only [Prod.mk.injEq] at he
    exact absurd he.2 (by simp)
  · rw [if_neg hz] at he
    rcases r with ⟨p, h⟩
    exact freeListScan_some_lastRecord cap data s.freeLookupDepth s _ s1 p h he

theorem allocateRecord_none_eq (s : RecordStore) (cap : Nat) (data : List Nat)
    (s1 : RecordStore) (he : allocateRecord s cap data = (s1, none)) : s1 = s := by
  unfold allocateRecord at he
  by_cases hc : s.hdr.firstFreeRecord = NOT_FOUND ∧ s.hdr.lastRecord = NOT_FOUND
  · rw [if_pos hc] at he
    have h2 := congrArg Prod.snd he
    simp at h2
  · rw [if_neg hc] at he
    rcases hg : getFromFreeList s cap data with ⟨s2, rr⟩
    rw [hg] at he
    rcases rr with _ | rr
    · have hs2 : s2 = s := getFromFreeList_none_eq s cap data s2 hg
      have he2 : appendNewRecord s2 cap data = (s1, none) := he
      rw [hs2] at he2
      unfold appendNewRecord at he2
      by_cases hz : cap = 0
      · rw [if_pos hz] at he2
        simp only [Prod.mk.injEq] at he2
        exact he2.1.symm
      · rw [if_neg hz] at he2
        have h2 := congrArg Prod.snd he2
        simp only [appendNewRecordOk] at h2
        simp at h2
    · have h2 := congrArg Prod.snd he
      simp at h2

theorem allocateRecord_some_lastRecord (s : RecordStore) (cap : Nat) (data : List Nat)
    (hne : s.hdr.endOfData ≠ NOT_FOUND)
    (s1 : RecordStore) (r : Nat × RecordHeader)
    (he : allocateRecord s cap data = (s1, some r)) :
    s1.hdr.lastRecord ≠ NOT_FOUND := by
  have h64 : STORAGE_HEADER_SIZE = 64 := rfl
  have hNF : NOT_FOUND = 2 ^ 64 - 1 := rfl
  unfold allocateRecord at he
  by_cases hc : s.hdr.firstFreeRecord = NOT_FOUND ∧ s.hdr.lastRecord = NOT_FOUND
  · rw [if_pos hc] at he
    have h1 := congrArg Prod.fst he
    simp only at h1
    rw [← h1, createFirstRecord_lastRecord]
    omega
  · rw [if_neg hc] at he
    rcases hg : getFromFreeList s cap data with ⟨s2, rr⟩
    rw [hg] at he
    rcases rr with _ | rr
    · have hs2 : s2 = s := getFromFreeList_none_eq s cap data s2 hg
      have he2 : appendNewRecord s2 cap data = (s1, some r) := he
      rw [hs2] at he2
      unfold appendNewRecord at he2
      by_cases hz : cap = 0
      · rw [if_pos hz] at he2
        have h2 := congrArg Prod.snd he2
        simp at h2
      · rw [if_neg hz] at he2
        have h1 := congrArg Prod.fst he2
        simp only at h1
        rw [← h1, appendNewRecordOk_lastRecord]
        exact hne
    · have h1 := congrArg Prod.fst he
      simp only at h1
      rw [← h1]
      exact getFromFreeList_some_lastRecord s cap data s2 rr hg

theorem allocateRecord_preserves (s : RecordStore) (data : List Nat)
    (hInv : StoreInv s)
    (hb : s.hdr.endOfData + (RECORD_HEADER_SIZE + data.length) < NOT_FOUND) :
    StoreInv ((allocateRecord s data.length data).1) ∧
    s.hdr.endOfData ≤ ((allocateRecord s data.length data).1).hdr.endOfData ∧
    ((allocateRecord s data.length data).1).hdr.endOfData
      ≤ s.hdr.endOfData + (RECORD_HEADER_SIZE + data.length) := by
  have h64 : STORAGE_HEADER_SIZE = 64 := rfl
  have hNF : NOT_FOUND = 2 ^ 64 - 1 := rfl
  by_cases hc : s.hdr.firstFreeRecord = NOT_FOUND ∧ s.hdr.lastRecord = NOT_FOUND
  · have ha : (allocateRecord s data.length data).1 = (createFirstRecord s data.length data).1 := by
      unfold allocateRecord
      rw [if_pos hc]
    rw [ha]
    have he := createFirstRecord_endOfData s data.length data
    have hl := createFirstRecord_lastRecord s data.length data
    have hw := createFirstRecord_highWater_ge s data.length data
    have hend := hInv.1 hc
    refine ⟨⟨?_, ?_⟩, ?_, ?_⟩
    · intro hcc
      rw [hl] at hcc
      exact absurd hcc.2 (by omega)
    · rw [he]
      exact le_trans (le_max_right _ _) hw
    · rw [he, hend]
      omega
    · rw [he, hend]
      omega
  · rcases hg : getFromFreeList s data.length data with ⟨s2, rr⟩
    rcases rr with _ | rr
    · have hs2 : s2 = s := getFromFreeList_none_eq s data.length data s2 hg
      have ha : (allocateRecord s data.length data).1
          = (appendNewRecord s data.length data).1 := by
        unfold allocateRecord
        rw [if_neg hc, hg, hs2]
      rw [ha]
      unfold appendNewRecord
      by_cases hz : data.length = 0
      · rw [if_pos hz]
        exact ⟨hInv, le_refl _, Nat.le_add_right _ _⟩
      · rw [if_neg hz]
        have he := appendNewRecordOk_endOfData s data.length data
        have hl := appendNewRecordOk_lastRecord s data.length data
        have hw := appendNewRecordOk_highWater_ge s data.length data
        refine ⟨⟨?_, ?_⟩, ?_, ?_⟩
        · intro hcc
          rw [hl] at hcc
          exact absurd hcc.2 (by omega)
        · rw [he]
          exact le_trans (le_max_right _ _) hw
        · rw [he]
          omega
        · rw [he]
          omega
    · have ha : (allocateRecord s data.length data).1 = s2 := by
        unfold allocateRecord
        rw [if_neg hc, hg]
      rw [ha]
      have hend := getFromFreeList_endOfData s data.length data s2 _ hg
      have hw := getFromFreeList_highWater_le s data.length data s2 _ hg
      have hlast := getFromFreeList_some_lastRecord s data.length data s2 rr hg
      refine ⟨⟨?_, ?_⟩, ?_, ?_⟩
      · intro hcc
        exact absurd hcc.2 hlast
      · rw [hend]
        exact le_trans hInv.2 hw
      · rw [hend]
      · rw [hend]
        omega

theorem addFreeHdr_inv1_aux (s : RecordStore) (pos : Nat) (hpos : pos ≠ NOT_FOUND)
    (hI : s.hdr.firstFreeRecord = NOT_FOUND ∧ s.hdr.lastRecord = NOT_FOUND →
      s.hdr.endOfData = STORAGE_HEADER_SIZE)
    (A : StorageHeader) (hcA : A = addFreeHdr s.hdr pos ∨ A = s.hdr) :
    A.firstFreeRecord = NOT_FOUND ∧ A.lastRecord = NOT_FOUND →
    A.endOfData = STORAGE_HEADER_SIZE := by
  rcases hcA with hcA | hcA
  · subst hcA
    intro hcc
    have hf : (addFreeHdr s.hdr pos).firstFreeRecord
        = if s.hdr.firstFreeRecord = NOT_FOUND then pos else s.hdr.firstFreeRecord := rfl
    rw [hf] at hcc
    by_cases hfn : s.hdr.firstFreeRecord = NOT_FOUND
    · rw [if_pos hfn] at hcc
      exact absurd hcc.1 hpos
    · rw [if_neg hfn] at hcc
      exact absurd hcc.1 hfn
  · subst hcA
    exact hI

theorem removeRecord_inv1 (s : RecordStore) (pos : Nat) (hpos : pos ≠ NOT_FOUND)
    (hI : s.hdr.firstFreeRecord = NOT_FOUND ∧ s.hdr.lastRecord = NOT_FOUND →
      s.hdr.endOfData = STORAGE_HEADER_SIZE) :
    ((removeRecord s pos).1).hdr.firstFreeRecord = NOT_FOUND ∧
      ((removeRecord s pos).1).hdr.lastRecord = NOT_FOUND →
    ((removeRecord s pos).1).hdr.endOfData = STORAGE_HEADER_SIZE := by
  unfold removeRecord
  by_cases hro : s.readOnly = true
  · rw [if_pos hro]
    exact hI
  · simp only [Bool.not_eq_true] at hro
    rw [hro]
    simp only [Bool.false_eq_true, if_false]
    rcases hE : readRecordHeader s.file pos with _ | h
    · exact hI
    · by_cases hb : h.bitFlags &&& RECORD_DELETED_FLAG ≠ 0
      · simp only [ne_eq, hb, not_false_eq_true, if_true]
        exact hI
      · simp only [hb, if_false]
        by_cases h1 : h.previous ≠ NOT_FOUND ∧ h.next ≠ NOT_FOUND
        · rw [if_pos h1]
          have hfst : (removeMiddle s pos h).1.hdr
              = { (addRecordToFreeList (midW2 s h).1 pos).1.hdr with
                  totalRecords := (addRecordToFreeList (midW2 s h).1 pos).1.hdr.totalRecords - 1 } := by
            rw [removeMiddle_eq, writeStorageHeader_hdr]
          rw [hfst]
          have hpf : ({ (addRecordToFreeList (midW2 s h).1 pos).1.hdr with
              totalRecords := (addRecordToFreeList (midW2 s h).1 pos).1.hdr.totalRecords - 1
              } : StorageHeader).firstFreeRecord
              = (addRecordToFreeList (midW2 s h).1 pos).1.hdr.firstFreeRecord := rfl
          have hpl : ({ (addRecordToFreeList (midW2 s h).1 pos).1.hdr with
              totalRecords := (addRecordToFreeList (midW2 s h).1 pos).1.hdr.totalRecords - 1
              } : StorageHeader).lastRecord
              = (addRecordToFreeList (midW2 s h).1 pos).1.hdr.lastRecord := rfl
          have hpe : ({ (addRecordToFreeList (midW2 s h).1 pos).1.hdr with
              totalRecords := (addRecordToFreeList (midW2 s h).1 pos).1.hdr.totalRecords - 1
              } : StorageHeader).endOfData
              = (addRecordToFreeList (midW2 s h).1 pos).1.hdr.endOfData := rfl
          rw [hpf, hpl, hpe]
          have hc := addRecordToFreeList_hdr_cases (midW2 s h).1 pos
          rw [midW2_fst_hdr] at hc
          exact addFreeHdr_inv1_aux s pos hpos hI _ hc
        · rw [if_neg h1]
          by_cases h2 : h.previous ≠ NOT_FOUND
          · rw [if_pos h2]
            have hfst : (removeTail s pos h).1.hdr
                = { (addRecordToFreeList (tailW1 s h).1 pos).1.hdr with
                    lastRecord := h.previous,
                    totalRecords := (addRecordToFreeList (tailW1 s h).1 pos).1.hdr.totalRecords - 1 } := by
              rw [removeTail_eq, writeStorageHeader_hdr]
            rw [hfst]
            have hpl : ({ (addRecordToFreeList (tailW1 s h).1 pos).1.hdr with
                lastRecord := h.previous,
                totalRecords := (addRecordToFreeList (tailW1 s h).1 pos).1.hdr.totalRecords - 1
                } : StorageHeader).lastRecord = h.previous := rfl
            rw [hpl]
            intro hcc
            exact absurd hcc.2 h2
          · rw [if_neg h2]
            by_cases h3 : h.next ≠ NOT_FOUND
            · rw [if_pos h3]
              have hfst : (removeHead s pos h).1.hdr
                  = { (addRecordToFreeList (headW1 s h).1 pos).1.hdr with
                      firstRecord := h.next,
                      totalRecords := (addRecordToFreeList (headW1 s h).1 pos).1.hdr.totalRecords - 1 } := by
                rw [removeHead_eq, writeStorageHeader_hdr]
              rw [hfst]
              have hpf : ({ (addRecordToFreeList (headW1 s h).1 pos).1.hdr with
                  firstRecord := h.next,
                  totalRecords := (addRecordToFreeList (headW1 s h).1 pos).1.hdr.totalRecords - 1
                  } : StorageHeader).firstFreeRecord
                  = (addRecordToFreeList (headW1 s h).1 pos).1.hdr.firstFreeRecord := rfl
              have hpl : ({ (addRecordToFreeList (headW1 s h).1 pos).1.hdr with
                  firstRecord := h.next,
                  totalRecords := (addRecordToFreeList (headW1 s h).1 pos).1.hdr.totalRecords - 1
                  } : StorageHeader).lastRecord
                  = (addRecordToFreeList (headW1 s h).1 pos).1.hdr.lastRecord := rfl
              have hpe : ({ (addRecordToFreeList (headW1 s h).1 pos).1.hdr with
                  firstRecord := h.next,
                  totalRecords := (addRecordToFreeList (headW1 s h).1 pos).1.hdr.totalRecords - 1
                  } : StorageHeader).endOfData
                  = (addRecordToFreeList (headW1 s h).1 pos).1.hdr.endOfData := rfl
              rw [hpf, hpl, hpe]
              have hc := addRecordToFreeList_hdr_cases (headW1 s h).1 pos
              rw [headW1_fst_hdr] at hc
              exact addFreeHdr_inv1_aux s pos hpos hI _ hc
            · rw [if_neg h3]
              have hfst : (removeOnly s pos h).1.hdr
                  = { (addRecordToFreeList s pos).1.hdr with
                      firstRecord := NOT_FOUND, lastRecord := NOT_FOUND,
                      totalRecords := (addRecordToFreeList s pos).1.hdr.totalRecords - 1 } := by
                rw [removeOnly_eq, writeStorageHeader_hdr]
              rw [hfst]
              have hpf : ({ (addRecordToFreeList s pos).1.hdr with
                  firstRecord := NOT_FOUND, lastRecord := NOT_FOUND,
                  totalRecords := (addRecordToFreeList s pos).1.hdr.totalRecords - 1
                  } : StorageHeader).firstFreeRecord
                  = (addRecordToFreeList s pos).1.hdr.firstFreeRecord := rfl
              rw [hpf]
              have hbit : h.bitFlags &&& RECORD_DELETED_FLAG = 0 := not_ne_iff.mp hb
              have hA := addRecordToFreeList_hdr_of_read s pos h hE hbit
              rw [hA]
              intro hcc
              have hf : (addFreeHdr s.hdr pos).firstFreeRecord
                  = if s.hdr.firstFreeRecord = NOT_FOUND then pos
                    else s.hdr.firstFreeRecord := rfl
              rw [hf] at hcc
              by_cases hfn : s.hdr.firstFreeRecord = NOT_FOUND
              · rw [if_pos hfn] at hcc
                exact absurd hcc.1 hpos
              · rw [if_neg hfn] at hcc
                exact absurd hcc.1 hfn

theorem createRecord_preserves (s : RecordStore) (data : List Nat)
    (hInv : StoreInv s)
    (hbud : s.hdr.endOfData + (RECORD_HEADER_SIZE + data.length) < NOT_FOUND) :
    StoreInv ((createRecord s data).1) ∧
    s.hdr.endOfData ≤ ((createRecord s data).1).hdr.endOfData ∧
    ((createRecord s data).1).hdr.endOfData
      ≤ s.hdr.endOfData + (RECORD_HEADER_SIZE + data.length) := by
  unfold createRecord
  by_cases hro : s.readOnly = true
  · rw [if_pos hro]
    exact ⟨hInv, le_refl _, Nat.le_add_right _ _⟩
  · simp only [Bool.not_eq_true] at hro
    rw [hro]
    simp only [Bool.false_eq_true, if_false]
    exact allocateRecord_preserves s data hInv hbud

theorem inplace_hw (s : RecordStore) (offset : Nat) (bs data2 : List Nat)
    (h : s.hdr.endOfData ≤ s.highWater) :
    ((s.wr offset bs).wr (offset + RECORD_HEADER_SIZE) data2).hdr.endOfData
      ≤ ((s.wr offset bs).wr (offset + RECORD_HEADER_SIZE) data2).highWater := by
  rw [wr_hdr, wr_hdr]
  exact le_trans h (le_trans (wr_highWater_le _ _ _) (wr_highWater_le _ _ _))

theorem writeRecordData_preserves (s : RecordStore) (offset : Nat) (data : List Nat)
    (hInv : StoreInv s)
    (hbud : s.hdr.endOfData + (RECORD_HEADER_SIZE + data.length) < NOT_FOUND) :
    StoreInv ((writeRecordData s offset data).1) ∧
    s.hdr.endOfData ≤ ((writeRecordData s offset data).1).hdr.endOfData ∧
    ((writeRecordData s offset data).1).hdr.endOfData
      ≤ s.hdr.endOfData + (RECORD_HEADER_SIZE + data.length) := by
  have hNF : NOT_FOUND = 2 ^ 64 - 1 := rfl
  unfold writeRecordData
  by_cases hg : s.readOnly = true ∨ offset = NOT_FOUND ∨ data.length = 0
  · rw [if_pos hg]
    exact ⟨hInv, le_refl _, Nat.le_add_right _ _⟩
  · rw [if_neg hg]
    rcases hE : readRecordHeader s.file offset with _ | h
    · exact ⟨hInv, le_refl _, Nat.le_add_right _ _⟩
    · by_cases hb : h.bitFlags &&& RECORD_DELETED_FLAG ≠ 0
      · simp only [ne_eq, hb, not_false_eq_true, if_true]
        exact ⟨hInv, le_refl _, Nat.le_add_right _ _⟩
      · simp only [hb, if_false]
        by_cases hcap : data.length ≤ h.recordCapacity
        · simp only [hcap, if_true]
          refine ⟨⟨?_, ?_⟩, ?_, ?_⟩
          · exact hInv.1
          · exact inplace_hw s offset _ data hInv.2
          · exact le_refl _
          · exact Nat.le_add_right _ _
        · simp only [hcap, if_false]
          rcases hA : allocateRecord s data.length data with ⟨s1, rr⟩
          rcases rr with _ | ⟨newOff, newH⟩
          · have hs1 : s1 = s := allocateRecord_none_eq s data.length data s1 hA
            subst hs1
            exact ⟨hInv, le_refl _, Nat.le_add_right _ _⟩
          · have hP := allocateRecord_preserves s data hInv hbud
            rw [hA] at hP
            have hne : s.hdr.endOfData ≠ NOT_FOUND := by omega
            have hlast : s1.hdr.lastRecord ≠ NOT_FOUND :=
              allocateRecord_some_lastRecord s data.length data hne s1 (newOff, newH) hA
            refine ⟨⟨?_, ?_⟩, ?_, ?_⟩
            · show ((relocateTail s1 h newOff offset newH).1).hdr.firstFreeRecord = NOT_FOUND ∧
                  ((relocateTail s1 h newOff offset newH).1).hdr.lastRecord = NOT_FOUND →
                  ((relocateTail s1 h newOff offset newH).1).hdr.endOfData = STORAGE_HEADER_SIZE
              intro hcc
              rcases relocateTail_hdr_cases s1 h newOff offset newH with hc | hc
              · rw [hc] at hcc
                have hl : (addFreeHdr s1.hdr offset).lastRecord = s1.hdr.lastRecord := rfl
                rw [hl] at hcc
                exact absurd hcc.2 hlast
              · rw [hc] at hcc
                exact absurd hcc.2 hlast
            · show ((relocateTail s1 h newOff offset newH).1).hdr.endOfData
                  ≤ ((relocateTail s1 h newOff offset newH).1).highWater
              rw [relocateTail_endOfData]
              exact le_trans hP.1.2 (relocateTail_highWater_le s1 h newOff offset newH)
            · show s.hdr.endOfData ≤ ((relocateTail s1 h newOff offset newH).1).hdr.endOfData
              rw [relocateTail_endOfData]
              exact hP.2.1
            · show ((relocateTail s1 h newOff offset newH).1).hdr.endOfData
                  ≤ s.hdr.endOfData + (RECORD_HEADER_SIZE + data.length)
              rw [relocateTail_endOfData]
              exact hP.2.2

theorem stepOp_preserves (s : RecordStore) (op : StoreOp)
    (hInv : StoreInv s) (hok : opOk op = true)
    (hbud : s.hdr.endOfData + opGrowth op < NOT_FOUND) :
    StoreInv (stepOp s op) ∧ s.hdr.endOfData ≤ (stepOp s op).hdr.endOfData ∧
    (stepOp s op).hdr.endOfData ≤ s.hdr.endOfData + opGrowth op := by
  cases op with
  | createOp data =>
    exact createRecord_preserves s data hInv hbud
  | removeOp pos =>
    simp only [opOk, bne_iff_ne] at hok
    refine ⟨⟨?_, ?_⟩, ?_, ?_⟩
    · exact removeRecord_inv1 s pos hok hInv.1
    · show ((removeRecord s pos).1).hdr.endOfData ≤ ((removeRecord s pos).1).highWater
      rw [removeRecord_endOfData]
      exact le_trans hInv.2 (removeRecord_highWater_le s pos)
    · show s.hdr.endOfData ≤ ((removeRecord s pos).1).hdr.endOfData
      rw [removeRecord_endOfData]
    · show ((removeRecord s pos).1).hdr.endOfData
          ≤ s.hdr.endOfData + opGrowth (StoreOp.removeOp pos)
      rw [removeRecord_endOfData]
      exact Nat.le_add_right _ _
  | getOp pos =>
    exact ⟨hInv, le_refl _, Nat.le_add_right _ _⟩
  | readOp pos =>
    exact ⟨hInv, le_refl _, Nat.le_add_right _ _⟩
  | writeOp pos data =>
    exact writeRecordData_preserves s pos data hInv hbud
  | flushOp =>
    exact ⟨hInv, le_refl _, Nat.le_add_right _ _⟩

theorem runOps_preserves (ops : List StoreOp) :
    ∀ s : RecordStore, StoreInv s → ops.all opOk = true →
    s.hdr.endOfData + opsGrowth ops < NOT_FOUND →
    StoreInv (runOps s ops) ∧ s.hdr.endOfData ≤ (runOps s ops).hdr.endOfData ∧
    (runOps s ops).hdr.endOfData ≤ s.hdr.endOfData + opsGrowth ops := by
  induction ops with
  | nil =>
    intro s hInv _ _
    exact ⟨hInv, le_refl _, Nat.le_add_right _ _⟩
  | cons op ops ih =>
    intro s hInv hok hbud
    simp only [List.all_cons, Bool.and_eq_true] at hok
    have hg : opsGrowth (op :: ops) = opGrowth op + opsGrowth ops := by
      simp [opsGrowth]
    rw [hg] at hbud
    have hstep := stepOp_preserves s op hInv hok.1 (by omega)
    have hbud2 : (stepOp s op).hdr.endOfData + opsGrowth ops < NOT_FOUND := by
      have h2 := hstep.2.2
      omega
    have hrest := ih (stepOp s op) hstep.1 hok.2 hbud2
    refine ⟨?_, ?_, ?_⟩
    · show StoreInv (runOps (stepOp s op) ops)
      exact hrest.1
    · show s.hdr.endOfData ≤ (runOps (stepOp s op) ops).hdr.endOfData
      exact le_trans hstep.2.1 hrest.2.1
    · show (runOps (stepOp s op) ops).hdr.endOfData
          ≤ s.hdr.endOfData + opsGrowth (op :: ops)
      have h1 := hrest.2.2
      have h2 := hstep.2.2
      rw [hg]
      omega

theorem runOps_append (s : RecordStore) (pre suf : List StoreOp) :
    runOps s (pre ++ suf) = runOps (runOps s pre) suf := by
  induction pre generalizing s with
  | nil => rfl
  | cons op ops ih =>
    show runOps (stepOp s op) (ops ++ suf) = runOps (runOps (stepOp s op) ops) suf
    exact ih (stepOp s op)

/-- C7: over every sequence of public operations on one store — create,
remove (of a real record offset, never the `NOT_FOUND` sentinel), the two
cursor reads, payload overwrite, flush — run from any state satisfying the
store invariant (an empty live list still has the fresh `endOfData = 64`,
and everything up to `endOfData` was written through the cache) and staying
in the no-overflow regime of the 64-bit `endOfData` counter, `endOfData` is
non-decreasing: its value after any prefix of the run is at most its value
after the whole run.  And after a flush following the run, `endOfData`
never exceeds the block file's byte length, because flush persists every
cached page in full. -/
theorem endOfData_monotone (s : RecordStore) (ops pre suf : List StoreOp)
    (hsplit : ops = pre ++ suf)
    (hInv : StoreInv s)
    (hok : ops.all opOk = true)
    (hbud : s.hdr.endOfData + opsGrowth ops < NOT_FOUND) :
    (runOps s pre).hdr.endOfData ≤ (runOps s ops).hdr.endOfData ∧
    (stepOp (runOps s ops) StoreOp.flushOp).hdr.endOfData
      ≤ (stepOp (runOps s ops) StoreOp.flushOp).fileSize := by
  subst hsplit
  have hokp : pre.all opOk = true ∧ suf.all opOk = true := by
    simpa [List.all_append, Bool.and_eq_true] using hok
  have hgsplit : opsGrowth (pre ++ suf) = opsGrowth pre + opsGrowth suf := by
    simp [opsGrowth]
  rw [hgsplit] at hbud
  have hpre := runOps_preserves pre s hInv hokp.1 (by omega)
  have hsuf := runOps_preserves suf (runOps s pre) hpre.1 hokp.2 (by
    have h22 := hpre.2.2
    omega)
  constructor
  · rw [runOps_append]
    exact hsuf.2.1
  · have hIT : StoreInv (runOps s (pre ++ suf)) := by
      rw [runOps_append]
      exact hsuf.1
    show (flushStore (runOps s (pre ++ suf))).hdr.endOfData
      ≤ (flushStore (runOps s (pre ++ suf))).fileSize
    rw [flushStore_hdr, flushStore_fileSize]
    have hp : PAGE_SIZE = 8192 := rfl
    have hceil : (runOps s (pre ++ suf)).highWater
        ≤ (((runOps s (pre ++ suf)).highWater + PAGE_SIZE - 1) / PAGE_SIZE) * PAGE_SIZE := by
      rw [hp]
      have h1 := Nat.div_add_mod ((runOps s (pre ++ suf)).highWater + 8191) 8192
      have h2 : ((runOps s (pre ++ suf)).highWater + 8191) % 8192 < 8192 :=
        Nat.mod_lt _ (by norm_num)
      omega
    exact le_trans (le_trans hIT.2 hceil) (le_max_right _ _)

/-- Witness: on the fresh store, run create-one-byte-record then remove it;
`endOfData` after the create prefix is within its value after the whole
run, and after a flush it is within the block file. -/
theorem endOfData_monotone_witness :
    (runOps freshStore [StoreOp.createOp [104]]).hdr.endOfData
      ≤ (runOps freshStore [StoreOp.createOp [104], StoreOp.removeOp 64]).hdr.endOfData ∧
    (stepOp (runOps freshStore [StoreOp.createOp [104], StoreOp.removeOp 64])
        StoreOp.flushOp).hdr.endOfData
      ≤ (stepOp (runOps freshStore [StoreOp.createOp [104], StoreOp.removeOp 64])
        StoreOp.flushOp).fileSize :=
  endOfData_monotone freshStore [StoreOp.createOp [104], StoreOp.removeOp 64]
    [StoreOp.createOp [104]] [StoreOp.removeOp 64] rfl
    ⟨fun _ => rfl, by decide⟩ (by decide) (by decide)

end Cloudless
